import Mathlib

/-!
# Clock network routing-resource-graph synthesis (vpr/src/route/clock_network_types.cpp)

A shallow embedding of the clock-network node generator and theorems about it.  The
placement reader and writer (vpr/src/base/read_place.cpp) are embedded after it, in the
section on placement files.

Conventions of the embedding.

* `unsigned` is 32 bits wide and `size_t` 64 bits wide.  Unsigned arithmetic wraps, so every
  unsigned expression is taken modulo `2^32` (`to_unsigned`), `grid.width() - 1` is taken modulo
  `2^64` (`size_sub`), and an unsigned value stored in an `int` is read back in two's complement
  (`to_int`).
* Signed `int` arithmetic (`x_chan_wire.start + 1`, `inst_num + 50`, `inst_num++`) is exact:
  signed overflow is undefined behaviour in C++ and has no value to model.
* `create_chanx_wire` returns `rr_nodes.size() - 1` through `int`: the index is narrowed to its
  low 32 bits (`to_int`).  Used again as a vector index, the `int` is converted to `size_t`
  (`to_size`); an index outside the vector is undefined behaviour and ends the run with
  `Outcome.undefined`.
* Loops take an iteration budget `fuel`; a loop that exhausts it stops with `Outcome.timeout`,
  which carries the state reached so far.
-/

/-! ## Machine integers -/

/-- Value of an integer expression converted to `unsigned` (reduction modulo `2^32`). -/
def to_unsigned (i : Int) : Nat := (i % 4294967296).toNat

/-- Value of an `unsigned` converted to `int` (two's complement). -/
def to_int (u : Nat) : Int :=
  if u % 4294967296 < 2147483648 then ((u % 4294967296 : Nat) : Int)
  else ((u % 4294967296 : Nat) : Int) - 4294967296

/-- Value of an `int` converted to `size_t` (reduction modulo `2^64`), as when an `int` is used
as a vector index. -/
def to_size (i : Int) : Nat := (i % 18446744073709551616).toNat

/-- Subtraction of two `size_t` values (reduction modulo `2^64`). -/
def size_sub (a b : Nat) : Nat :=
  (a % 18446744073709551616 + 18446744073709551616 - b % 18446744073709551616)
    % 18446744073709551616

/-! ## Outcomes and loops -/

/-- Error kinds passed to `vpr_throw` in the embedded sources. -/
inductive e_vpr_error where
  | VPR_ERROR_ROUTE
  | VPR_ERROR_PLACE_F
  deriving DecidableEq, Repr

/-- The exception raised by `vpr_throw`: its kind and its message. -/
structure VprError where
  type : e_vpr_error
  msg : String
  deriving DecidableEq, Repr

/-- Result of running a statement on a state of type `σ`: normal completion, an exception
(with the state at the point of the throw), an exhausted iteration budget (with the state
reached so far), or undefined behaviour (a vector index outside the vector, with the state
before the access). -/
inductive Outcome (σ : Type) where
  | ok (s : σ)
  | error (e : VprError) (s : σ)
  | timeout (s : σ)
  | undefined (s : σ)
  deriving DecidableEq, Repr

/-- The state an outcome carries. -/
def Outcome.state {σ : Type} : Outcome σ → σ
  | Outcome.ok s => s
  | Outcome.error _ s => s
  | Outcome.timeout s => s
  | Outcome.undefined s => s

/-- Whether the outcome is a normal completion. -/
def Outcome.isOk {σ : Type} : Outcome σ → Bool
  | Outcome.ok _ => true
  | _ => false

/-- The C++ loop `for (i = init; cond(i); i = step(i)) body(i)`, run for at most `fuel`
tests of the condition.  An exception, a timeout or undefined behaviour of the body leaves the
loop at once. -/
def for_loop {ι σ : Type} (cond : ι → Bool) (step : ι → ι) (body : ι → σ → Outcome σ) :
    Nat → ι → σ → Outcome σ
  | 0, _, s => Outcome.timeout s
  | fuel + 1, i, s =>
    if cond i then
      match body i s with
      | Outcome.ok s1 => for_loop cond step body fuel (step i) s1
      | Outcome.error e s1 => Outcome.error e s1
      | Outcome.timeout s1 => Outcome.timeout s1
      | Outcome.undefined s1 => Outcome.undefined s1
    else Outcome.ok s

/-! ## Collaborators that are not part of the embedded file -/

/-- Kinds of routing-resource node; the generator only names `CHANX` and `CHANY`. -/
inductive t_rr_type where
  | SOURCE
  | SINK
  | IPIN
  | OPIN
  | CHANX
  | CHANY
  deriving DecidableEq, Repr

/-- Modelled from the spec: the routing-resource node `t_rr_node` (declared outside the embedded
file) with the fields of section 3: coordinates, kind, capacity, track id and the ordered
sequence of outgoing edges `(target_node_index, switch_id)`. -/
structure t_rr_node where
  xlow : Int
  ylow : Int
  xhigh : Int
  yhigh : Int
  type : t_rr_type
  capacity : Int
  ptc_num : Int
  edges : List (Int × Int)
  deriving DecidableEq, Repr

/-- Modelled from the spec: the node that `rr_nodes.emplace_back()` appends, before any setter
has run. -/
def t_rr_node.emplace : t_rr_node :=
  { xlow := 0, ylow := 0, xhigh := 0, yhigh := 0, type := t_rr_type.SOURCE,
    capacity := 0, ptc_num := 0, edges := [] }

/-- Modelled from the spec: the coordinate setter of section 6, storing `(x1, y1, x2, y2)`. -/
def t_rr_node.set_coordinates (x1 y1 x2 y2 : Int) (n : t_rr_node) : t_rr_node :=
  { n with xlow := x1, ylow := y1, xhigh := x2, yhigh := y2 }

/-- Modelled from the spec: the kind setter of section 6. -/
def t_rr_node.set_type (t : t_rr_type) (n : t_rr_node) : t_rr_node :=
  { n with type := t }

/-- Modelled from the spec: the capacity setter of section 6. -/
def t_rr_node.set_capacity (c : Int) (n : t_rr_node) : t_rr_node :=
  { n with capacity := c }

/-- Modelled from the spec: the track-id setter of section 6. -/
def t_rr_node.set_ptc_num (p : Int) (n : t_rr_node) : t_rr_node :=
  { n with ptc_num := p }

/-- Modelled from the spec: append-a-directed-edge `(target_index, switch_id)` of section 6;
the new edge goes to the end of the node's edge sequence. -/
def t_rr_node.add_edge (sink_node iswitch : Int) (n : t_rr_node) : t_rr_node :=
  { n with edges := n.edges ++ [(sink_node, iswitch)] }

/-- Modelled from the spec: one entry of the switch-location registry,
`(network_name, point_kind, x, y) → node_index`. -/
structure SwitchLocation where
  clock_name : String
  switch_name : String
  x : Int
  y : Int
  node_index : Int
  deriving DecidableEq, Repr

/-- Modelled from the spec: the switch-location registry `ClockRRGraph` (declared outside the
embedded file), kept as the sequence of the entries registered so far, oldest first. -/
structure ClockRRGraph where
  switch_locations : List SwitchLocation
  deriving DecidableEq, Repr

/-- Modelled from the spec: `add_switch_location(network_name, point_kind, x, y, node_index)`
of section 4.5 registers one more entry and keeps the earlier ones (entries are
write-once). -/
def ClockRRGraph.add_switch_location (g : ClockRRGraph) (clock_name switch_name : String)
    (x y node_index : Int) : ClockRRGraph :=
  { switch_locations := g.switch_locations ++ [⟨clock_name, switch_name, x, y, node_index⟩] }

/-- Modelled from the spec: the device grid of section 6 (declared outside the embedded file),
read through `grid.width()` and `grid.height()`; the two dimensions are `size_t` values, as
`DeviceGrid::width()` and `DeviceGrid::height()` return them. -/
structure DeviceGrid where
  width : Nat
  height : Nat
  deriving DecidableEq, Repr

/-- The mutable state the generator works on: the node list `device_ctx.rr_nodes` and the
registry `clock_graph`. -/
structure SynthState where
  rr_nodes : List t_rr_node
  clock_graph : ClockRRGraph
  deriving DecidableEq, Repr

/-! ## Network parameters -/

/-- Metal layer of a clock wire. -/
structure MetalLayer where
  r_metal : Int
  c_metal : Int
  deriving DecidableEq, Repr

/-- The initial wire of a network: `start`, `end` and `position`, all of type `int`. -/
structure Wire where
  layer : MetalLayer
  start : Int
  end_ : Int
  position : Int
  deriving DecidableEq, Repr

/-- The repeat steps `repeat.x` and `repeat.y`. -/
structure WireRepeat where
  x : Int
  y : Int
  deriving DecidableEq, Repr

/-- The drive point: `drive.offset` and `drive.switch_idx`. -/
structure RibDrive where
  offset : Int
  switch_idx : Int
  deriving DecidableEq, Repr

/-- The tap points: `tap.offset` and `tap.increment`. -/
structure RibTap where
  offset : Int
  increment : Int
  deriving DecidableEq, Repr

/-- A rib network. -/
structure ClockRib where
  clock_name_ : String
  num_inst_ : Int
  x_chan_wire : Wire
  repeat_ : WireRepeat
  drive : RibDrive
  tap : RibTap
  deriving DecidableEq, Repr

/-- A spine network. -/
structure ClockSpine where
  clock_name_ : String
  num_inst_ : Int
  y_chan_wire : Wire
  repeat_ : WireRepeat
  drive : RibDrive
  tap : RibTap
  deriving DecidableEq, Repr

/-- An H-tree network (only the fields of the base class are used). -/
structure ClockHTree where
  clock_name_ : String
  num_inst_ : Int
  deriving DecidableEq, Repr

/-- The polymorphic clock network: one of the three topologies. -/
inductive ClockNetwork where
  | Rib (r : ClockRib)
  | Spine (s : ClockSpine)
  | HTree (h : ClockHTree)
  deriving DecidableEq, Repr

/-- Every `int` field of a rib network holds a 32-bit value. -/
@[reducible] def ClockRib.int_fields (r : ClockRib) : Prop :=
  (-2147483648 ≤ r.x_chan_wire.start ∧ r.x_chan_wire.start < 2147483648) ∧
  (-2147483648 ≤ r.x_chan_wire.end_ ∧ r.x_chan_wire.end_ < 2147483648) ∧
  (-2147483648 ≤ r.x_chan_wire.position ∧ r.x_chan_wire.position < 2147483648) ∧
  (-2147483648 ≤ r.repeat_.x ∧ r.repeat_.x < 2147483648) ∧
  (-2147483648 ≤ r.repeat_.y ∧ r.repeat_.y < 2147483648) ∧
  (-2147483648 ≤ r.drive.offset ∧ r.drive.offset < 2147483648) ∧
  (-2147483648 ≤ r.tap.offset ∧ r.tap.offset < 2147483648) ∧
  (-2147483648 ≤ r.tap.increment ∧ r.tap.increment < 2147483648)

/-! ## ClockNetwork getters -/

/-- Source function `ClockNetwork::get_num_inst`. -/
def ClockNetwork.get_num_inst : ClockNetwork → Int
  | ClockNetwork.Rib r => r.num_inst_
  | ClockNetwork.Spine s => s.num_inst_
  | ClockNetwork.HTree h => h.num_inst_

/-- Source function `ClockNetwork::get_name`. -/
def ClockNetwork.get_name : ClockNetwork → String
  | ClockNetwork.Rib r => r.clock_name_
  | ClockNetwork.Spine s => s.clock_name_
  | ClockNetwork.HTree h => h.clock_name_

/-! ## ClockRib member functions -/

/-- Source function `ClockRib::create_chanx_wire`: appends one node, sets its coordinates, kind,
capacity and track id through the `size_t` index `rr_nodes.size() - 1`, and returns that
index narrowed to `int`, together with the new node list. -/
def ClockRib.create_chanx_wire (x_start x_end y ptc_num : Int) (rr_nodes : List t_rr_node) :
    Int × List t_rr_node :=
  let rr_nodes := rr_nodes ++ [t_rr_node.emplace]
  let node_index := rr_nodes.length - 1
  let rr_nodes := rr_nodes.modify (t_rr_node.set_coordinates x_start y x_end y) node_index
  let rr_nodes := rr_nodes.modify (t_rr_node.set_type t_rr_type.CHANX) node_index
  let rr_nodes := rr_nodes.modify (t_rr_node.set_capacity 1) node_index
  let rr_nodes := rr_nodes.modify (t_rr_node.set_ptc_num ptc_num) node_index
  (to_int node_index, rr_nodes)

/-- Source function `ClockRib::record_tap_locations`: the loop
`for (unsigned x = x_start + tap.offset; x <= x_end; x += tap.increment)`. -/
def ClockRib.record_tap_locations (fuel : Nat) (self : ClockRib) (x_start x_end y : Nat)
    (left_rr_node_idx right_rr_node_idx : Int) (clock_graph : ClockRRGraph) :
    Outcome ClockRRGraph :=
  let tap_name := "tap"
  for_loop (fun x : Nat => decide (x ≤ x_end))
    (fun x => to_unsigned ((x : Int) + self.tap.increment))
    (fun x g =>
      if x < to_unsigned ((x_start : Int) + self.drive.offset) then
        Outcome.ok (g.add_switch_location self.clock_name_ tap_name (to_int x) (to_int y)
          left_rr_node_idx)
      else
        Outcome.ok (g.add_switch_location self.clock_name_ tap_name (to_int x) (to_int y)
          right_rr_node_idx))
    fuel (to_unsigned ((x_start : Int) + self.tap.offset)) clock_graph

/-- Body of the inner loop of `ClockRib::create_rr_nodes_for_one_instance`: the work done for
one tile `(x_start, x_end, y)`.  The two statements `rr_nodes[drive_node_idx].add_edge(...)`
index the vector with the `int` that `create_chanx_wire` returned. -/
def ClockRib.tile_body (fuel : Nat) (self : ClockRib) (ptc_num : Int) (x_start x_end y : Nat)
    (ctx : SynthState) : Outcome SynthState :=
  let drive_x : Int := to_int (to_unsigned ((x_start : Int) + self.drive.offset))
  match ClockRib.create_chanx_wire drive_x drive_x (to_int y) ptc_num ctx.rr_nodes with
  | (drive_node_idx, rr_nodes) =>
    let clock_graph :=
      ctx.clock_graph.add_switch_location self.clock_name_ "drive" drive_x (to_int y)
        drive_node_idx
    match ClockRib.create_chanx_wire (to_int x_start) drive_x (to_int y) ptc_num rr_nodes with
    | (left_node_idx, rr_nodes) =>
      match ClockRib.create_chanx_wire drive_x (to_int x_end) (to_int y) ptc_num rr_nodes with
      | (right_node_idx, rr_nodes) =>
        match self.record_tap_locations fuel x_start x_end y left_node_idx right_node_idx
            clock_graph with
        | Outcome.ok clock_graph =>
          if to_size drive_node_idx < rr_nodes.length then
            let rr_nodes :=
              rr_nodes.modify (t_rr_node.add_edge left_node_idx self.drive.switch_idx)
                (to_size drive_node_idx)
            let rr_nodes :=
              rr_nodes.modify (t_rr_node.add_edge right_node_idx self.drive.switch_idx)
                (to_size drive_node_idx)
            Outcome.ok { rr_nodes := rr_nodes, clock_graph := clock_graph }
          else Outcome.undefined { rr_nodes := rr_nodes, clock_graph := clock_graph }
        | Outcome.error e clock_graph =>
          Outcome.error e { rr_nodes := rr_nodes, clock_graph := clock_graph }
        | Outcome.timeout clock_graph =>
          Outcome.timeout { rr_nodes := rr_nodes, clock_graph := clock_graph }
        | Outcome.undefined clock_graph =>
          Outcome.undefined { rr_nodes := rr_nodes, clock_graph := clock_graph }

/-- Source function `ClockRib::create_rr_nodes_for_one_instance`: the outer loop over `(x_start, x_end)` and the
inner loop over `y`. -/
def ClockRib.create_rr_nodes_for_one_instance (fuel : Nat) (self : ClockRib) (grid : DeviceGrid)
    (inst_num : Int) (ctx : SynthState) : Outcome SynthState :=
  let ptc_num := inst_num + 50
  for_loop (fun xs : Nat × Nat => decide (xs.2 < size_sub grid.width 1))
    (fun xs => (to_unsigned ((xs.1 : Int) + self.repeat_.x),
      to_unsigned ((xs.2 : Int) + self.repeat_.x)))
    (fun xs =>
      for_loop (fun y : Nat => decide (y < size_sub grid.height 1))
        (fun y => to_unsigned ((y : Int) + self.repeat_.y))
        (fun y => self.tile_body fuel ptc_num xs.1 xs.2 y)
        fuel (to_unsigned self.x_chan_wire.position))
    fuel (to_unsigned (self.x_chan_wire.start + 1), to_unsigned self.x_chan_wire.end_) ctx

/-! ## ClockSpine member functions -/

/-- Source function `ClockSpine::create_chany_wire`. -/
def ClockSpine.create_chany_wire (y_start y_end x ptc_num : Int) (rr_nodes : List t_rr_node) :
    Int × List t_rr_node :=
  let rr_nodes := rr_nodes ++ [t_rr_node.emplace]
  let node_index := rr_nodes.length - 1
  let rr_nodes := rr_nodes.modify (t_rr_node.set_coordinates x y_start x y_end) node_index
  let rr_nodes := rr_nodes.modify (t_rr_node.set_type t_rr_type.CHANY) node_index
  let rr_nodes := rr_nodes.modify (t_rr_node.set_capacity 1) node_index
  let rr_nodes := rr_nodes.modify (t_rr_node.set_ptc_num ptc_num) node_index
  (to_int node_index, rr_nodes)

/-- Source function `ClockSpine::record_switch_point_locations_for_rr_node`: the body is empty. -/
def ClockSpine.record_switch_point_locations_for_rr_node (_y_start _y_end _x : Int)
    (_rr_node_index : Int) (clock_graph : ClockRRGraph) : ClockRRGraph :=
  clock_graph

/-- Body of the inner loop of `ClockSpine::create_rr_nodes_for_one_instance`: the work done
for one tile `(y_start, y_end, x)`. -/
def ClockSpine.tile_body (ptc_num : Int) (y_start y_end x : Nat) (ctx : SynthState) :
    Outcome SynthState :=
  match ClockSpine.create_chany_wire (to_int y_start) (to_int y_end) (to_int x) ptc_num
      ctx.rr_nodes with
  | (rr_node_index, rr_nodes) =>
    Outcome.ok
      { rr_nodes := rr_nodes,
        clock_graph :=
          ClockSpine.record_switch_point_locations_for_rr_node (to_int y_start) (to_int y_end)
            (to_int x) rr_node_index ctx.clock_graph }

/-- Source function `ClockSpine::create_rr_nodes_for_one_instance`: the outer loop over `(y_start, y_end)` and
the inner loop over `x`. -/
def ClockSpine.create_rr_nodes_for_one_instance (fuel : Nat) (self : ClockSpine)
    (grid : DeviceGrid) (inst_num : Int) (ctx : SynthState) : Outcome SynthState :=
  let ptc_num := inst_num
  for_loop (fun ys : Nat × Nat => decide (ys.2 < grid.height % 18446744073709551616))
    (fun ys => (to_unsigned ((ys.1 : Int) + self.repeat_.y),
      to_unsigned ((ys.2 : Int) + self.repeat_.y)))
    (fun ys =>
      for_loop (fun x : Nat => decide (x < grid.width % 18446744073709551616))
        (fun x => to_unsigned ((x : Int) + self.repeat_.x))
        (fun x => ClockSpine.tile_body ptc_num ys.1 ys.2 x)
        fuel (to_unsigned self.y_chan_wire.position))
    fuel (to_unsigned self.y_chan_wire.start, to_unsigned self.y_chan_wire.end_) ctx

/-! ## ClockHTree member functions -/

/-- Source function `ClockHTree::create_rr_nodes_for_one_instance`: always throws. -/
def ClockHTree.create_rr_nodes_for_one_instance (_self : ClockHTree) (_inst_num : Int)
    (ctx : SynthState) : Outcome SynthState :=
  Outcome.error ⟨e_vpr_error.VPR_ERROR_ROUTE, "HTrees are not yet supported.\n"⟩ ctx

/-! ## ClockNetwork member functions -/

/-- Virtual dispatch of `create_rr_nodes_for_one_instance` on the topology. -/
def ClockNetwork.create_rr_nodes_for_one_instance (fuel : Nat) (self : ClockNetwork)
    (grid : DeviceGrid) (inst_num : Int) (ctx : SynthState) : Outcome SynthState :=
  match self with
  | ClockNetwork.Rib r => r.create_rr_nodes_for_one_instance fuel grid inst_num ctx
  | ClockNetwork.Spine s => s.create_rr_nodes_for_one_instance fuel grid inst_num ctx
  | ClockNetwork.HTree h => h.create_rr_nodes_for_one_instance inst_num ctx

/-- Source function `ClockNetwork::create_rr_nodes_for_clock_network_wires`: the loop
`for (int inst_num = 0; inst_num < get_num_inst(); inst_num++)`. -/
def ClockNetwork.create_rr_nodes_for_clock_network_wires (fuel : Nat) (self : ClockNetwork)
    (grid : DeviceGrid) (ctx : SynthState) : Outcome SynthState :=
  for_loop (fun inst_num : Int => decide (inst_num < self.get_num_inst))
    (fun inst_num => inst_num + 1)
    (fun inst_num => self.create_rr_nodes_for_one_instance fuel grid inst_num)
    fuel 0 ctx

/-! ## Placement files (vpr/src/base/read_place.cpp)

Text is a list of characters.  A file is its content; an input stream is the list of the lines
that `std::getline` will still deliver.  The messages of the exceptions are not modelled: an
exception is identified by the place in the source that throws it. -/

/-- Modelled from the spec: the default delimiters of `vtr::split` (the whitespace tokenizer of
the placement format, not part of the embedded sources): blank, tab and newline. -/
def is_delim (c : Char) : Bool :=
  c == ' ' || c == '\t' || c == '\n'

/-- Modelled from the spec: the scan of `vtr::split`; `cur` is the token being read. -/
def split_go : List Char → List Char → List (List Char)
  | [], cur => if cur = [] then [] else [cur]
  | c :: cs, cur =>
    if is_delim c then
      if cur = [] then split_go cs [] else cur :: split_go cs []
    else split_go cs (cur ++ [c])

/-- Modelled from the spec: `vtr::split(line)`, the non-empty maximal runs of characters that
are not delimiters. -/
def split (line : List Char) : List (List Char) :=
  split_go line []

/-- Modelled from the spec: the scan of repeated `std::getline`; `cur` is the line being
read. -/
def getlines_go : List Char → List Char → List (List Char)
  | [], cur => if cur = [] then [] else [cur]
  | c :: cs, cur =>
    if c = '\n' then cur :: getlines_go cs [] else getlines_go cs (cur ++ [c])

/-- Modelled from the spec: the lines that repeated calls of `std::getline` deliver for a file
content, up to the end of the file. -/
def getlines (content : List Char) : List (List Char) :=
  getlines_go content []

/-- Value of a decimal digit. -/
def digit_val (c : Char) : Option Nat :=
  if 48 ≤ c.toNat ∧ c.toNat ≤ 57 then some (c.toNat - 48) else none

/-- Reads a run of decimal digits after the value `v`; `none` when a character is no digit. -/
def parse_digits : List Char → Nat → Option Nat
  | [], v => some v
  | c :: cs, v =>
    match digit_val c with
    | some d => parse_digits cs (v * 10 + d)
    | none => none

/-- Modelled from the spec: `vtr::atou`, the value of a token that is a decimal numeral of an
`unsigned`; `none` stands for the exception thrown on any other token. -/
def atou (tok : List Char) : Option Nat :=
  if tok = [] then none
  else
    match parse_digits tok 0 with
    | some v => if v < 4294967296 then some v else none
    | none => none

/-- Modelled from the spec: `vtr::atoi`, the value of a token that is a decimal numeral of an
`int`, with an optional minus sign; `none` stands for the exception thrown on any other
token. -/
def atoi (tok : List Char) : Option Int :=
  match tok with
  | [] => none
  | c :: cs =>
    if c = '-' then
      if cs = [] then none
      else
        match parse_digits cs 0 with
        | some v => if v ≤ 2147483648 then some (-(v : Int)) else none
        | none => none
    else
      match parse_digits tok 0 with
      | some v => if v < 2147483648 then some (v : Int) else none
      | none => none

/-- The character of a decimal digit. -/
def digit_char (d : Nat) : Char :=
  Char.ofNat (48 + d)

/-- Writes the decimal digits of `n` in front of `acc`. -/
def fmt_nat_go : Nat → Nat → List Char → List Char
  | 0, _, acc => acc
  | fuel + 1, n, acc =>
    if n / 10 = 0 then digit_char (n % 10) :: acc
    else fmt_nat_go fuel (n / 10) (digit_char (n % 10) :: acc)

/-- Modelled from the spec: the conversion `%zu` of `fprintf`, the decimal numeral of `n`. -/
def fmt_nat (n : Nat) : List Char :=
  fmt_nat_go (n + 1) n []

/-- Modelled from the spec: the conversion `%d` of `fprintf`. -/
def fmt_int (i : Int) : List Char :=
  if i < 0 then '-' :: fmt_nat (-i).toNat else fmt_nat i.toNat

/-- Source type `t_pl_loc`: a grid location and a sub-tile in it. -/
structure t_pl_loc where
  x : Int
  y : Int
  sub_tile : Int
  deriving DecidableEq, Repr

/-- Source type `t_block_loc`: the location of a block and whether it is locked. -/
structure t_block_loc where
  loc : t_pl_loc
  is_fixed : Bool
  deriving DecidableEq, Repr

/-- Modelled from the spec: a default-constructed `t_block_loc` (the value `resize` fills in):
no location (`OPEN = -1`) and not locked. -/
def t_block_loc.empty : t_block_loc :=
  ⟨⟨-1, -1, -1⟩, false⟩

/-- Source type `t_grid_blocks`: the number of blocks at a grid location and the block in each
sub-tile (`none` for no block). -/
structure t_grid_blocks where
  usage : Int
  blocks : Int → Option Nat

/-- Source type `PlacementContext`, the fields that `read_place.cpp` uses. `block_locs` is
indexed by block id. -/
structure PlacementContext where
  block_locs : List t_block_loc
  grid_blocks : Int → Int → t_grid_blocks
  placement_id : List Char

/-- The netlist and the device that the placement reader and writer consult; they are loaded
elsewhere and are parameters here. -/
structure PlaceEnv where
  /-- Source expression `cluster_ctx.clb_nlist.netlist_id()`. -/
  netlist_id : List Char
  /-- Source expression `cluster_ctx.clb_nlist.block_name(blk_id)` for the block ids
  `0, 1, ...` of `blocks()` in order. -/
  block_names : List (List Char)
  /-- Source expression `device_ctx.grid`. -/
  grid : DeviceGrid
  /-- Source expression `device_ctx.grid[x][y].type->capacity`. -/
  capacity : Int → Int → Int
  /-- Source expression `is_sub_tile_compatible(device_ctx.grid[x][y].type,
  cluster_ctx.clb_nlist.block_type(blk_id), sub_tile)`, as a function of `x`, `y`, `blk_id`
  and `sub_tile`. -/
  is_sub_tile_compatible : Int → Int → Nat → Int → Bool
  /-- Source function `vtr::secure_digest_file`, as a function of the content of the file. -/
  secure_digest : List Char → List Char

/-- Position of the first element equal to `a`. -/
def index_of {α : Type} [DecidableEq α] (a : α) : List α → Option Nat
  | [] => none
  | b :: l => if b = a then some 0 else (index_of a l).map (fun i => i + 1)

/-- Modelled from the spec: `clb_nlist.find_block(name)`, the id of the block of that name;
`none` stands for `ClusterBlockId::INVALID()`. -/
def PlaceEnv.find_block (env : PlaceEnv) (name : List Char) : Option Nat :=
  index_of name env.block_names

/-- The places of `read_place.cpp` that throw. -/
inductive ReadError where
  /-- Thrown by `VPR_FATAL_ERROR(VPR_ERROR_PLACE_F, "'%s' - Cannot open place file.\n")`. -/
  | cannot_open
  /-- Thrown for "Duplicate Netlist_File/Netlist_ID specification" at a line. -/
  | duplicate_netlist_id (lineno : Nat)
  /-- Thrown for a netlist id that differs from the loaded one, when digests are verified. -/
  | netlist_mismatch (lineno : Nat)
  /-- Thrown for "Current FPGA size ... is different from size when placement generated". -/
  | grid_mismatch (lineno : Nat)
  /-- Thrown for "Invalid line '%s' in placement file header". -/
  | invalid_header_line (lineno : Nat) (line : List Char)
  /-- Thrown by `vtr::atoi` or `vtr::atou` for a token that is no numeral. -/
  | invalid_number (tok : List Char)
  /-- Thrown for "The block with ID %d is listed twice in the constraints file." -/
  | listed_twice (blk_id : Option Nat)
  /-- Thrown for "The block with ID %d is out of range at location (%d, %d)." -/
  | out_of_range (blk_id : Option Nat) (x y : Int)
  /-- Thrown for "Attempt to place block %s at illegal location (%d, %d)." -/
  | illegal_location (name : List Char) (x y : Int)
  /-- Thrown for "Block %s subtile number (%d) is out of range." -/
  | subtile_out_of_range (name : List Char) (sub_tile : Int)
  /-- Thrown for "Invalid line '%s' in file". -/
  | invalid_line (lineno : Nat) (line : List Char)
  deriving DecidableEq, Repr

/-- Result of running a reader: normal completion with a value, an exception, or undefined
behaviour (an index outside a vector). -/
inductive ReadOutcome (α : Type) where
  | ok (a : α)
  | error (e : ReadError)
  | undefined
  deriving DecidableEq, Repr

/-- The value of a normal completion. -/
def ReadOutcome.val? {α : Type} : ReadOutcome α → Option α
  | ReadOutcome.ok a => some a
  | _ => none

/-- The exception of an outcome. -/
def ReadOutcome.error? {α : Type} : ReadOutcome α → Option ReadError
  | ReadOutcome.error e => some e
  | _ => none

/-- Source expression `tokens[i]`. -/
def tok (tokens : List (List Char)) (i : Nat) : List Char :=
  tokens.getD i []

/-- The local variables of `read_place_header` when its loop ends: the lines left in the
stream, the line counter and the two flags. -/
structure HeaderState where
  rest : List (List Char)
  lineno : Nat
  seen_netlist_id : Bool
  seen_grid_dimensions : Bool
  deriving DecidableEq, Repr

/-- Source function `read_place_header`, the body of its loop for the line numbered `lineno`:
returns the two flags `(seen_netlist_id, seen_grid_dimensions)` after the line. -/
def read_place_header_line (env : PlaceEnv) (verify_file_digests : Bool) (grid : DeviceGrid)
    (lineno : Nat) (line : List Char) (seen_netlist_id seen_grid_dimensions : Bool) :
    ReadOutcome (Bool × Bool) :=
  let tokens := split line
  if tokens = [] then ReadOutcome.ok (seen_netlist_id, seen_grid_dimensions)
  else if (tok tokens 0).head? = some '#' then
    ReadOutcome.ok (seen_netlist_id, seen_grid_dimensions)
  else if tokens.length = 4 ∧ tok tokens 0 = "Netlist_File:".toList
      ∧ tok tokens 2 = "Netlist_ID:".toList then
    if seen_netlist_id then ReadOutcome.error (ReadError.duplicate_netlist_id lineno)
    else if tok tokens 3 ≠ env.netlist_id ∧ verify_file_digests then
      ReadOutcome.error (ReadError.netlist_mismatch lineno)
    else ReadOutcome.ok (true, seen_grid_dimensions)
  else if tokens.length = 7 ∧ tok tokens 0 = "Array".toList ∧ tok tokens 1 = "size:".toList
      ∧ tok tokens 3 = "x".toList ∧ tok tokens 5 = "logic".toList
      ∧ tok tokens 6 = "blocks".toList then
    match atou (tok tokens 2) with
    | none => ReadOutcome.error (ReadError.invalid_number (tok tokens 2))
    | some place_file_width =>
      match atou (tok tokens 4) with
      | none => ReadOutcome.error (ReadError.invalid_number (tok tokens 4))
      | some place_file_height =>
        if grid.width % 18446744073709551616 ≠ place_file_width
            ∨ grid.height % 18446744073709551616 ≠ place_file_height then
          ReadOutcome.error (ReadError.grid_mismatch lineno)
        else ReadOutcome.ok (seen_netlist_id, true)
  else ReadOutcome.error (ReadError.invalid_header_line lineno line)

/-- Source function `read_place_header`, its loop
`while (std::getline(placement_file, line) && (!seen_netlist_id || !seen_grid_dimensions))`
on the lines left in the stream: `getline` runs first, so the line is taken from the stream
also when the second test ends the loop. -/
def read_place_header_loop (env : PlaceEnv) (verify_file_digests : Bool) (grid : DeviceGrid) :
    List (List Char) → Nat → Bool → Bool → ReadOutcome HeaderState
  | [], lineno, seen_netlist_id, seen_grid_dimensions =>
    ReadOutcome.ok ⟨[], lineno, seen_netlist_id, seen_grid_dimensions⟩
  | line :: rest, lineno, seen_netlist_id, seen_grid_dimensions =>
    if !seen_netlist_id || !seen_grid_dimensions then
      match read_place_header_line env verify_file_digests grid (lineno + 1) line
          seen_netlist_id seen_grid_dimensions with
      | ReadOutcome.ok flags =>
        read_place_header_loop env verify_file_digests grid rest (lineno + 1) flags.1 flags.2
      | ReadOutcome.error e => ReadOutcome.error e
      | ReadOutcome.undefined => ReadOutcome.undefined
    else ReadOutcome.ok ⟨rest, lineno, seen_netlist_id, seen_grid_dimensions⟩

/-- Source function `read_place_header`: returns the lines it leaves in the stream. -/
def read_place_header (env : PlaceEnv) (verify_file_digests : Bool) (grid : DeviceGrid)
    (lines : List (List Char)) : ReadOutcome (List (List Char)) :=
  match read_place_header_loop env verify_file_digests grid lines 0 false false with
  | ReadOutcome.ok h => ReadOutcome.ok h.rest
  | ReadOutcome.error e => ReadOutcome.error e
  | ReadOutcome.undefined => ReadOutcome.undefined

/-- The placement context and the local vector `seen_blocks` of `read_place_body`. -/
structure BodyState where
  place : PlacementContext
  seen_blocks : List (Option Nat)

/-- Source expression `block_locs.resize(n)`. -/
def resize_block_locs (l : List t_block_loc) (n : Nat) : List t_block_loc :=
  l.take n ++ List.replicate (n - l.length) t_block_loc.empty

/-- Source statements `grid_blocks[x][y].blocks[sub_tile] = blk_id` and
`grid_blocks[x][y].usage++`. -/
def mark_grid_block (g : Int → Int → t_grid_blocks) (x y sub_tile : Int) (blk_id : Nat) :
    Int → Int → t_grid_blocks :=
  fun x1 y1 =>
    if x1 = x ∧ y1 = y then
      ⟨(g x y).usage + 1, fun s => if s = sub_tile then some blk_id else (g x y).blocks s⟩
    else g x1 y1

/-- Source function `read_place_body`, the body of its loop for one line. -/
def read_place_body_line (env : PlaceEnv) (is_place_file : Bool) (lineno : Nat)
    (line : List Char) (s : BodyState) : ReadOutcome BodyState :=
  let tokens := split line
  if tokens = [] then ReadOutcome.ok s
  else if (tok tokens 0).head? = some '#' then ReadOutcome.ok s
  else if tokens.length = 4 ∨ (tokens.length = 5 ∧ (tok tokens 4).head? = some '#') then
    let block_name := tok tokens 0
    match atoi (tok tokens 1) with
    | none => ReadOutcome.error (ReadError.invalid_number (tok tokens 1))
    | some block_x =>
      match atoi (tok tokens 2) with
      | none => ReadOutcome.error (ReadError.invalid_number (tok tokens 2))
      | some block_y =>
        match atoi (tok tokens 3) with
        | none => ReadOutcome.error (ReadError.invalid_number (tok tokens 3))
        | some sub_tile_index =>
          let blk_id := env.find_block block_name
          if blk_id ∈ s.seen_blocks then ReadOutcome.error (ReadError.listed_twice blk_id)
          else if block_x < 0 ∨ block_x > to_int (size_sub env.grid.width 1)
              ∨ block_y < 0 ∨ block_y > to_int (size_sub env.grid.height 1) then
            ReadOutcome.error (ReadError.out_of_range blk_id block_x block_y)
          else
            let block_locs :=
              if s.place.block_locs.length ≠ env.block_names.length then
                resize_block_locs s.place.block_locs env.block_names.length
              else s.place.block_locs
            match blk_id with
            | none => ReadOutcome.undefined
            | some b =>
              if block_locs.length ≤ b then ReadOutcome.undefined
              else
                let block_locs :=
                  block_locs.modify
                    (fun bl => { bl with loc := ⟨block_x, block_y, sub_tile_index⟩ }) b
                if !env.is_sub_tile_compatible block_x block_y b sub_tile_index then
                  ReadOutcome.error (ReadError.illegal_location block_name block_x block_y)
                else if sub_tile_index ≥ env.capacity block_x block_y ∨ sub_tile_index < 0 then
                  ReadOutcome.error (ReadError.subtile_out_of_range block_name sub_tile_index)
                else if !is_place_file then
                  ReadOutcome.ok
                    ⟨{ s.place with
                        block_locs :=
                          block_locs.modify (fun bl => { bl with is_fixed := true }) b,
                        grid_blocks :=
                          mark_grid_block s.place.grid_blocks block_x block_y sub_tile_index b },
                     s.seen_blocks ++ [blk_id]⟩
                else
                  ReadOutcome.ok ⟨{ s.place with block_locs := block_locs },
                    s.seen_blocks ++ [blk_id]⟩
  else ReadOutcome.error (ReadError.invalid_line lineno line)

/-- Source function `read_place_body`, its loop `while (std::getline(placement_file, line))`
on the lines left in the stream. -/
def read_place_body_loop (env : PlaceEnv) (is_place_file : Bool) :
    List (List Char) → Nat → BodyState → ReadOutcome BodyState
  | [], _, s => ReadOutcome.ok s
  | line :: rest, lineno, s =>
    match read_place_body_line env is_place_file (lineno + 1) line s with
    | ReadOutcome.ok s1 => read_place_body_loop env is_place_file rest (lineno + 1) s1
    | ReadOutcome.error e => ReadOutcome.error e
    | ReadOutcome.undefined => ReadOutcome.undefined

/-- Source function `read_place_body`, on the lines left in the stream of a file with the given
content. -/
def read_place_body (env : PlaceEnv) (is_place_file : Bool) (content : List Char)
    (lines : List (List Char)) (place : PlacementContext) : ReadOutcome PlacementContext :=
  match read_place_body_loop env is_place_file lines 0 ⟨place, []⟩ with
  | ReadOutcome.ok s =>
    if is_place_file then
      ReadOutcome.ok { s.place with placement_id := env.secure_digest content }
    else ReadOutcome.ok s.place
  | ReadOutcome.error e => ReadOutcome.error e
  | ReadOutcome.undefined => ReadOutcome.undefined

/-- Source function `read_place`; `file` is the content of `place_file`, `none` when the file
cannot be opened. -/
def read_place (env : PlaceEnv) (file : Option (List Char)) (verify_file_digests : Bool)
    (grid : DeviceGrid) (is_place_file : Bool) (place : PlacementContext) :
    ReadOutcome PlacementContext :=
  match file with
  | none => ReadOutcome.error ReadError.cannot_open
  | some content =>
    match read_place_header env verify_file_digests grid (getlines content) with
    | ReadOutcome.ok rest => read_place_body env is_place_file content rest place
    | ReadOutcome.error e => ReadOutcome.error e
    | ReadOutcome.undefined => ReadOutcome.undefined

/-- Source function `print_place`, the text written for one block: the name, one tab or two,
the location and the block number. -/
def print_block (name : List Char) (bl : t_block_loc) (blk_id : Nat) : List Char :=
  name ++ ['\t'] ++ (if name.length < 8 then ['\t'] else [])
    ++ (fmt_int bl.loc.x ++ ['\t'] ++ fmt_int bl.loc.y ++ ['\t'] ++ fmt_int bl.loc.sub_tile)
    ++ (['\t', '#'] ++ fmt_nat blk_id ++ ['\n'])

/-- Source function `print_place`, its loop `for (auto blk_id : cluster_ctx.clb_nlist.blocks())`
from block `blk_id` on; `none` stands for an index outside `block_locs`. -/
def print_blocks (block_locs : List t_block_loc) : List (List Char) → Nat → Option (List Char)
  | [], _ => some []
  | name :: names, blk_id =>
    match block_locs[blk_id]? with
    | none => none
    | some bl =>
      match print_blocks block_locs names (blk_id + 1) with
      | none => none
      | some text => some (print_block name bl blk_id ++ text)

/-- Source function `print_place`, the text it writes to the file. -/
def print_place_text (env : PlaceEnv) (net_file net_id : List Char)
    (place : PlacementContext) : Option (List Char) :=
  let header :=
    "Netlist_File: ".toList ++ net_file ++ " Netlist_ID: ".toList ++ net_id ++ ['\n']
      ++ ("Array size: ".toList ++ fmt_nat (env.grid.width % 18446744073709551616)
        ++ " x ".toList ++ fmt_nat (env.grid.height % 18446744073709551616)
        ++ " logic blocks\n\n".toList)
      ++ "#block name\tx\ty\tsubblk\tblock number\n".toList
      ++ "#----------\t--\t--\t------\t------------\n".toList
  if place.block_locs = [] then some header
  else
    match print_blocks place.block_locs env.block_names 0 with
    | none => none
    | some text => some (header ++ text)

/-- Source function `print_place`: the content of the file written and the placement context
afterwards (the file is taken to be writable). -/
def print_place (env : PlaceEnv) (net_file net_id : List Char) (place : PlacementContext) :
    Option (List Char × PlacementContext) :=
  match print_place_text env net_file net_id place with
  | none => none
  | some text => some (text, { place with placement_id := env.secure_digest text })

/-- A netlist of two blocks `b0` and `b1` with id `id0` on a grid of 3 by 3 with two sub-tiles
at every location, every block compatible with every sub-tile. -/
def place_env : PlaceEnv :=
  { netlist_id := "id0".toList, block_names := ["b0".toList, "b1".toList], grid := ⟨3, 3⟩,
    capacity := fun _ _ => 2, is_sub_tile_compatible := fun _ _ _ _ => true,
    secure_digest := fun t => t }

/-- A placement context without any block location. -/
def place_empty : PlacementContext :=
  ⟨[], fun _ _ => ⟨0, fun _ => none⟩, []⟩

/-- A placement of the two blocks of `place_env`. -/
def place_two : PlacementContext :=
  ⟨[⟨⟨1, 2, 0⟩, false⟩, ⟨⟨2, 0, 1⟩, false⟩], fun _ _ => ⟨0, fun _ => none⟩, []⟩

/-! ## Auxiliary definitions for the statements -/

/-- The node a channel-wire constructor leaves at the end of the node list. -/
def chan_node (t : t_rr_type) (xlow ylow xhigh yhigh ptc_num : Int) : t_rr_node :=
  { xlow := xlow, ylow := ylow, xhigh := xhigh, yhigh := yhigh, type := t, capacity := 1,
    ptc_num := ptc_num, edges := [] }

/-- Frame relation: `t` is `s` with nodes satisfying `P` appended to the node list and entries
satisfying `Q` appended to the registry. -/
def Extends (P : t_rr_node → Prop) (Q : SwitchLocation → Prop) (s t : SynthState) : Prop :=
  ∃ ns es, t.rr_nodes = s.rr_nodes ++ ns ∧
    t.clock_graph.switch_locations = s.clock_graph.switch_locations ++ es ∧
    (∀ n ∈ ns, P n) ∧ (∀ e ∈ es, Q e)

/-- Frame relation on the registry alone. -/
def GraphExtends (Q : SwitchLocation → Prop) (g h : ClockRRGraph) : Prop :=
  ∃ es, h.switch_locations = g.switch_locations ++ es ∧ ∀ e ∈ es, Q e

/-- What a tap entry looks like: registered under the network name as a tap at row `y`, at the
`int` value of an unsigned `x` that passed the loop test `x <= x_end`, and pointing to the left
node exactly when `x` is below the unsigned value of `x_start + drive.offset`. -/
def tap_entry_ok (self : ClockRib) (x_start x_end y : Nat) (left right : Int)
    (e : SwitchLocation) : Prop :=
  e.clock_name = self.clock_name_ ∧ e.switch_name = "tap" ∧ e.y = to_int y ∧
    ∃ x : Nat, x < 4294967296 ∧ x ≤ x_end ∧ e.x = to_int x ∧
      e.node_index =
        if x < to_unsigned ((x_start : Int) + self.drive.offset) then left else right

/-- A rib network used in the examples: wire 0..3 in row 0, repeated every 3 columns and
2 rows, drive point one column right of the wire start, a tap in every column. -/
def rib_example : ClockRib :=
  { clock_name_ := "clk", num_inst_ := 2, x_chan_wire := ⟨⟨0, 0⟩, 0, 3, 0⟩,
    repeat_ := ⟨3, 2⟩, drive := ⟨1, 7⟩, tap := ⟨0, 1⟩ }

/-- The rib network of the examples with the drive point two columns left of the wire
start. -/
def rib_drive_left : ClockRib :=
  { rib_example with drive := ⟨-2, 7⟩ }

/-- Runs `body` on the elements of a list in order, stopping at the first exception, timeout
or undefined behaviour. -/
def run_list {ι σ : Type} (body : ι → σ → Outcome σ) : List ι → σ → Outcome σ
  | [], s => Outcome.ok s
  | i :: is, s =>
    match body i s with
    | Outcome.ok s1 => run_list body is s1
    | Outcome.error e s1 => Outcome.error e s1
    | Outcome.timeout s1 => Outcome.timeout s1
    | Outcome.undefined s1 => Outcome.undefined s1

/-- The calls `create_rr_nodes_for_one_instance(i, graph)` for the listed `i`, in the order of
the list, as section 4.1 of the specification words the driver; a call that fails ends the
sequence. -/
def calls_in_order (fuel : Nat) (self : ClockNetwork) (grid : DeviceGrid) :
    List Int → SynthState → Outcome SynthState
  | [], ctx => Outcome.ok ctx
  | i :: rest, ctx =>
    match self.create_rr_nodes_for_one_instance fuel grid i ctx with
    | Outcome.ok ctx1 => calls_in_order fuel self grid rest ctx1
    | Outcome.error e ctx1 => Outcome.error e ctx1
    | Outcome.timeout ctx1 => Outcome.timeout ctx1
    | Outcome.undefined ctx1 => Outcome.undefined ctx1

/-- An H-tree network used in the examples. -/
def htree_example : ClockHTree := { clock_name_ := "htree", num_inst_ := 2 }

/-- Number of values `u0, u0 + d, u0 + 2 d, ...` below `B` (for `d > 0`): the number of
iterations of a counting loop that starts at `u0`, steps by `d` and runs while below `B`. -/
def steps_below (u0 d B : Nat) : Nat :=
  if u0 < B then (B - u0 + d - 1) / d else 0

/-- The tap entries of one tile in the order of registration: for `k = 0, 1, ...` the tap at
the unsigned coordinate `x = x0 + k * tap.increment`, `x0` the unsigned value of
`x_start + tap.offset`, as long as `x <= x_end`; it points to `left` when `x` is below the
unsigned value of `x_start + drive.offset` and to `right` otherwise. -/
def rib_tap_entries (self : ClockRib) (x_start x_end y : Nat) (left right : Int) :
    List SwitchLocation :=
  (List.range (steps_below (to_unsigned ((x_start : Int) + self.tap.offset))
      self.tap.increment.toNat (x_end + 1))).map
    (fun k =>
      let x := to_unsigned ((x_start : Int) + self.tap.offset) + k * self.tap.increment.toNat
      { clock_name := self.clock_name_, switch_name := "tap", x := to_int x, y := to_int y,
        node_index :=
          if x < to_unsigned ((x_start : Int) + self.drive.offset) then left else right })

/-- The drive node of the tile `t = (x_start, x_end, y)` once the tile is complete: a
zero-length wire at `drive_x` with the two edges to the half-wires, which have the indices
`base + 1` and `base + 2`. -/
def rib_drive_node (self : ClockRib) (ptc_num : Int) (base : Nat) (t : Nat × Nat × Nat) :
    t_rr_node :=
  { chan_node t_rr_type.CHANX (to_int (to_unsigned ((t.1 : Int) + self.drive.offset)))
      (to_int t.2.2) (to_int (to_unsigned ((t.1 : Int) + self.drive.offset))) (to_int t.2.2)
      ptc_num with
    edges := [(((base + 1 : Nat) : Int), self.drive.switch_idx),
              (((base + 2 : Nat) : Int), self.drive.switch_idx)] }

/-- The left half-wire of the tile `t = (x_start, x_end, y)`: from `x_start` to `drive_x`. -/
def rib_left_node (self : ClockRib) (ptc_num : Int) (t : Nat × Nat × Nat) : t_rr_node :=
  chan_node t_rr_type.CHANX (to_int t.1) (to_int t.2.2)
    (to_int (to_unsigned ((t.1 : Int) + self.drive.offset))) (to_int t.2.2) ptc_num

/-- The right half-wire of the tile `t = (x_start, x_end, y)`: from `drive_x` to `x_end`. -/
def rib_right_node (self : ClockRib) (ptc_num : Int) (t : Nat × Nat × Nat) : t_rr_node :=
  chan_node t_rr_type.CHANX (to_int (to_unsigned ((t.1 : Int) + self.drive.offset)))
    (to_int t.2.2) (to_int t.2.1) (to_int t.2.2) ptc_num

/-- The three nodes of the tile `t = (x_start, x_end, y)` as they stand once the tile is
complete, in the order drive, left, right; `base` is the length of the node list before the
tile, so the three nodes have the indices `base`, `base + 1` and `base + 2`. -/
def rib_tile_nodes (self : ClockRib) (ptc_num : Int) (base : Nat) (t : Nat × Nat × Nat) :
    List t_rr_node :=
  [rib_drive_node self ptc_num base t, rib_left_node self ptc_num t,
    rib_right_node self ptc_num t]

/-- The drive entry of a tile with `x_start` as given, in row `y`, whose drive node has the
index `base`. -/
def rib_drive_entry (self : ClockRib) (base : Nat) (x_start y : Nat) : SwitchLocation :=
  { clock_name := self.clock_name_, switch_name := "drive",
    x := to_int (to_unsigned ((x_start : Int) + self.drive.offset)), y := to_int y,
    node_index := (base : Int) }

/-- The registry entries of the tile `t = (x_start, x_end, y)` in the order of registration:
the drive entry, then the tap entries. -/
def rib_tile_entries (self : ClockRib) (base : Nat) (t : Nat × Nat × Nat) :
    List SwitchLocation :=
  rib_drive_entry self base t.1 t.2.2 ::
  rib_tap_entries self t.1 t.2.1 t.2.2 ((base + 1 : Nat) : Int) ((base + 2 : Nat) : Int)

/-- Nodes of a sequence of tiles generated one after the other from a node list of length
`base`. -/
def rib_nodes_of (self : ClockRib) (ptc_num : Int) : Nat → List (Nat × Nat × Nat) →
    List t_rr_node
  | _, [] => []
  | base, t :: ts => rib_tile_nodes self ptc_num base t ++ rib_nodes_of self ptc_num (base + 3) ts

/-- Registry entries of a sequence of tiles generated one after the other from a node list of
length `base`. -/
def rib_entries_of (self : ClockRib) : Nat → List (Nat × Nat × Nat) → List SwitchLocation
  | _, [] => []
  | base, t :: ts => rib_tile_entries self base t ++ rib_entries_of self (base + 3) ts

/-- Number of columns of tiles of a rib network on a grid: the number of iterations of the outer
loop. -/
def rib_num_columns (self : ClockRib) (grid : DeviceGrid) : Nat :=
  steps_below (to_unsigned self.x_chan_wire.end_) self.repeat_.x.toNat (size_sub grid.width 1)

/-- Number of rows of tiles of a rib network on a grid: the number of iterations of the inner
loop. -/
def rib_num_rows (self : ClockRib) (grid : DeviceGrid) : Nat :=
  steps_below (to_unsigned self.x_chan_wire.position) self.repeat_.y.toNat
    (size_sub grid.height 1)

/-- The values `(x_start, x_end)` of the outer loop of a rib network, in order. -/
def rib_columns (self : ClockRib) (grid : DeviceGrid) : List (Nat × Nat) :=
  (List.range (rib_num_columns self grid)).map (fun k : Nat =>
    (to_unsigned (self.x_chan_wire.start + 1 + (k : Int) * self.repeat_.x),
      to_unsigned self.x_chan_wire.end_ + k * self.repeat_.x.toNat))

/-- The values `y` of the inner loop of a rib network, in order. -/
def rib_rows (self : ClockRib) (grid : DeviceGrid) : List Nat :=
  (List.range (rib_num_rows self grid)).map (fun j : Nat =>
    to_unsigned self.x_chan_wire.position + j * self.repeat_.y.toNat)

/-- The tiles `(x_start, x_end, y)` of a rib network in generation order: column by column,
and row by row inside a column. -/
def rib_tiles (self : ClockRib) (grid : DeviceGrid) : List (Nat × Nat × Nat) :=
  (rib_columns self grid).flatMap (fun xs => (rib_rows self grid).map (fun y => (xs.1, xs.2, y)))

/-- A rib network with a one-column wire at the origin, repeated in every column and every
row, one instance. -/
def rib_unit : ClockRib :=
  { clock_name_ := "clk", num_inst_ := 1, x_chan_wire := ⟨⟨0, 0⟩, 0, 0, 0⟩,
    repeat_ := ⟨1, 1⟩, drive := ⟨0, 7⟩, tap := ⟨0, 1⟩ }

/-- A node without its outgoing edges: the coordinates, kind, capacity and track id that the
channel-wire constructors write. -/
def t_rr_node.strip_edges (n : t_rr_node) : t_rr_node := { n with edges := [] }

/-- The state with the edges of every node left aside. -/
def SynthState.strip_edges (s : SynthState) : SynthState :=
  { s with rr_nodes := s.rr_nodes.map t_rr_node.strip_edges }

/-- Frame relation up to edges: leaving the edges aside, `t` is `s` with nodes satisfying `P`
appended to the node list and entries satisfying `Q` appended to the registry. -/
def ExtendsUpToEdges (P : t_rr_node → Prop) (Q : SwitchLocation → Prop) (s t : SynthState) :
    Prop :=
  Extends P Q s.strip_edges t.strip_edges

/-- The relation `R` between two states, asserted only when the later node list holds at most
`2^31` nodes, so that every node index is representable as `int`; the node list never
shrinks. -/
def WhileFit (R : SynthState → SynthState → Prop) (s t : SynthState) : Prop :=
  s.rr_nodes.length ≤ t.rr_nodes.length ∧ (t.rr_nodes.length ≤ 2147483648 → R s t)

/-- The node indices a network hands out are representable as `int` in a node list of `n`
nodes.  Only a rib network uses the indices (for the edges of its drive nodes and for the
registry). -/
@[reducible] def ClockNetwork.indices_fit (self : ClockNetwork) (n : Nat) : Prop :=
  match self with
  | ClockNetwork.Rib _ => n ≤ 2147483648
  | ClockNetwork.Spine _ => True
  | ClockNetwork.HTree _ => True

/-- What every node appended by a rib instance with track id `p` looks like. -/
def rib_node_ok (p : Int) (n : t_rr_node) : Prop :=
  n.ptc_num = p ∧ n.type = t_rr_type.CHANX ∧ n.capacity = 1

/-- What every node appended by a spine instance with track id `p` looks like. -/
def spine_node_ok (p : Int) (n : t_rr_node) : Prop :=
  n.ptc_num = p ∧ n.type = t_rr_type.CHANY ∧ n.capacity = 1 ∧ n.edges = []

/-- The track ids a network hands out: `inst_num + 50` for a rib, `inst_num` for a spine. -/
def ClockNetwork.ptc_of (self : ClockNetwork) (inst_num : Int) : Int :=
  match self with
  | ClockNetwork.Rib _ => inst_num + 50
  | ClockNetwork.Spine _ => inst_num
  | ClockNetwork.HTree _ => inst_num

/-- The first loop tests of an instance succeed, so the instance generates at least one
tile. -/
def ClockNetwork.first_tile_fits (self : ClockNetwork) (grid : DeviceGrid) : Prop :=
  match self with
  | ClockNetwork.Rib r =>
    to_unsigned r.x_chan_wire.end_ < size_sub grid.width 1 ∧
      to_unsigned r.x_chan_wire.position < size_sub grid.height 1
  | ClockNetwork.Spine s =>
    to_unsigned s.y_chan_wire.end_ < grid.height % 18446744073709551616 ∧
      to_unsigned s.y_chan_wire.position < grid.width % 18446744073709551616
  | ClockNetwork.HTree _ => False

/-- A spine network used in the examples: wire 0..2 in column 0, repeated every 2 columns and
3 rows. -/
def spine_example : ClockSpine :=
  { clock_name_ := "spine", num_inst_ := 2, y_chan_wire := ⟨⟨0, 0⟩, 0, 2, 0⟩,
    repeat_ := ⟨2, 3⟩, drive := ⟨1, 7⟩, tap := ⟨0, 1⟩ }

/-- The loop variables `(x_start, x_end, y)` of the tile in column `k` and row `j`: the values
the unsigned variables hold after `k` steps of the outer loop and `j` steps of the inner
loop. -/
def rib_tile_at (self : ClockRib) (kj : Nat × Nat) : Nat × Nat × Nat :=
  (to_unsigned (self.x_chan_wire.start + 1 + (kj.1 : Int) * self.repeat_.x),
    to_unsigned (self.x_chan_wire.end_ + (kj.1 : Int) * self.repeat_.x),
    to_unsigned (self.x_chan_wire.position + (kj.2 : Int) * self.repeat_.y))

/-- Relation between the states before and after a completed part of a rib instance with
track id `p`: the nodes of some tiles `(k, j)` were appended, tile after tile. -/
def RibGenerated (self : ClockRib) (p : Int) (s out : SynthState) : Prop :=
  ∃ kjs : List (Nat × Nat),
    out.rr_nodes = s.rr_nodes ++ rib_nodes_of self p s.rr_nodes.length (kjs.map (rib_tile_at self))

/-- The relation `RibGenerated` with the edges of every node left aside. -/
def RibGeneratedUpToEdges (self : ClockRib) (p : Int) (s out : SynthState) : Prop :=
  ∃ kjs : List (Nat × Nat),
    out.rr_nodes.map t_rr_node.strip_edges
      = s.rr_nodes.map t_rr_node.strip_edges
        ++ (rib_nodes_of self p s.rr_nodes.length (kjs.map (rib_tile_at self))).map
            t_rr_node.strip_edges

/-- The value an `int` variable holds after an integer `v` went through 32-bit unsigned
arithmetic: `v` itself when `v` is representable as `int`. -/
def wrap_int (v : Int) : Int := to_int (to_unsigned v)

/-- The state the first instance of `rib_example` produces on a grid of width 6 and height 2
from the empty state: one tile in column 0, row 0. -/
def rib_example_out : SynthState :=
  ⟨[⟨2, 0, 2, 0, t_rr_type.CHANX, 1, 50, [(1, 7), (2, 7)]⟩,
    ⟨1, 0, 2, 0, t_rr_type.CHANX, 1, 50, []⟩,
    ⟨2, 0, 3, 0, t_rr_type.CHANX, 1, 50, []⟩],
   ⟨[⟨"clk", "drive", 2, 0, 0⟩, ⟨"clk", "tap", 1, 0, 1⟩, ⟨"clk", "tap", 2, 0, 2⟩,
     ⟨"clk", "tap", 3, 0, 2⟩]⟩⟩

/-- The rib network of the examples with the largest `int` as drive offset. -/
def rib_far_drive : ClockRib :=
  { rib_example with drive := ⟨2147483647, 7⟩ }

/-- The rib network of the examples with the first tap two columns left of `x_start`. -/
def rib_tap_left : ClockRib :=
  { rib_example with tap := ⟨-2, 1⟩ }

/-- The registry entries of a sequence of tiles, one group per tile: the drive entry of the
tile followed by the tap entries `es` recorded for it.  `base` is the index of the drive node
of the first tile. -/
def rib_entry_groups (self : ClockRib) :
    Nat → List ((Nat × Nat × Nat) × List SwitchLocation) → List (List SwitchLocation)
  | _, [] => []
  | base, (t, es) :: rest =>
    (rib_drive_entry self base t.1 t.2.2 :: es) :: rib_entry_groups self (base + 3) rest

/-- Every tap entry of every tile of the sequence is a tap entry of that tile, pointing to the
left or the right half-wire of the tile. -/
def rib_taps_ok (self : ClockRib) :
    Nat → List ((Nat × Nat × Nat) × List SwitchLocation) → Prop
  | _, [] => True
  | base, (t, es) :: rest =>
    (∀ e ∈ es, tap_entry_ok self t.1 t.2.1 t.2.2 ((base + 1 : Nat) : Int)
      ((base + 2 : Nat) : Int) e) ∧ rib_taps_ok self (base + 3) rest

/-- Relation between the states before and after a completed part of a rib instance with
track id `p`: the nodes and the registry entries of some tiles were appended, tile after
tile. -/
def RibTilesDone (self : ClockRib) (p : Int) (s out : SynthState) : Prop :=
  ∃ gs : List ((Nat × Nat × Nat) × List SwitchLocation),
    out.rr_nodes = s.rr_nodes ++ rib_nodes_of self p s.rr_nodes.length (gs.map Prod.fst) ∧
    out.clock_graph.switch_locations
      = s.clock_graph.switch_locations ++ (rib_entry_groups self s.rr_nodes.length gs).flatten ∧
    rib_taps_ok self s.rr_nodes.length gs

/-- Every `int` field of a spine network holds a 32-bit value. -/
@[reducible] def ClockSpine.int_fields (s : ClockSpine) : Prop :=
  (-2147483648 ≤ s.y_chan_wire.start ∧ s.y_chan_wire.start < 2147483648) ∧
  (-2147483648 ≤ s.y_chan_wire.end_ ∧ s.y_chan_wire.end_ < 2147483648) ∧
  (-2147483648 ≤ s.y_chan_wire.position ∧ s.y_chan_wire.position < 2147483648) ∧
  (-2147483648 ≤ s.repeat_.x ∧ s.repeat_.x < 2147483648) ∧
  (-2147483648 ≤ s.repeat_.y ∧ s.repeat_.y < 2147483648)

/-- Number of iterations of the outer loop of a spine instance (over `y_start`, `y_end`). -/
def spine_num_rows (self : ClockSpine) (grid : DeviceGrid) : Nat :=
  steps_below (to_unsigned self.y_chan_wire.end_) self.repeat_.y.toNat
    (grid.height % 18446744073709551616)

/-- Number of iterations of the inner loop of a spine instance (over `x`). -/
def spine_num_cols (self : ClockSpine) (grid : DeviceGrid) : Nat :=
  steps_below (to_unsigned self.y_chan_wire.position) self.repeat_.x.toNat
    (grid.width % 18446744073709551616)

/-- The node of the spine tile reached after `k` steps of the outer loop and `j` steps of the
inner loop (counters that have not wrapped). -/
def spine_node_at (self : ClockSpine) (ptc_num : Int) (k j : Nat) : t_rr_node :=
  chan_node t_rr_type.CHANY
    (to_int (to_unsigned self.y_chan_wire.position + j * self.repeat_.x.toNat))
    (to_int (to_unsigned (self.y_chan_wire.start + (k : Int) * self.repeat_.y)))
    (to_int (to_unsigned self.y_chan_wire.position + j * self.repeat_.x.toNat))
    (to_int (to_unsigned self.y_chan_wire.end_ + k * self.repeat_.y.toNat)) ptc_num

/-- The nodes of a spine instance in generation order. -/
def spine_nodes (self : ClockSpine) (grid : DeviceGrid) (ptc_num : Int) : List t_rr_node :=
  (List.range (spine_num_rows self grid)).flatMap (fun k =>
    (List.range (spine_num_cols self grid)).map (fun j => spine_node_at self ptc_num k j))

/-- The rib network of the examples with a tap increment of 0. -/
def rib_zero_tap : ClockRib :=
  { rib_example with tap := ⟨0, 0⟩ }

/-- The rib network of the examples with a column step of -1. -/
def rib_negative_step : ClockRib :=
  { rib_example with repeat_ := ⟨-1, 2⟩ }

/-- The rib network of the examples with a column step of 0. -/
def rib_zero_step : ClockRib :=
  { rib_example with repeat_ := ⟨0, 2⟩ }

/-- The spine network of the examples with a column step of 0. -/
def spine_zero_step : ClockSpine :=
  { spine_example with repeat_ := ⟨0, 3⟩ }

/-- The network is a rib or a spine. -/
@[reducible] def ClockNetwork.is_tiled : ClockNetwork → Prop
  | ClockNetwork.Rib _ => True
  | ClockNetwork.Spine _ => True
  | ClockNetwork.HTree _ => False

/-- One of the two repeat steps of a rib or spine network is 0. -/
@[reducible] def ClockNetwork.zero_step : ClockNetwork → Prop
  | ClockNetwork.Rib r => r.repeat_.x = 0 ∨ r.repeat_.y = 0
  | ClockNetwork.Spine s => s.repeat_.x = 0 ∨ s.repeat_.y = 0
  | ClockNetwork.HTree _ => False

/-- Conditions under which the loops of `create_rr_nodes_for_one_instance` count without
wrapping: a rib or spine network whose `int` fields hold 32-bit values, positive repeat steps,
for a rib a positive tap increment, and a grid with `1 <= W <= 2^31` and `1 <= H <= 2^31`. -/
@[reducible] def ClockNetwork.bounded_tiling : ClockNetwork → DeviceGrid → Prop
  | ClockNetwork.Rib r, grid =>
    r.int_fields ∧ 0 < r.repeat_.x ∧ 0 < r.repeat_.y ∧ 0 < r.tap.increment ∧
    (1 ≤ grid.width ∧ grid.width ≤ 2147483648) ∧ (1 ≤ grid.height ∧ grid.height ≤ 2147483648)
  | ClockNetwork.Spine s, grid =>
    s.int_fields ∧ 0 < s.repeat_.x ∧ 0 < s.repeat_.y ∧
    (1 ≤ grid.width ∧ grid.width ≤ 2147483648) ∧ (1 ≤ grid.height ∧ grid.height ≤ 2147483648)
  | ClockNetwork.HTree _, _ => False

/-- Whether the outcome is an exception. -/
def Outcome.isError {σ : Type} : Outcome σ → Bool
  | Outcome.error _ _ => true
  | _ => false

/-- Applies a function to the value of a normal completion. -/
def ReadOutcome.map {α β : Type} (f : α → β) : ReadOutcome α → ReadOutcome β
  | ReadOutcome.ok a => ReadOutcome.ok (f a)
  | ReadOutcome.error e => ReadOutcome.error e
  | ReadOutcome.undefined => ReadOutcome.undefined

/-- The block locations and the grid occupancy of a placement context: everything but the
digest `placement_id`. -/
def PlacementContext.locations (p : PlacementContext) :
    List t_block_loc × (Int → Int → t_grid_blocks) :=
  (p.block_locs, p.grid_blocks)

/-- The line is skipped by the readers: it has no token, or its first token starts with
`#`. -/
def is_skipped (line : List Char) : Bool :=
  decide (split line = []) || decide ((tok (split line) 0).head? = some '#')

/-- The line is a block line for `read_place_body`: it is not skipped and has four tokens, or
five tokens the last of which starts with `#`. -/
def is_block_line (line : List Char) : Bool :=
  !is_skipped line &&
    (decide ((split line).length = 4) ||
      (decide ((split line).length = 5) && decide ((tok (split line) 4).head? = some '#')))

/-- The block name on a block line: its first token. -/
def block_name (line : List Char) : List Char :=
  tok (split line) 0

/-- The block and the location that a block line lists: the block of the name in the first
token, and the values of the second, third and fourth token. -/
def block_entry (env : PlaceEnv) (line : List Char) : Option (Nat × t_pl_loc) :=
  if is_block_line line then
    match atoi (tok (split line) 1), atoi (tok (split line) 2), atoi (tok (split line) 3),
      env.find_block (block_name line) with
    | some x, some y, some s, some b => some (b, ⟨x, y, s⟩)
    | _, _, _, _ => none
  else none

/-- The blocks and locations that the lines of a file list, in order. -/
def listed (env : PlaceEnv) (lines : List (List Char)) : List (Nat × t_pl_loc) :=
  lines.filterMap (block_entry env)

/-- The checks that `read_place_body` makes on a listed block: not listed before, inside the
grid, compatible with the sub-tile, and a sub-tile below the capacity of the tile. -/
def entry_ok (env : PlaceEnv) (seen : List (Option Nat)) (e : Nat × t_pl_loc) : Prop :=
  some e.1 ∉ seen ∧
  ¬ (e.2.x < 0 ∨ e.2.x > to_int (size_sub env.grid.width 1)
      ∨ e.2.y < 0 ∨ e.2.y > to_int (size_sub env.grid.height 1)) ∧
  env.is_sub_tile_compatible e.2.x e.2.y e.1 e.2.sub_tile = true ∧
  ¬ (e.2.sub_tile ≥ env.capacity e.2.x e.2.y ∨ e.2.sub_tile < 0)

/-- The block locations after an accepted block line: resized to the number of blocks when
they had another size, then the location of the listed block set, and for a constraints file
the block locked. -/
def set_block_loc (n : Nat) (is_place_file : Bool) (l : List t_block_loc)
    (e : Nat × t_pl_loc) : List t_block_loc :=
  let l1 := if l.length ≠ n then resize_block_locs l n else l
  let l2 := l1.modify (fun bl => { bl with loc := ⟨e.2.x, e.2.y, e.2.sub_tile⟩ }) e.1
  if is_place_file then l2 else l2.modify (fun bl => { bl with is_fixed := true }) e.1

/-- The state of `read_place_body` after an accepted block line. -/
def apply_entry (env : PlaceEnv) (is_place_file : Bool) (s : BodyState)
    (e : Nat × t_pl_loc) : BodyState :=
  ⟨{ s.place with
      block_locs := set_block_loc env.block_names.length is_place_file s.place.block_locs e,
      grid_blocks :=
        if is_place_file then s.place.grid_blocks
        else mark_grid_block s.place.grid_blocks e.2.x e.2.y e.2.sub_tile e.1 },
   s.seen_blocks ++ [some e.1]⟩

/-- The line is a block line that `read_place_body` rejects whatever the other checks give:
its block is among the blocks seen, or its `x` or its `y` is a number outside the grid. -/
def rejected_line (env : PlaceEnv) (seen : List (Option Nat)) (line : List Char) : Prop :=
  is_block_line line = true ∧
  (env.find_block (block_name line) ∈ seen ∨
    (∃ x, atoi (tok (split line) 1) = some x ∧ (x < 0 ∨ x > (env.grid.width : Int) - 1)) ∨
    (∃ y, atoi (tok (split line) 2) = some y ∧ (y < 0 ∨ y > (env.grid.height : Int) - 1)))

/-- The checks of `read_place_body` on a sequence of listed blocks, each made with the blocks
seen before it. -/
def entries_ok (env : PlaceEnv) : List (Option Nat) → List (Nat × t_pl_loc) → Prop
  | _, [] => True
  | seen, e :: es => entry_ok env seen e ∧ entries_ok env (seen ++ [some e.1]) es

/-- The last block that a sequence of listed blocks puts at a location and sub-tile. -/
def last_listed_at : List (Nat × t_pl_loc) → t_pl_loc → Option Nat
  | [], _ => none
  | e :: es, loc =>
    match last_listed_at es loc with
    | some b => some b
    | none => if e.2 = loc then some e.1 else none

/-- The number of listed blocks at a grid location. -/
def count_listed_at (es : List (Nat × t_pl_loc)) (x y : Int) : Nat :=
  (es.filter (fun e => decide (e.2.x = x ∧ e.2.y = y))).length

/-- The block locations that `read_place_body` writes to: resized when their size differs from
the number of blocks. -/
def resized_block_locs (n : Nat) (l : List t_block_loc) : List t_block_loc :=
  if l.length ≠ n then resize_block_locs l n else l

/-- The text is a token: it is not empty and holds no delimiter. -/
@[reducible] def is_token (t : List Char) : Prop :=
  t ≠ [] ∧ ∀ c ∈ t, is_delim c = false

/-- The line that `print_place` writes for one block, without the newline that ends it. -/
def block_line (name : List Char) (bl : t_block_loc) (blk_id : Nat) : List Char :=
  name ++ '\t' :: ((if name.length < 8 then ['\t'] else [])
    ++ (fmt_int bl.loc.x ++ '\t' :: (fmt_int bl.loc.y ++ '\t' :: (fmt_int bl.loc.sub_tile
      ++ '\t' :: ('#' :: fmt_nat blk_id)))))

/-- The lines that `print_place` writes for the blocks from `blk_id` on. -/
def block_lines (block_locs : List t_block_loc) : List (List Char) → Nat → List (List Char)
  | [], _ => []
  | name :: names, blk_id =>
    block_line name (block_locs.getD blk_id t_block_loc.empty) blk_id
      :: block_lines block_locs names (blk_id + 1)

/-- The blocks and locations that `print_place` writes from `blk_id` on. -/
def entries_from (block_locs : List t_block_loc) : List (List Char) → Nat →
    List (Nat × t_pl_loc)
  | [], _ => []
  | _ :: names, blk_id =>
    (blk_id, (block_locs.getD blk_id t_block_loc.empty).loc)
      :: entries_from block_locs names (blk_id + 1)

/-- The first line that `print_place` writes. -/
def netlist_line (net_file net_id : List Char) : List Char :=
  "Netlist_File:".toList ++ ' ' :: (net_file ++ ' ' :: ("Netlist_ID:".toList ++ ' ' :: net_id))

/-- The second line that `print_place` writes. -/
def array_line (width height : Nat) : List Char :=
  "Array".toList ++ ' ' :: ("size:".toList ++ ' ' :: (fmt_nat width ++ ' ' :: ("x".toList
    ++ ' ' :: (fmt_nat height ++ ' ' :: ("logic".toList ++ ' ' :: "blocks".toList)))))

/-- The two comment lines that `print_place` writes above the blocks. -/
def comment_lines : List (List Char) :=
  ["#block name\tx\ty\tsubblk\tblock number".toList,
   "#----------\t--\t--\t------\t------------".toList]

/-- The conditions of the placement round trip on a block name: a token that does not start
with `#`. -/
@[reducible] def name_ok (name : List Char) : Prop :=
  is_token name ∧ name.head? ≠ some '#'

/-- The conditions of the placement round trip on the location of block `blk_id`: inside the
grid, at a compatible sub-tile below the capacity of the tile. -/
@[reducible] def loc_ok (env : PlaceEnv) (blk_id : Nat) (bl : t_block_loc) : Prop :=
  (0 ≤ bl.loc.x ∧ bl.loc.x < env.grid.width) ∧ (0 ≤ bl.loc.y ∧ bl.loc.y < env.grid.height) ∧
  env.is_sub_tile_compatible bl.loc.x bl.loc.y blk_id bl.loc.sub_tile = true ∧
  (0 ≤ bl.loc.sub_tile ∧ bl.loc.sub_tile < env.capacity bl.loc.x bl.loc.y) ∧
  bl.loc.sub_tile < 2147483648

/-! ## Theorems -/

theorem modify_append_length {α : Type} (f : α → α) (l r : List α) (k : Nat) :
    (l ++ r).modify f (l.length + k) = l ++ r.modify f k := by
  induction l with
  | nil => simp
  | cons a l ih =>
    have h : (a :: l).length + k = (l.length + k) + 1 := by simp; omega
    rw [h, List.cons_append, List.modify_succ_cons, ih, List.cons_append]

theorem modify_append_length_zero {α : Type} (f : α → α) (l : List α) (a : α) (r : List α) :
    (l ++ a :: r).modify f l.length = l ++ f a :: r := by
  have h := modify_append_length f l (a :: r) 0
  simpa using h

theorem create_chanx_wire_eq (x_start x_end y ptc_num : Int) (l : List t_rr_node) :
    ClockRib.create_chanx_wire x_start x_end y ptc_num l =
      (to_int l.length, l ++ [chan_node t_rr_type.CHANX x_start y x_end y ptc_num]) := by
  simp only [ClockRib.create_chanx_wire, List.length_append, List.length_singleton,
    Nat.add_sub_cancel, modify_append_length_zero]
  rfl

theorem extends_refl (P : t_rr_node → Prop) (Q : SwitchLocation → Prop) (s : SynthState) :
    Extends P Q s s :=
  ⟨[], [], by simp, by simp, by simp, by simp⟩

theorem extends_trans {P : t_rr_node → Prop} {Q : SwitchLocation → Prop} {a b c : SynthState}
    (h1 : Extends P Q a b) (h2 : Extends P Q b c) : Extends P Q a c := by
  obtain ⟨n1, e1, hn1, he1, hp1, hq1⟩ := h1
  obtain ⟨n2, e2, hn2, he2, hp2, hq2⟩ := h2
  refine ⟨n1 ++ n2, e1 ++ e2, ?_, ?_, ?_, ?_⟩
  · rw [hn2, hn1, List.append_assoc]
  · rw [he2, he1, List.append_assoc]
  · intro n hn
    rcases List.mem_append.1 hn with h | h
    · exact hp1 n h
    · exact hp2 n h
  · intro e he
    rcases List.mem_append.1 he with h | h
    · exact hq1 e h
    · exact hq2 e h

theorem extends_mono {P P2 : t_rr_node → Prop} {Q Q2 : SwitchLocation → Prop}
    {a b : SynthState} (h : Extends P Q a b) (hP : ∀ n, P n → P2 n) (hQ : ∀ e, Q e → Q2 e) :
    Extends P2 Q2 a b := by
  obtain ⟨ns, es, hn, he, hp, hq⟩ := h
  exact ⟨ns, es, hn, he, fun n m => hP n (hp n m), fun e m => hQ e (hq e m)⟩

/-- A relation that every run of the body establishes, and that is reflexive and transitive,
holds between the state before a loop and the state the loop ends in, whatever the budget.
The loop variable may be constrained by an invariant `J` kept by the step. -/
theorem for_loop_inv {ι σ : Type} (R : σ → σ → Prop) (J : ι → Prop)
    (hrefl : ∀ s, R s s) (htrans : ∀ a b c, R a b → R b c → R a c)
    (cond : ι → Bool) (step : ι → ι) (body : ι → σ → Outcome σ)
    (hstep : ∀ i, J i → cond i = true → J (step i))
    (hbody : ∀ i s, J i → cond i = true → R s (body i s).state) :
    ∀ (fuel : Nat) (i : ι) (s : σ), J i → R s (for_loop cond step body fuel i s).state := by
  intro fuel
  induction fuel with
  | zero => intro i s _; exact hrefl s
  | succ n ih =>
    intro i s hJ
    unfold for_loop
    by_cases hc : cond i = true
    · have hb := hbody i s hJ hc
      simp only [hc, if_true]
      cases hbs : body i s with
      | ok s1 =>
        rw [hbs] at hb
        exact htrans _ _ _ hb (ih (step i) s1 (hstep i hJ hc))
      | error e s1 => rw [hbs] at hb; exact hb
      | timeout s1 => rw [hbs] at hb; exact hb
      | undefined s1 => rw [hbs] at hb; exact hb
    · simp only [hc]
      exact hrefl s

theorem graph_extends_refl (Q : SwitchLocation → Prop) (g : ClockRRGraph) : GraphExtends Q g g :=
  ⟨[], by simp, by simp⟩

theorem graph_extends_trans {Q : SwitchLocation → Prop} {a b c : ClockRRGraph}
    (h1 : GraphExtends Q a b) (h2 : GraphExtends Q b c) : GraphExtends Q a c := by
  obtain ⟨e1, he1, hq1⟩ := h1
  obtain ⟨e2, he2, hq2⟩ := h2
  refine ⟨e1 ++ e2, by rw [he2, he1, List.append_assoc], ?_⟩
  intro e he
  rcases List.mem_append.1 he with h | h
  · exact hq1 e h
  · exact hq2 e h

/-! ### Machine integers -/

theorem to_unsigned_lt (i : Int) : to_unsigned i < 4294967296 := by
  unfold to_unsigned
  have h1 : 0 ≤ i % 4294967296 := Int.emod_nonneg _ (by norm_num)
  have h2 : i % 4294967296 < 4294967296 := Int.emod_lt_of_pos _ (by norm_num)
  omega

theorem to_unsigned_to_int (u : Nat) (h : u < 4294967296) : to_unsigned (to_int u) = u := by
  unfold to_unsigned to_int
  rw [Nat.mod_eq_of_lt h]
  split <;> omega

theorem to_int_to_unsigned (i : Int) (h1 : -2147483648 ≤ i) (h2 : i < 2147483648) :
    to_int (to_unsigned i) = i := by
  unfold to_unsigned to_int
  split <;> omega

theorem to_int_of_lt (u : Nat) (h : u < 2147483648) : to_int u = (u : Int) := by
  unfold to_int
  split <;> omega

theorem to_unsigned_of_nonneg (i : Int) (h1 : 0 ≤ i) (h2 : i < 4294967296) :
    ((to_unsigned i : Nat) : Int) = i := by
  unfold to_unsigned
  omega

/-! ### Tap partition (C2) -/

theorem record_tap_locations_extends (fuel : Nat) (self : ClockRib) (x_start x_end y : Nat)
    (left right : Int) (g : ClockRRGraph) :
    GraphExtends (tap_entry_ok self x_start x_end y left right) g
      (self.record_tap_locations fuel x_start x_end y left right g).state := by
  unfold ClockRib.record_tap_locations
  refine for_loop_inv (GraphExtends (tap_entry_ok self x_start x_end y left right))
    (fun x => x < 4294967296) (graph_extends_refl _) (fun _ _ _ => graph_extends_trans) _ _ _
    (fun i _ _ => to_unsigned_lt _) ?_ fuel _ g (to_unsigned_lt _)
  intro x g hx hc
  have hle : x ≤ x_end := by simpa using hc
  by_cases h : x < to_unsigned ((x_start : Int) + self.drive.offset)
  · simp only [h, if_true, Outcome.state, ClockRRGraph.add_switch_location]
    refine ⟨_, rfl, ?_⟩
    intro e he
    rw [List.mem_singleton] at he
    subst he
    exact ⟨rfl, rfl, rfl, x, hx, hle, rfl, by simp [h]⟩
  · simp only [h, if_false, Outcome.state, ClockRRGraph.add_switch_location]
    refine ⟨_, rfl, ?_⟩
    intro e he
    rw [List.mem_singleton] at he
    subst he
    exact ⟨rfl, rfl, rfl, x, hx, hle, rfl, by simp [h]⟩

/-- C2 (amended): every entry `record_tap_locations` registers, within any iteration
budget, is a tap entry at row `y` whose `x` is the `int` value of an unsigned `x` with
`x <= x_end` and which points to the left node if `x` is below `x_start + drive.offset`
reduced modulo 2^32, to the right node otherwise; whenever `0 <= x_start + drive.offset`
(below `2^32`) and `x_end < 2^31` this is the comparison `e.x < x_start + drive.offset` of the
registered coordinate itself. -/
theorem ClockRib.record_tap_locations_partition (fuel : Nat) (self : ClockRib)
    (x_start x_end y : Nat) (left right : Int) (g : ClockRRGraph) :
    ∃ es : List SwitchLocation,
      (self.record_tap_locations fuel x_start x_end y left right g).state.switch_locations
        = g.switch_locations ++ es ∧
      ∀ e ∈ es, e.switch_name = "tap" ∧
        e.node_index =
          (if to_unsigned e.x < to_unsigned ((x_start : Int) + self.drive.offset) then left
           else right) ∧
        (0 ≤ (x_start : Int) + self.drive.offset →
          (x_start : Int) + self.drive.offset < 4294967296 → x_end < 2147483648 →
          e.node_index = if e.x < (x_start : Int) + self.drive.offset then left else right) := by
  obtain ⟨es, hes, hq⟩ := record_tap_locations_extends fuel self x_start x_end y left right g
  refine ⟨es, hes, ?_⟩
  intro e he
  obtain ⟨_, hname, _, x, hx, hle, hex, hidx⟩ := hq e he
  refine ⟨hname, ?_, ?_⟩
  · rw [hex, to_unsigned_to_int x hx]; exact hidx
  · intro h0 h1 h2
    have hxi : to_int x = (x : Int) := to_int_of_lt x (by omega)
    have hd := to_unsigned_of_nonneg _ h0 h1
    rw [hidx, hex, hxi]
    by_cases hlt : x < to_unsigned ((x_start : Int) + self.drive.offset)
    · have : (x : Int) < (x_start : Int) + self.drive.offset := by omega
      simp [hlt, this]
    · have : ¬ (x : Int) < (x_start : Int) + self.drive.offset := by omega
      simp [hlt, this]

/-- Witness of C2: the taps of `rib_example` on the tile `(1, 3, 0)`. -/
theorem ClockRib.record_tap_locations_partition_witness :
    ∃ es : List SwitchLocation,
      (rib_example.record_tap_locations 5 1 3 0 1 2 ⟨[]⟩).state.switch_locations
        = [] ++ es ∧
      ∀ e ∈ es, e.switch_name = "tap" ∧
        e.node_index =
          (if to_unsigned e.x < to_unsigned (((1 : Nat) : Int) + rib_example.drive.offset) then 1
           else 2) ∧
        (0 ≤ ((1 : Nat) : Int) + rib_example.drive.offset →
          ((1 : Nat) : Int) + rib_example.drive.offset < 4294967296 → 3 < 2147483648 →
          e.node_index = if e.x < ((1 : Nat) : Int) + rib_example.drive.offset then 1 else 2) :=
  ClockRib.record_tap_locations_partition 5 rib_example 1 3 0 1 2 ⟨[]⟩

/-- C2 fails as stated: with `drive.offset = -2` on the tile `(1, 3, 0)` the three taps at
`x = 1, 2, 3` all point to the left node (index 1), although none of them satisfies
`x < x_start + drive.offset = -1`. -/
theorem ClockRib.record_tap_locations_negative_drive :
    (rib_drive_left.record_tap_locations 5 1 3 0 1 2 ⟨[]⟩) =
      Outcome.ok ⟨[⟨"clk", "tap", 1, 0, 1⟩, ⟨"clk", "tap", 2, 0, 1⟩, ⟨"clk", "tap", 3, 0, 1⟩]⟩ ∧
    ¬ ((1 : Int) < ((1 : Nat) : Int) + rib_drive_left.drive.offset) := by
  decide

/-! ### Loops as runs over lists; the driver loop (C3, C4) -/

theorem for_loop_eq_run_list {ι σ : Type} (cond : ι → Bool) (step : ι → ι)
    (body : ι → σ → Outcome σ) :
    ∀ (n fuel : Nat) (i : ι) (s : σ), n < fuel →
      (∀ k, k < n → cond (step^[k] i) = true) → cond (step^[n] i) = false →
      for_loop cond step body fuel i s
        = run_list body ((List.range n).map (fun k => step^[k] i)) s := by
  intro n
  induction n with
  | zero =>
    intro fuel i s hf _ hstop
    obtain ⟨f, rfl⟩ : ∃ f, fuel = f + 1 := ⟨fuel - 1, by omega⟩
    have h0 : cond i = false := by simpa using hstop
    simp [for_loop, h0, run_list]
  | succ n ih =>
    intro fuel i s hf hgo hstop
    obtain ⟨f, rfl⟩ : ∃ f, fuel = f + 1 := ⟨fuel - 1, by omega⟩
    have h0 : cond i = true := by simpa using hgo 0 (Nat.succ_pos n)
    have hrec := fun s1 => ih f (step i) s1 (by omega)
      (fun k hk => by simpa [Function.iterate_succ_apply] using hgo (k + 1) (by omega))
      (by simpa [Function.iterate_succ_apply] using hstop)
    rw [List.range_succ_eq_map, List.map_cons, List.map_map]
    simp only [for_loop, h0, if_true, run_list, Function.iterate_zero, id_eq]
    cases hb : body i s with
    | ok s1 =>
      simp only []
      rw [hrec s1]
      rfl
    | error e s1 => rfl
    | timeout s1 => rfl
    | undefined s1 => rfl

theorem calls_in_order_eq_run_list (fuel : Nat) (self : ClockNetwork) (grid : DeviceGrid)
    (l : List Int) (ctx : SynthState) :
    calls_in_order fuel self grid l ctx
      = run_list (fun i => self.create_rr_nodes_for_one_instance fuel grid i) l ctx := by
  induction l generalizing ctx with
  | nil => rfl
  | cons i rest ih =>
    simp only [calls_in_order, run_list]
    cases self.create_rr_nodes_for_one_instance fuel grid i ctx with
    | ok s1 => exact ih s1
    | error e s1 => rfl
    | timeout s1 => rfl
    | undefined s1 => rfl

theorem iterate_succ_int (k : Nat) : (fun i : Int => i + 1)^[k] 0 = (k : Int) := by
  induction k with
  | zero => rfl
  | succ k ih => rw [Function.iterate_succ_apply', ih]; push_cast; ring

/-- C3: an H-tree network with at least one instance makes
`create_rr_nodes_for_clock_network_wires` raise the error "HTrees are not yet supported" with
the node list and the registry exactly as they were before the call, and the per-instance
generator of an H-tree raises that error for every instance number and every state. -/
theorem ClockHTree.synthesis_always_fails (h : ClockHTree) (hn : 1 ≤ h.num_inst_)
    (fuel : Nat) (grid : DeviceGrid) (ctx : SynthState) :
    (ClockNetwork.HTree h).create_rr_nodes_for_clock_network_wires (fuel + 1) grid ctx
        = Outcome.error ⟨e_vpr_error.VPR_ERROR_ROUTE, "HTrees are not yet supported.\n"⟩ ctx ∧
    ∀ (inst_num : Int) (c : SynthState),
      h.create_rr_nodes_for_one_instance inst_num c
        = Outcome.error ⟨e_vpr_error.VPR_ERROR_ROUTE, "HTrees are not yet supported.\n"⟩ c := by
  refine ⟨?_, fun _ _ => rfl⟩
  have h0 : (0 : Int) < h.num_inst_ := by omega
  simp [ClockNetwork.create_rr_nodes_for_clock_network_wires, for_loop,
    ClockNetwork.get_num_inst, h0, ClockNetwork.create_rr_nodes_for_one_instance,
    ClockHTree.create_rr_nodes_for_one_instance]

/-- Witness of C3: `htree_example`, which has two instances. -/
theorem ClockHTree.synthesis_always_fails_witness :
    (1 : Int) ≤ htree_example.num_inst_ ∧
    ((ClockNetwork.HTree htree_example).create_rr_nodes_for_clock_network_wires (3 + 1) ⟨6, 4⟩
        ⟨[], ⟨[]⟩⟩
        = Outcome.error ⟨e_vpr_error.VPR_ERROR_ROUTE, "HTrees are not yet supported.\n"⟩
            ⟨[], ⟨[]⟩⟩ ∧
    ∀ (inst_num : Int) (c : SynthState),
      htree_example.create_rr_nodes_for_one_instance inst_num c
        = Outcome.error ⟨e_vpr_error.VPR_ERROR_ROUTE, "HTrees are not yet supported.\n"⟩ c) :=
  ⟨by decide, ClockHTree.synthesis_always_fails htree_example (by decide) 3 ⟨6, 4⟩ ⟨[], ⟨[]⟩⟩⟩

/-- C4: with a budget above the instance count, `create_rr_nodes_for_clock_network_wires` is
the sequence of calls `create_rr_nodes_for_one_instance(i, graph)` for
`i = 0, 1, ..., num_inst - 1` in increasing order, for every topology; and with `num_inst = 0`
it completes normally with the state unchanged, for every topology. -/
theorem ClockNetwork.wires_eq_calls_in_order (self : ClockNetwork) (fuel : Nat)
    (grid : DeviceGrid) (ctx : SynthState) (hfuel : self.get_num_inst.toNat < fuel) :
    self.create_rr_nodes_for_clock_network_wires fuel grid ctx
        = calls_in_order fuel self grid
            ((List.range self.get_num_inst.toNat).map (fun k : Nat => (k : Int))) ctx ∧
    (self.get_num_inst = 0 →
      self.create_rr_nodes_for_clock_network_wires fuel grid ctx = Outcome.ok ctx) := by
  have key : self.create_rr_nodes_for_clock_network_wires fuel grid ctx
        = calls_in_order fuel self grid
            ((List.range self.get_num_inst.toNat).map (fun k : Nat => (k : Int))) ctx := by
    rw [calls_in_order_eq_run_list]
    unfold ClockNetwork.create_rr_nodes_for_clock_network_wires
    rw [for_loop_eq_run_list _ _ _ self.get_num_inst.toNat fuel 0 ctx hfuel]
    · congr 1
      apply List.map_congr_left
      intro k _
      exact iterate_succ_int k
    · intro k hk
      rw [iterate_succ_int]
      simp only [decide_eq_true_eq]
      omega
    · rw [iterate_succ_int]
      simp only [decide_eq_false_iff_not]
      omega
  refine ⟨key, ?_⟩
  intro h0
  rw [key, h0]
  rfl

/-- Witness of C4: an H-tree network without instances, budget 1. -/
theorem ClockNetwork.wires_eq_calls_in_order_witness :
    (ClockNetwork.HTree ⟨"htree", 0⟩).get_num_inst.toNat < 1 ∧
    ((ClockNetwork.HTree ⟨"htree", 0⟩).create_rr_nodes_for_clock_network_wires 1 ⟨6, 4⟩
        ⟨[], ⟨[]⟩⟩
        = calls_in_order 1 (ClockNetwork.HTree ⟨"htree", 0⟩) ⟨6, 4⟩
            ((List.range (ClockNetwork.HTree ⟨"htree", 0⟩).get_num_inst.toNat).map
              (fun k : Nat => (k : Int))) ⟨[], ⟨[]⟩⟩ ∧
    ((ClockNetwork.HTree ⟨"htree", 0⟩).get_num_inst = 0 →
      (ClockNetwork.HTree ⟨"htree", 0⟩).create_rr_nodes_for_clock_network_wires 1 ⟨6, 4⟩
        ⟨[], ⟨[]⟩⟩ = Outcome.ok ⟨[], ⟨[]⟩⟩)) :=
  ⟨by decide, ClockNetwork.wires_eq_calls_in_order (ClockNetwork.HTree ⟨"htree", 0⟩) 1 ⟨6, 4⟩
    ⟨[], ⟨[]⟩⟩ (by decide)⟩

/-! ### Counting loops over unsigned variables -/

theorem lt_steps_below_iff (u0 d B k : Nat) (hd : 0 < d) :
    k < steps_below u0 d B ↔ u0 + k * d < B := by
  unfold steps_below
  by_cases h : u0 < B
  · simp only [h, if_true]
    rw [Nat.lt_iff_add_one_le, Nat.le_div_iff_mul_le hd, Nat.add_mul, Nat.one_mul]
    omega
  · simp only [h, if_false]
    have : 0 ≤ k * d := Nat.zero_le _
    omega

theorem steps_below_le (u0 d B : Nat) (hd : 0 < d) : steps_below u0 d B ≤ B := by
  by_contra hcon
  have h : B < steps_below u0 d B := by omega
  rw [lt_steps_below_iff u0 d B B hd] at h
  have : B ≤ B * d := Nat.le_mul_of_pos_right B hd
  omega

theorem steps_below_eq_ncard (u0 d B : Nat) (hd : 0 < d) :
    steps_below u0 d B = Set.ncard {k : ℕ | u0 + k * d < B} := by
  have hset : {k : ℕ | u0 + k * d < B} = ↑(Finset.range (steps_below u0 d B)) := by
    ext k
    simp [lt_steps_below_iff u0 d B k hd]
  rw [hset, Set.ncard_coe_Finset, Finset.card_range]

theorem to_unsigned_add_nat (u : Nat) (d : Int) (hd0 : 0 ≤ d) (h : (u : Int) + d < 4294967296) :
    to_unsigned ((u : Int) + d) = u + d.toNat := by
  unfold to_unsigned
  omega

theorem to_unsigned_add_mod (a d : Int) :
    to_unsigned (((to_unsigned a : Nat) : Int) + d) = to_unsigned (a + d) := by
  unfold to_unsigned
  have h : ((a % 4294967296).toNat : Int) = a % 4294967296 :=
    Int.toNat_of_nonneg (Int.emod_nonneg _ (by norm_num))
  rw [h, Int.emod_add_emod]

/-- Iterates of an unsigned counter that has not wrapped: while the counter stays below a bound
`B <= 2^31` and the step is a positive `int`, the `k`-th value is `u0 + k * d`. -/
theorem iterate_unsigned_step (u0 : Nat) (d : Int) (B : Nat) (hd0 : 0 < d)
    (hd1 : d < 2147483648) (hB : B ≤ 2147483648) :
    ∀ k, k ≤ steps_below u0 d.toNat B →
      (fun u : Nat => to_unsigned ((u : Int) + d))^[k] u0 = u0 + k * d.toNat := by
  intro k
  induction k with
  | zero => intro _; simp
  | succ k ih =>
    intro hk
    have hlt : k < steps_below u0 d.toNat B := by omega
    have hb := (lt_steps_below_iff u0 d.toNat B k (by omega)).1 hlt
    rw [Function.iterate_succ_apply', ih (by omega), to_unsigned_add_nat _ d (by omega)]
    · rw [Nat.add_mul, Nat.one_mul, Nat.add_assoc]
    · push_cast
      have : ((d.toNat : Nat) : Int) = d := Int.toNat_of_nonneg (by omega)
      have h2 : ((u0 + k * d.toNat : Nat) : Int) < 2147483648 := by omega
      push_cast at h2
      omega

theorem iterate_unsigned_mod (a d : Int) :
    ∀ k : Nat, (fun u : Nat => to_unsigned ((u : Int) + d))^[k] (to_unsigned a)
      = to_unsigned (a + k * d) := by
  intro k
  induction k with
  | zero => simp
  | succ k ih =>
    rw [Function.iterate_succ_apply', ih, to_unsigned_add_mod]
    congr 1
    push_cast
    ring

/-- A counting loop over an unsigned variable that cannot wrap runs its body on
`u0, u0 + d, ..., u0 + (n - 1) d`, where `n` counts the values below the bound. -/
theorem for_loop_unsigned {σ : Type} (body : Nat → σ → Outcome σ) (u0 : Nat) (d : Int)
    (B fuel : Nat) (s : σ) (hd0 : 0 < d) (hd1 : d < 2147483648) (hB : B ≤ 2147483648)
    (hfuel : steps_below u0 d.toNat B < fuel) :
    for_loop (fun u : Nat => decide (u < B)) (fun u => to_unsigned ((u : Int) + d)) body
        fuel u0 s
      = run_list body ((List.range (steps_below u0 d.toNat B)).map
          (fun k => u0 + k * d.toNat)) s := by
  rw [for_loop_eq_run_list _ _ _ (steps_below u0 d.toNat B) fuel u0 s hfuel]
  · congr 1
    apply List.map_congr_left
    intro k hk
    exact iterate_unsigned_step u0 d B hd0 hd1 hB k (Nat.le_of_lt (List.mem_range.1 hk))
  · intro k hk
    rw [iterate_unsigned_step u0 d B hd0 hd1 hB k (Nat.le_of_lt hk)]
    simp only [decide_eq_true_eq]
    exact (lt_steps_below_iff u0 d.toNat B k (by omega)).1 hk
  · rw [iterate_unsigned_step u0 d B hd0 hd1 hB _ (Nat.le_refl _)]
    simp only [decide_eq_false_iff_not]
    intro h
    have := (lt_steps_below_iff u0 d.toNat B _ (by omega)).2 h
    omega

theorem iterate_pair {α β : Type} (f : α → α) (g : β → β) (p : α) (q : β) :
    ∀ k : Nat, (fun xs : α × β => (f xs.1, g xs.2))^[k] (p, q) = (f^[k] p, g^[k] q) := by
  intro k
  induction k with
  | zero => rfl
  | succ k ih => rw [Function.iterate_succ_apply', ih, Function.iterate_succ_apply',
      Function.iterate_succ_apply']

/-- The outer loop of a generator, over the pair `(start, end)` of unsigned variables stepped
together and tested on the second one. -/
theorem for_loop_unsigned_pair {σ : Type} (body : Nat × Nat → σ → Outcome σ) (a : Int)
    (u0 : Nat) (d : Int) (B fuel : Nat) (s : σ) (hd0 : 0 < d) (hd1 : d < 2147483648)
    (hB : B ≤ 2147483648) (hfuel : steps_below u0 d.toNat B < fuel) :
    for_loop (fun xs : Nat × Nat => decide (xs.2 < B))
        (fun xs => (to_unsigned ((xs.1 : Int) + d), to_unsigned ((xs.2 : Int) + d))) body
        fuel (to_unsigned a, u0) s
      = run_list body ((List.range (steps_below u0 d.toNat B)).map
          (fun k : Nat => (to_unsigned (a + (k : Int) * d), u0 + k * d.toNat))) s := by
  have hit : ∀ k, k ≤ steps_below u0 d.toNat B →
      (fun xs : Nat × Nat =>
        (to_unsigned ((xs.1 : Int) + d), to_unsigned ((xs.2 : Int) + d)))^[k] (to_unsigned a, u0)
        = (to_unsigned (a + (k : Int) * d), u0 + k * d.toNat) := by
    intro k hk
    rw [iterate_pair (fun u : Nat => to_unsigned ((u : Int) + d))
      (fun u : Nat => to_unsigned ((u : Int) + d)), iterate_unsigned_mod,
      iterate_unsigned_step u0 d B hd0 hd1 hB k hk]
  rw [for_loop_eq_run_list _ _ _ (steps_below u0 d.toNat B) fuel _ s hfuel]
  · congr 1
    apply List.map_congr_left
    intro k hk
    exact hit k (Nat.le_of_lt (List.mem_range.1 hk))
  · intro k hk
    rw [hit k (Nat.le_of_lt hk)]
    simp only [decide_eq_true_eq]
    exact (lt_steps_below_iff u0 d.toNat B k (by omega)).1 hk
  · rw [hit _ (Nat.le_refl _)]
    simp only [decide_eq_false_iff_not]
    intro h
    have := (lt_steps_below_iff u0 d.toNat B _ (by omega)).2 h
    omega

/-! ### The rib instance in closed form -/

theorem run_list_map {ι κ σ : Type} (body : κ → σ → Outcome σ) (f : ι → κ) (l : List ι)
    (s : σ) : run_list body (l.map f) s = run_list (fun i => body (f i)) l s := by
  induction l generalizing s with
  | nil => rfl
  | cons i rest ih =>
    simp only [List.map_cons, run_list]
    cases body (f i) s with
    | ok s1 => exact ih s1
    | error e s1 => rfl
    | timeout s1 => rfl
    | undefined s1 => rfl

theorem run_list_append {ι σ : Type} (body : ι → σ → Outcome σ) (l1 l2 : List ι) (s : σ) :
    run_list body (l1 ++ l2) s =
      match run_list body l1 s with
      | Outcome.ok s1 => run_list body l2 s1
      | Outcome.error e s1 => Outcome.error e s1
      | Outcome.timeout s1 => Outcome.timeout s1
      | Outcome.undefined s1 => Outcome.undefined s1 := by
  induction l1 generalizing s with
  | nil => rfl
  | cons i rest ih =>
    simp only [List.cons_append, run_list]
    cases body i s with
    | ok s1 => exact ih s1
    | error e s1 => rfl
    | timeout s1 => rfl
    | undefined s1 => rfl

theorem run_list_flatMap {ι κ σ : Type} (body : κ → σ → Outcome σ) (col : ι → List κ)
    (l : List ι) (s : σ) :
    run_list (fun i => run_list body (col i)) l s = run_list body (l.flatMap col) s := by
  induction l generalizing s with
  | nil => rfl
  | cons i rest ih =>
    simp only [List.flatMap_cons, run_list, run_list_append]
    cases run_list body (col i) s with
    | ok s1 => exact ih s1
    | error e s1 => rfl
    | timeout s1 => rfl
    | undefined s1 => rfl

theorem run_list_congr {ι σ : Type} (body1 body2 : ι → σ → Outcome σ) (l : List ι)
    (h : ∀ i ∈ l, ∀ s, body1 i s = body2 i s) (s : σ) :
    run_list body1 l s = run_list body2 l s := by
  induction l generalizing s with
  | nil => rfl
  | cons i rest ih =>
    simp only [run_list]
    rw [h i (List.mem_cons_self _ _) s]
    cases body2 i s with
    | ok s1 => exact ih (fun j hj => h j (List.mem_cons_of_mem _ hj)) s1
    | error e s1 => rfl
    | timeout s1 => rfl
    | undefined s1 => rfl

theorem run_list_taps (self : ClockRib) (x_start y : Nat) (left right : Int) (l : List Nat)
    (g : ClockRRGraph) :
    run_list (fun (x : Nat) (g : ClockRRGraph) =>
        if x < to_unsigned ((x_start : Int) + self.drive.offset) then
          Outcome.ok (g.add_switch_location self.clock_name_ "tap" (to_int x) (to_int y) left)
        else
          Outcome.ok (g.add_switch_location self.clock_name_ "tap" (to_int x) (to_int y) right))
        l g
      = Outcome.ok ⟨g.switch_locations ++ l.map (fun x =>
          { clock_name := self.clock_name_, switch_name := "tap", x := to_int x, y := to_int y,
            node_index :=
              if x < to_unsigned ((x_start : Int) + self.drive.offset) then left
              else right })⟩ := by
  induction l generalizing g with
  | nil => simp [run_list]
  | cons x rest ih =>
    simp only [run_list, List.map_cons]
    by_cases h : x < to_unsigned ((x_start : Int) + self.drive.offset)
    · simp only [h, if_true]
      rw [ih]
      simp [ClockRRGraph.add_switch_location]
    · simp only [h, if_false]
      rw [ih]
      simp [ClockRRGraph.add_switch_location]

/-- With a positive `tap.increment`, an `x_end` below `2^31` and a budget above `x_end + 1`,
`record_tap_locations` completes and appends exactly `rib_tap_entries`. -/
theorem record_tap_locations_eq (fuel : Nat) (self : ClockRib) (x_start x_end y : Nat)
    (left right : Int) (g : ClockRRGraph) (hinc0 : 0 < self.tap.increment)
    (hinc1 : self.tap.increment < 2147483648) (hxe : x_end < 2147483648)
    (hfuel : x_end + 1 < fuel) :
    self.record_tap_locations fuel x_start x_end y left right g
      = Outcome.ok ⟨g.switch_locations ++ rib_tap_entries self x_start x_end y left right⟩ := by
  have hcond : (fun x : Nat => decide (x ≤ x_end)) = (fun x : Nat => decide (x < x_end + 1)) := by
    funext x
    simp [Nat.lt_succ_iff]
  have hn := steps_below_le (to_unsigned ((x_start : Int) + self.tap.offset))
    self.tap.increment.toNat (x_end + 1) (by omega)
  unfold ClockRib.record_tap_locations
  simp only [hcond]
  rw [for_loop_unsigned _ _ self.tap.increment (x_end + 1) fuel g hinc0 hinc1 (by omega)
    (by omega), run_list_taps]
  simp [rib_tap_entries, List.map_map, Function.comp_def]

theorem to_size_natCast (n : Nat) (h : n < 18446744073709551616) : to_size (n : Int) = n := by
  unfold to_size
  omega

/-- While the node list stays within `2^31` nodes, the `int` index that `create_chanx_wire`
returns is the position of the node, and the tile body is the closed form below. -/
theorem tile_body_eq (fuel : Nat) (self : ClockRib) (ptc_num : Int) (x_start x_end y : Nat)
    (ctx : SynthState) (hinc0 : 0 < self.tap.increment)
    (hinc1 : self.tap.increment < 2147483648) (hxe : x_end < 2147483648)
    (hfuel : x_end + 1 < fuel) (hn : ctx.rr_nodes.length + 3 ≤ 2147483648) :
    self.tile_body fuel ptc_num x_start x_end y ctx
      = Outcome.ok
          ⟨ctx.rr_nodes ++ rib_tile_nodes self ptc_num ctx.rr_nodes.length (x_start, x_end, y),
           ⟨ctx.clock_graph.switch_locations
              ++ rib_tile_entries self ctx.rr_nodes.length (x_start, x_end, y)⟩⟩ := by
  have h0 : to_int ctx.rr_nodes.length = (ctx.rr_nodes.length : Int) :=
    to_int_of_lt _ (by omega)
  have h1 : to_int (ctx.rr_nodes.length + 1) = ((ctx.rr_nodes.length + 1 : Nat) : Int) :=
    to_int_of_lt _ (by omega)
  have h2 : to_int (ctx.rr_nodes.length + 1 + 1) = ((ctx.rr_nodes.length + 1 + 1 : Nat) : Int) :=
    to_int_of_lt _ (by omega)
  have hs : to_size (ctx.rr_nodes.length : Int) = ctx.rr_nodes.length :=
    to_size_natCast _ (by omega)
  have hlt : ctx.rr_nodes.length < ctx.rr_nodes.length + (0 + 1 + 1 + 1) := by omega
  unfold ClockRib.tile_body
  simp only [create_chanx_wire_eq, record_tap_locations_eq fuel self x_start x_end y _ _ _ hinc0
    hinc1 hxe hfuel, List.append_assoc, List.singleton_append,
    modify_append_length_zero, ClockRRGraph.add_switch_location, List.length_append,
    List.length_cons, List.length_nil, h0, h1, h2, hs, hlt, if_true]
  simp [rib_tile_nodes, rib_drive_node, rib_left_node, rib_right_node, rib_tile_entries,
    rib_drive_entry, t_rr_node.add_edge, chan_node, modify_append_length_zero, add_assoc]

theorem run_list_tiles (fuel : Nat) (self : ClockRib) (ptc_num : Int)
    (hinc0 : 0 < self.tap.increment) (hinc1 : self.tap.increment < 2147483648) :
    ∀ (ts : List (Nat × Nat × Nat)) (ctx : SynthState),
      (∀ t ∈ ts, t.2.1 < 2147483648 ∧ t.2.1 + 1 < fuel) →
      ctx.rr_nodes.length + 3 * ts.length ≤ 2147483648 →
      run_list (fun (t : Nat × Nat × Nat) => self.tile_body fuel ptc_num t.1 t.2.1 t.2.2) ts ctx
        = Outcome.ok
            ⟨ctx.rr_nodes ++ rib_nodes_of self ptc_num ctx.rr_nodes.length ts,
             ⟨ctx.clock_graph.switch_locations
                ++ rib_entries_of self ctx.rr_nodes.length ts⟩⟩ := by
  intro ts
  induction ts with
  | nil => intro ctx _ _; simp [run_list, rib_nodes_of, rib_entries_of]
  | cons t ts ih =>
    intro ctx h hn
    obtain ⟨h1, h2⟩ := h t (List.mem_cons_self _ _)
    simp only [List.length_cons] at hn
    simp only [run_list]
    rw [tile_body_eq fuel self ptc_num t.1 t.2.1 t.2.2 ctx hinc0 hinc1 h1 h2 (by omega)]
    simp only []
    have h3 : (rib_tile_nodes self ptc_num ctx.rr_nodes.length (t.1, t.2.1, t.2.2)).length
        = 3 := rfl
    rw [ih _ (fun u hu => h u (List.mem_cons_of_mem _ hu))
      (by simp only [List.length_append, h3]; omega)]
    simp [rib_nodes_of, rib_entries_of, rib_tile_nodes, List.append_assoc]

theorem mem_rib_tiles_x_end (self : ClockRib) (grid : DeviceGrid)
    (hrx0 : 0 < self.repeat_.x) (t : Nat × Nat × Nat) (ht : t ∈ rib_tiles self grid) :
    t.2.1 < size_sub grid.width 1 := by
  simp only [rib_tiles, rib_columns, rib_rows, List.mem_flatMap, List.mem_map,
    List.mem_range] at ht
  obtain ⟨xs, ⟨k, hk, rfl⟩, j, _, rfl⟩ := ht
  exact (lt_steps_below_iff _ _ _ k (by omega)).1 hk

/-- The outcome of one rib instance, in closed form.  With positive repeat steps and
`tap.increment` (all below `2^31`), `grid.width() - 1` and `grid.height() - 1` at most `2^31`,
a node list that stays within `2^31` nodes, and a budget above both grid bounds, the call
completes and appends the nodes and the registry entries of the tiles `rib_tiles` in
generation order. -/
theorem rib_instance_eq (fuel : Nat) (self : ClockRib) (grid : DeviceGrid) (inst_num : Int)
    (ctx : SynthState)
    (hrx0 : 0 < self.repeat_.x) (hrx1 : self.repeat_.x < 2147483648)
    (hry0 : 0 < self.repeat_.y) (hry1 : self.repeat_.y < 2147483648)
    (hinc0 : 0 < self.tap.increment) (hinc1 : self.tap.increment < 2147483648)
    (hW : size_sub grid.width 1 ≤ 2147483648) (hH : size_sub grid.height 1 ≤ 2147483648)
    (hfW : size_sub grid.width 1 < fuel) (hfH : size_sub grid.height 1 < fuel)
    (hnodes : ctx.rr_nodes.length + 3 * (rib_tiles self grid).length ≤ 2147483648) :
    self.create_rr_nodes_for_one_instance fuel grid inst_num ctx
      = Outcome.ok
          ⟨ctx.rr_nodes
              ++ rib_nodes_of self (inst_num + 50) ctx.rr_nodes.length (rib_tiles self grid),
           ⟨ctx.clock_graph.switch_locations
              ++ rib_entries_of self ctx.rr_nodes.length (rib_tiles self grid)⟩⟩ := by
  have hNx := steps_below_le (to_unsigned self.x_chan_wire.end_) self.repeat_.x.toNat
    (size_sub grid.width 1) (by omega)
  have hNy := steps_below_le (to_unsigned self.x_chan_wire.position) self.repeat_.y.toNat
    (size_sub grid.height 1) (by omega)
  unfold ClockRib.create_rr_nodes_for_one_instance
  simp only []
  rw [for_loop_unsigned_pair _ (self.x_chan_wire.start + 1) (to_unsigned self.x_chan_wire.end_)
    self.repeat_.x (size_sub grid.width 1) fuel ctx hrx0 hrx1 hW (by omega)]
  rw [run_list_congr _
    (fun xs => run_list
      (fun (t : Nat × Nat × Nat) => self.tile_body fuel (inst_num + 50) t.1 t.2.1 t.2.2)
      ((rib_rows self grid).map (fun y => (xs.1, xs.2, y))))]
  · rw [run_list_flatMap]
    exact run_list_tiles fuel self (inst_num + 50) hinc0 hinc1 (rib_tiles self grid) ctx
      (fun t ht => by
        have := mem_rib_tiles_x_end self grid hrx0 t ht
        omega) hnodes
  · intro xs _ s
    rw [for_loop_unsigned _ _ self.repeat_.y (size_sub grid.height 1) fuel s hry0 hry1 hH
      (by omega),
      run_list_map (fun (t : Nat × Nat × Nat) => self.tile_body fuel (inst_num + 50) t.1 t.2.1 t.2.2)
        (fun y => (xs.1, xs.2, y))]
    simp only [rib_rows, rib_num_rows]

/-! ### Node count of a rib instance (C1) -/

theorem size_sub_one (w : Nat) (h0 : 1 ≤ w) (h1 : w ≤ 2147483648) : size_sub w 1 = w - 1 := by
  unfold size_sub
  omega

theorem to_unsigned_int_nonneg (i : Int) (h0 : 0 ≤ i) (h1 : i < 2147483648) :
    to_unsigned i = i.toNat := by
  unfold to_unsigned
  omega

/-- The number of iterations of a counting loop, written the way the claims count them: the
number of `k >= 0` with `a + k * d < w - 1`. -/
theorem steps_below_eq_ncard_int (a d : Int) (w : Nat) (ha0 : 0 ≤ a) (ha1 : a < 2147483648)
    (hd : 0 < d) (hw0 : 1 ≤ w) (hw1 : w ≤ 2147483648) :
    steps_below (to_unsigned a) d.toNat (size_sub w 1)
      = Set.ncard {k : ℕ | a + (k : Int) * d < (w : Int) - 1} := by
  rw [steps_below_eq_ncard _ _ _ (by omega), size_sub_one w hw0 hw1,
    to_unsigned_int_nonneg a ha0 ha1]
  congr 1
  ext k
  simp only [Set.mem_setOf_eq]
  have h1 : ((a.toNat + k * d.toNat : Nat) : Int) = a + (k : Int) * d := by
    push_cast
    rw [Int.toNat_of_nonneg ha0, Int.toNat_of_nonneg (le_of_lt hd)]
  constructor
  · intro h
    have : ((a.toNat + k * d.toNat : Nat) : Int) < ((w - 1 : Nat) : Int) := by exact_mod_cast h
    rw [h1] at this
    omega
  · intro h
    have : ((a.toNat + k * d.toNat : Nat) : Int) < ((w - 1 : Nat) : Int) := by
      rw [h1]; omega
    exact_mod_cast this

theorem rib_tile_nodes_length (self : ClockRib) (p : Int) (base : Nat) (t : Nat × Nat × Nat) :
    (rib_tile_nodes self p base t).length = 3 := rfl

theorem rib_nodes_of_length (self : ClockRib) (p : Int) :
    ∀ (ts : List (Nat × Nat × Nat)) (base : Nat),
      (rib_nodes_of self p base ts).length = 3 * ts.length := by
  intro ts
  induction ts with
  | nil => intro _; rfl
  | cons t ts ih =>
    intro base
    simp only [rib_nodes_of, List.length_append, rib_tile_nodes_length, ih, List.length_cons]
    omega

theorem length_flatMap_map {α β γ : Type} (f : α → β → γ) (m : List β) (l : List α) :
    (l.flatMap (fun x => m.map (f x))).length = l.length * m.length := by
  induction l with
  | nil => simp
  | cons a l ih =>
    simp only [List.flatMap_cons, List.length_append, List.length_map, ih, List.length_cons]
    rw [Nat.add_mul, Nat.one_mul, Nat.add_comm]

theorem rib_tiles_length (self : ClockRib) (grid : DeviceGrid) :
    (rib_tiles self grid).length = rib_num_columns self grid * rib_num_rows self grid := by
  unfold rib_tiles
  rw [length_flatMap_map (fun (xs : Nat × Nat) (y : Nat) => (xs.1, xs.2, y))]
  simp [rib_columns, rib_rows]

/-- A loop whose test holds on every value the loop variable can take never completes. -/
theorem for_loop_not_ok {ι σ : Type} (cond : ι → Bool) (step : ι → ι)
    (body : ι → σ → Outcome σ) (J : ι → Prop)
    (hJ : ∀ i, J i → cond i = true ∧ J (step i)) :
    ∀ (fuel : Nat) (i : ι) (s : σ), J i → (for_loop cond step body fuel i s).isOk = false := by
  intro fuel
  induction fuel with
  | zero => intro _ _ _; rfl
  | succ n ih =>
    intro i s hi
    obtain ⟨hc, hs⟩ := hJ i hi
    simp only [for_loop, hc, if_true]
    cases body i s with
    | ok s1 => exact ih (step i) s1 hs
    | error e s1 => rfl
    | timeout s1 => rfl
    | undefined s1 => rfl

theorem for_loop_first_not_ok {ι σ : Type} (cond : ι → Bool) (step : ι → ι)
    (body : ι → σ → Outcome σ) (fuel : Nat) (i : ι) (s : σ) (hc : cond i = true)
    (hb : (body i s).isOk = false) : (for_loop cond step body fuel i s).isOk = false := by
  cases fuel with
  | zero => rfl
  | succ n =>
    simp only [for_loop, hc, if_true]
    cases hbs : body i s with
    | ok s1 => rw [hbs] at hb; simp [Outcome.isOk] at hb
    | error e s1 => rfl
    | timeout s1 => rfl
    | undefined s1 => rfl

theorem rib_instance_first_tile_not_ok (fuel : Nat) (self : ClockRib) (grid : DeviceGrid)
    (inst_num : Int) (ctx : SynthState)
    (hx : to_unsigned self.x_chan_wire.end_ < size_sub grid.width 1)
    (hy : to_unsigned self.x_chan_wire.position < size_sub grid.height 1)
    (hb : (self.tile_body fuel (inst_num + 50) (to_unsigned (self.x_chan_wire.start + 1))
      (to_unsigned self.x_chan_wire.end_) (to_unsigned self.x_chan_wire.position) ctx).isOk
        = false) :
    (self.create_rr_nodes_for_one_instance fuel grid inst_num ctx).isOk = false := by
  unfold ClockRib.create_rr_nodes_for_one_instance
  apply for_loop_first_not_ok
  · simpa using hx
  · dsimp only
    apply for_loop_first_not_ok
    · simpa using hy
    · exact hb

/-- When the index that `create_chanx_wire` returns for the drive node, converted back to
`size_t`, is outside the node list, the tile body does not complete: the access
`rr_nodes[drive_node_idx]` is out of bounds. -/
theorem tile_body_not_ok_of_index (fuel : Nat) (self : ClockRib) (ptc_num : Int)
    (x_start x_end y : Nat) (ctx : SynthState)
    (h : ctx.rr_nodes.length + 3 ≤ to_size (to_int ctx.rr_nodes.length)) :
    (self.tile_body fuel ptc_num x_start x_end y ctx).isOk = false := by
  have hlt : ¬ to_size (to_int ctx.rr_nodes.length) < ctx.rr_nodes.length + (0 + 1 + 1 + 1) := by
    omega
  unfold ClockRib.tile_body
  simp only [create_chanx_wire_eq, List.length_append, List.length_cons, List.length_nil, hlt,
    if_false]
  cases self.record_tap_locations fuel x_start x_end y _ _ _ <;> rfl

/-- C1 (amended): for a rib network whose `int` fields hold 32-bit values, with
`repeat.x > 0`, `repeat.y > 0`, `tap.increment > 0`, non-negative `span.end` and `position`,
on a grid with `1 <= W <= 2^31` and `1 <= H <= 2^31`, and a node list that holds at most
`2^31` nodes after the call (`n + 3 * Nx * Ny <= 2^31`, `n` its length before), one call of
`create_rr_nodes_for_one_instance` with a budget of at least `W` and `H` completes and appends
exactly `3 * Nx * Ny` nodes, `Nx` the number of `k >= 0` with `span.end + k * repeat.x < W - 1`
and `Ny` the number of `j >= 0` with `position + j * repeat.y < H - 1`. -/
theorem ClockRib.one_instance_node_count (self : ClockRib) (grid : DeviceGrid) (inst_num : Int)
    (ctx : SynthState) (fuel : Nat) (hty : self.int_fields)
    (hrx : 0 < self.repeat_.x) (hry : 0 < self.repeat_.y) (hinc : 0 < self.tap.increment)
    (hend : 0 ≤ self.x_chan_wire.end_) (hpos : 0 ≤ self.x_chan_wire.position)
    (hW0 : 1 ≤ grid.width) (hW1 : grid.width ≤ 2147483648)
    (hH0 : 1 ≤ grid.height) (hH1 : grid.height ≤ 2147483648)
    (hfW : grid.width ≤ fuel) (hfH : grid.height ≤ fuel)
    (hnodes : ctx.rr_nodes.length +
        3 * (Set.ncard {k : ℕ | self.x_chan_wire.end_ + (k : Int) * self.repeat_.x
                < (grid.width : Int) - 1} *
             Set.ncard {j : ℕ | self.x_chan_wire.position + (j : Int) * self.repeat_.y
                < (grid.height : Int) - 1}) ≤ 2147483648) :
    ∃ out : SynthState,
      self.create_rr_nodes_for_one_instance fuel grid inst_num ctx = Outcome.ok out ∧
      out.rr_nodes.length = ctx.rr_nodes.length +
        3 * (Set.ncard {k : ℕ | self.x_chan_wire.end_ + (k : Int) * self.repeat_.x
                < (grid.width : Int) - 1} *
             Set.ncard {j : ℕ | self.x_chan_wire.position + (j : Int) * self.repeat_.y
                < (grid.height : Int) - 1}) := by
  obtain ⟨_, ⟨_, he1⟩, ⟨_, hp1⟩, ⟨_, hrx1⟩, ⟨_, hry1⟩, _, _, ⟨_, hinc1⟩⟩ := hty
  have hsW := size_sub_one grid.width hW0 hW1
  have hsH := size_sub_one grid.height hH0 hH1
  have hNx := steps_below_eq_ncard_int _ _ _ hend he1 hrx hW0 hW1
  have hNy := steps_below_eq_ncard_int _ _ _ hpos hp1 hry hH0 hH1
  refine ⟨_, rib_instance_eq fuel self grid inst_num ctx hrx hrx1 hry hry1 hinc hinc1
    (by omega) (by omega) (by omega) (by omega) ?_, ?_⟩
  · rw [rib_tiles_length, rib_num_columns, rib_num_rows, hNx, hNy]
    exact hnodes
  · simp only [List.length_append, rib_nodes_of_length, rib_tiles_length, rib_num_columns,
      rib_num_rows]
    rw [hNx, hNy]

/-- Witness of C1: `rib_example` on a grid of width 6 and height 4, budget 6. -/
theorem ClockRib.one_instance_node_count_witness :
    ∃ out : SynthState,
      rib_example.create_rr_nodes_for_one_instance 6 ⟨6, 4⟩ 0 ⟨[], ⟨[]⟩⟩ = Outcome.ok out ∧
      out.rr_nodes.length = (⟨[], ⟨[]⟩⟩ : SynthState).rr_nodes.length +
        3 * (Set.ncard {k : ℕ | rib_example.x_chan_wire.end_ + (k : Int) * rib_example.repeat_.x
                < ((⟨6, 4⟩ : DeviceGrid).width : Int) - 1} *
             Set.ncard {j : ℕ | rib_example.x_chan_wire.position
                + (j : Int) * rib_example.repeat_.y
                < ((⟨6, 4⟩ : DeviceGrid).height : Int) - 1}) :=
  ClockRib.one_instance_node_count rib_example ⟨6, 4⟩ 0 ⟨[], ⟨[]⟩⟩ 6 (by decide) (by decide)
    (by decide) (by decide) (by decide) (by decide) (by decide) (by decide) (by decide)
    (by decide) (by decide) (by decide)
    (by
      rw [← steps_below_eq_ncard_int rib_example.x_chan_wire.end_ rib_example.repeat_.x
          (⟨6, 4⟩ : DeviceGrid).width (by decide) (by decide) (by decide) (by decide)
          (by decide),
        ← steps_below_eq_ncard_int rib_example.x_chan_wire.position rib_example.repeat_.y
          (⟨6, 4⟩ : DeviceGrid).height (by decide) (by decide) (by decide) (by decide)
          (by decide)]
      decide)

/-- From a node list of `2^31` nodes, `rib_unit` on a grid of 3 by 3 does not complete: the
index of the first drive node is returned as `-2^31`. -/
theorem rib_unit_index_overflow (l : List t_rr_node) (g : ClockRRGraph)
    (hlen : l.length = 2147483648) (fuel : Nat) :
    (rib_unit.create_rr_nodes_for_one_instance fuel ⟨3, 3⟩ 0 ⟨l, g⟩).isOk = false := by
  refine rib_instance_first_tile_not_ok fuel rib_unit ⟨3, 3⟩ 0 ⟨l, g⟩ (by decide) (by decide)
    (tile_body_not_ok_of_index fuel rib_unit _ _ _ _ _ ?_)
  show l.length + 3 ≤ to_size (to_int l.length)
  rw [hlen]
  unfold to_size to_int
  norm_num

/-- C1 fails as stated, in two ways, for a network that meets every condition of the claim.
On a grid of width `2^32 + 1` the 32-bit `x_end` is below `grid.width() - 1 = 2^32` whatever
its value, so the test of the outer loop never fails and the call never completes normally (it
goes on appending nodes until a node index no longer fits `int`).  And on a grid
of 3 by 3, from a node list of `2^31` nodes, the index of the first drive node does not fit
`int`: `create_chanx_wire` returns `-2^31`, the access `rr_nodes[drive_node_idx]` is out of
bounds, and the call does not complete either. -/
theorem ClockRib.one_instance_wide_grid_diverges :
    (0 < rib_unit.repeat_.x ∧ 0 < rib_unit.repeat_.y ∧ 0 < rib_unit.tap.increment ∧
      0 ≤ rib_unit.x_chan_wire.start ∧ 0 ≤ rib_unit.x_chan_wire.end_ ∧
      0 ≤ rib_unit.x_chan_wire.position ∧ rib_unit.int_fields) ∧
    (¬ ∃ (fuel : Nat) (out : SynthState),
      rib_unit.create_rr_nodes_for_one_instance fuel ⟨4294967297, 2⟩ 0 ⟨[], ⟨[]⟩⟩
        = Outcome.ok out) ∧
    ¬ ∃ (fuel : Nat) (out : SynthState),
      rib_unit.create_rr_nodes_for_one_instance fuel ⟨3, 3⟩ 0
        ⟨List.replicate 2147483648 t_rr_node.emplace, ⟨[]⟩⟩ = Outcome.ok out := by
  refine ⟨by decide, ?_, ?_⟩
  swap
  · rintro ⟨fuel, out, h⟩
    have hno := rib_unit_index_overflow (List.replicate 2147483648 t_rr_node.emplace) ⟨[]⟩
      (List.length_replicate _ _) fuel
    rw [h] at hno
    simp [Outcome.isOk] at hno
  rintro ⟨fuel, out, h⟩
  have hnot := for_loop_not_ok
    (fun xs : Nat × Nat => decide (xs.2 < size_sub (4294967297 : Nat) 1))
    (fun xs => (to_unsigned ((xs.1 : Int) + rib_unit.repeat_.x),
      to_unsigned ((xs.2 : Int) + rib_unit.repeat_.x)))
    (fun xs =>
      for_loop (fun y : Nat => decide (y < size_sub (2 : Nat) 1))
        (fun y => to_unsigned ((y : Int) + rib_unit.repeat_.y))
        (fun y => rib_unit.tile_body fuel ((0 : Int) + 50) xs.1 xs.2 y)
        fuel (to_unsigned rib_unit.x_chan_wire.position))
    (fun xs => xs.2 < 4294967296)
    (fun xs hxs => ⟨by
      have : size_sub (4294967297 : Nat) 1 = 4294967296 := by decide
      simp only [this, decide_eq_true_eq]
      exact hxs, by dsimp only; exact to_unsigned_lt _⟩)
    fuel (to_unsigned (rib_unit.x_chan_wire.start + 1), to_unsigned rib_unit.x_chan_wire.end_)
    ⟨[], ⟨[]⟩⟩ (by dsimp only; exact to_unsigned_lt _)
  unfold ClockRib.create_rr_nodes_for_one_instance at h
  simp only [] at h
  rw [h] at hnot
  simp [Outcome.isOk] at hnot

/-! ### A rib tile at the limits of the `int` node index -/

/-- The tile `(1, 0, 0)` of `rib_unit`, from any node list in which the index that
`create_chanx_wire` returns for the drive node falls inside the list: the tile body completes,
three nodes are appended, the node at that index receives the two edges, and the drive entry is
registered; the tap loop starts above `x_end` and registers nothing. -/
theorem rib_unit_tile (fuel : Nat) (ptc_num : Int) (l : List t_rr_node) (g : ClockRRGraph)
    (h : to_size (to_int l.length) < l.length + 3) :
    rib_unit.tile_body (fuel + 1) ptc_num 1 0 0 ⟨l, g⟩
      = Outcome.ok
          ⟨((l ++ [chan_node t_rr_type.CHANX 1 0 1 0 ptc_num,
                chan_node t_rr_type.CHANX 1 0 1 0 ptc_num,
                chan_node t_rr_type.CHANX 1 0 0 0 ptc_num]).modify
              (t_rr_node.add_edge (to_int (l.length + 1)) 7) (to_size (to_int l.length))).modify
              (t_rr_node.add_edge (to_int (l.length + 2)) 7) (to_size (to_int l.length)),
           ⟨g.switch_locations ++ [⟨"clk", "drive", 1, 0, to_int l.length⟩]⟩⟩ := by
  have hlt : to_size (to_int l.length) < l.length + 1 + 1 + 1 := h
  have c5 : ¬ to_unsigned (((1 : Nat) : Int) + rib_unit.tap.offset) ≤ 0 := by decide
  have e1 : to_int (to_unsigned (((1 : Nat) : Int) + rib_unit.drive.offset)) = 1 := by decide
  have e2 : to_int 0 = 0 := by decide
  have e3 : to_int 1 = 1 := by decide
  have e5 : rib_unit.drive.switch_idx = 7 := rfl
  have e6 : rib_unit.clock_name_ = "clk" := rfl
  simp only [ClockRib.tile_body, ClockRib.record_tap_locations, for_loop, create_chanx_wire_eq,
    c5, e1, e2, e3, e5, e6, decide_False, if_false, List.length_append, List.length_singleton,
    hlt, if_true, ClockRRGraph.add_switch_location, Bool.false_eq_true]
  simp only [List.append_assoc, List.singleton_append, List.cons_append, List.nil_append]

/-- A loop whose test succeeds on the first value of the loop variable and fails on the second
runs its body once. -/
theorem for_loop_once {ι σ : Type} (cond : ι → Bool) (step : ι → ι) (body : ι → σ → Outcome σ)
    (fuel : Nat) (i : ι) (s : σ) (h1 : cond i = true) (h2 : cond (step i) = false) :
    for_loop cond step body (fuel + 2) i s = body i s := by
  simp only [for_loop, h1, if_true]
  cases body i s with
  | ok s1 => simp [h2]
  | error e s1 => rfl
  | timeout s1 => rfl
  | undefined s1 => rfl

/-- The single tile of `rib_unit` on a grid of 2 by 2: the instance is one run of the tile body
on the tile `(1, 0, 0)`. -/
theorem rib_unit_instance (fuel : Nat) (inst_num : Int) (l : List t_rr_node) (g : ClockRRGraph)
    (h : to_size (to_int l.length) < l.length + 3) :
    rib_unit.create_rr_nodes_for_one_instance (fuel + 2) ⟨2, 2⟩ inst_num ⟨l, g⟩
      = Outcome.ok
          ⟨((l ++ [chan_node t_rr_type.CHANX 1 0 1 0 (inst_num + 50),
                chan_node t_rr_type.CHANX 1 0 1 0 (inst_num + 50),
                chan_node t_rr_type.CHANX 1 0 0 0 (inst_num + 50)]).modify
              (t_rr_node.add_edge (to_int (l.length + 1)) 7) (to_size (to_int l.length))).modify
              (t_rr_node.add_edge (to_int (l.length + 2)) 7) (to_size (to_int l.length)),
           ⟨g.switch_locations ++ [⟨"clk", "drive", 1, 0, to_int l.length⟩]⟩⟩ := by
  unfold ClockRib.create_rr_nodes_for_one_instance
  dsimp only
  rw [for_loop_once _ _ _ fuel _ _ (by decide) (by decide)]
  dsimp only
  rw [for_loop_once _ _ _ fuel _ _ (by decide) (by decide)]
  exact rib_unit_tile (fuel + 1) (inst_num + 50) l g h

/-- From a node list of `2^32` nodes the index that `create_chanx_wire` returns for the drive
node is `(int)2^32 = 0`: the single tile of `rib_unit` on a grid of 2 by 2 completes, registers
the drive entry under the index 0 and adds the two edges, to the nodes 1 and 2, to the node at
the index 0 of the list. -/
theorem rib_unit_instance_wrapped (fuel : Nat) (inst_num : Int) (l : List t_rr_node)
    (g : ClockRRGraph) (hlen : l.length = 4294967296) :
    rib_unit.create_rr_nodes_for_one_instance (fuel + 2) ⟨2, 2⟩ inst_num ⟨l, g⟩
      = Outcome.ok
          ⟨((l ++ [chan_node t_rr_type.CHANX 1 0 1 0 (inst_num + 50),
                chan_node t_rr_type.CHANX 1 0 1 0 (inst_num + 50),
                chan_node t_rr_type.CHANX 1 0 0 0 (inst_num + 50)]).modify
              (t_rr_node.add_edge 1 7) 0).modify (t_rr_node.add_edge 2 7) 0,
           ⟨g.switch_locations ++ [⟨"clk", "drive", 1, 0, 0⟩]⟩⟩ := by
  have e0 : to_int l.length = 0 := by rw [hlen]; decide
  have e1 : to_int (l.length + 1) = 1 := by rw [hlen]; decide
  have e2 : to_int (l.length + 2) = 2 := by rw [hlen]; decide
  have e3 : to_size 0 = 0 := by decide
  have h := rib_unit_instance fuel inst_num l g (by rw [e0, e3]; omega)
  rw [e0, e1, e2, e3] at h
  exact h

/-- From a node list of `2^31 - 1` nodes the drive node of the next tile has the index
`2^31 - 1`, the last one that fits `int`; the indices `create_chanx_wire` returns for the two
half-wires are `(int)2^31 = -2^31` and `(int)(2^31 + 1) = -2^31 + 1`, and these are the edge
targets the drive node receives. -/
theorem rib_unit_instance_int_max (fuel : Nat) (inst_num : Int) (l : List t_rr_node)
    (g : ClockRRGraph) (hlen : l.length = 2147483647) :
    rib_unit.create_rr_nodes_for_one_instance (fuel + 2) ⟨2, 2⟩ inst_num ⟨l, g⟩
      = Outcome.ok
          ⟨l ++ [{ chan_node t_rr_type.CHANX 1 0 1 0 (inst_num + 50) with
                   edges := [(-2147483648, 7), (-2147483647, 7)] },
                chan_node t_rr_type.CHANX 1 0 1 0 (inst_num + 50),
                chan_node t_rr_type.CHANX 1 0 0 0 (inst_num + 50)],
           ⟨g.switch_locations ++ [⟨"clk", "drive", 1, 0, 2147483647⟩]⟩⟩ := by
  have e0 : to_int l.length = 2147483647 := by rw [hlen]; decide
  have e1 : to_int (l.length + 1) = -2147483648 := by rw [hlen]; decide
  have e2 : to_int (l.length + 2) = -2147483647 := by rw [hlen]; decide
  have e3 : to_size 2147483647 = l.length := by rw [hlen]; decide
  have h := rib_unit_instance fuel inst_num l g (by rw [e0, e3]; omega)
  rw [e0, e1, e2, e3, modify_append_length_zero, modify_append_length_zero] at h
  exact h

/-! ### Degenerate grids (C5) -/

theorem wires_eq_run_list (self : ClockNetwork) (fuel : Nat) (grid : DeviceGrid)
    (ctx : SynthState) (hfuel : self.get_num_inst.toNat < fuel) :
    self.create_rr_nodes_for_clock_network_wires fuel grid ctx
      = run_list (fun i => self.create_rr_nodes_for_one_instance fuel grid i)
          ((List.range self.get_num_inst.toNat).map (fun k : Nat => (k : Int))) ctx := by
  unfold ClockNetwork.create_rr_nodes_for_clock_network_wires
  rw [for_loop_eq_run_list _ _ _ self.get_num_inst.toNat fuel 0 ctx hfuel]
  · congr 1
    apply List.map_congr_left
    intro k _
    exact iterate_succ_int k
  · intro k hk
    rw [iterate_succ_int]
    simp only [decide_eq_true_eq]
    omega
  · rw [iterate_succ_int]
    simp only [decide_eq_false_iff_not]
    omega

theorem run_list_skip {ι σ : Type} (body : ι → σ → Outcome σ) (l : List ι) (s : σ)
    (h : ∀ i ∈ l, body i s = Outcome.ok s) : run_list body l s = Outcome.ok s := by
  induction l with
  | nil => rfl
  | cons i rest ih =>
    simp only [run_list]
    rw [h i (List.mem_cons_self _ _)]
    exact ih (fun j hj => h j (List.mem_cons_of_mem _ hj))

theorem for_loop_skip {ι σ : Type} (cond : ι → Bool) (step : ι → ι)
    (body : ι → σ → Outcome σ) (fuel : Nat) (i : ι) (s : σ) (h : cond i = false) :
    for_loop cond step body (fuel + 1) i s = Outcome.ok s := by
  simp [for_loop, h]

/-- A rib instance whose first loop test fails, in either loop, completes without a tile:
no column (`span.end`, as unsigned, is not below `grid.width() - 1`), or no row while the
outer loop is a terminating one. -/
theorem rib_instance_no_tile (fuel : Nat) (self : ClockRib) (grid : DeviceGrid)
    (inst_num : Int) (ctx : SynthState) (hfuel : 0 < fuel)
    (h : size_sub grid.width 1 ≤ to_unsigned self.x_chan_wire.end_ ∨
      (size_sub grid.height 1 ≤ to_unsigned self.x_chan_wire.position ∧
        0 < self.repeat_.x ∧ self.repeat_.x < 2147483648 ∧
        size_sub grid.width 1 ≤ 2147483648 ∧ size_sub grid.width 1 < fuel)) :
    self.create_rr_nodes_for_one_instance fuel grid inst_num ctx = Outcome.ok ctx := by
  obtain ⟨f, rfl⟩ : ∃ f, fuel = f + 1 := ⟨fuel - 1, by omega⟩
  rcases h with h | ⟨hy, hrx0, hrx1, hW, hfW⟩
  · unfold ClockRib.create_rr_nodes_for_one_instance
    exact for_loop_skip _ _ _ f _ ctx (by simp only [decide_eq_false_iff_not]; omega)
  · have hN := steps_below_le (to_unsigned self.x_chan_wire.end_) self.repeat_.x.toNat
      (size_sub grid.width 1) (by omega)
    unfold ClockRib.create_rr_nodes_for_one_instance
    simp only []
    rw [for_loop_unsigned_pair _ (self.x_chan_wire.start + 1)
      (to_unsigned self.x_chan_wire.end_) self.repeat_.x (size_sub grid.width 1) (f + 1) ctx
      hrx0 hrx1 hW (by omega)]
    apply run_list_skip
    intro xs _
    exact for_loop_skip _ _ _ f _ ctx (by simp only [decide_eq_false_iff_not]; omega)

/-- C5 (amended): for a rib network with 32-bit `int` fields and a positive `repeat.x`, any
`repeat.y` and `num_inst`, on a grid with `1 <= W <= 2^31` and `1 <= H <= 2^31`,
`create_rr_nodes_for_clock_network_wires` completes without an error and leaves the node list
(and the registry) unchanged when `W = 1`, or `H = 1`, or `W = 2` with `span.end` other than 0,
or `H = 2` with `position` other than 0; the budget only has to exceed `W` and `num_inst`. -/
theorem ClockRib.degenerate_grid_no_nodes (self : ClockRib) (grid : DeviceGrid)
    (ctx : SynthState) (fuel : Nat) (hty : self.int_fields)
    (hrx : 0 < self.repeat_.x)
    (hW0 : 1 ≤ grid.width) (hW1 : grid.width ≤ 2147483648)
    (hH0 : 1 ≤ grid.height) (hH1 : grid.height ≤ 2147483648)
    (hdeg : grid.width = 1 ∨ grid.height = 1 ∨
      (grid.width = 2 ∧ self.x_chan_wire.end_ ≠ 0) ∨
      (grid.height = 2 ∧ self.x_chan_wire.position ≠ 0))
    (hfW : grid.width ≤ fuel) (hfN : self.num_inst_.toNat < fuel) :
    (ClockNetwork.Rib self).create_rr_nodes_for_clock_network_wires fuel grid ctx
      = Outcome.ok ctx := by
  obtain ⟨_, ⟨he0, he1⟩, ⟨hp0, hp1⟩, ⟨_, hrx1⟩, _⟩ := hty
  have hsW := size_sub_one grid.width hW0 hW1
  have hsH := size_sub_one grid.height hH0 hH1
  have hue : self.x_chan_wire.end_ ≠ 0 → 1 ≤ to_unsigned self.x_chan_wire.end_ := by
    intro hne
    unfold to_unsigned
    omega
  have hup : self.x_chan_wire.position ≠ 0 → 1 ≤ to_unsigned self.x_chan_wire.position := by
    intro hne
    unfold to_unsigned
    omega
  rw [wires_eq_run_list (ClockNetwork.Rib self) fuel grid ctx hfN]
  apply run_list_skip
  intro i _
  apply rib_instance_no_tile fuel self grid i ctx (by omega)
  rcases hdeg with h | h | ⟨h, hne⟩ | ⟨h, hne⟩
  · left; omega
  · right; exact ⟨by omega, hrx, hrx1, by omega, by omega⟩
  · left; have := hue hne; omega
  · right; have := hup hne; exact ⟨by omega, hrx, hrx1, by omega, by omega⟩

/-- Witness of C5: `rib_example` (`span.end = 3`) on a grid of width 2 and height 5. -/
theorem ClockRib.degenerate_grid_no_nodes_witness :
    (ClockNetwork.Rib rib_example).create_rr_nodes_for_clock_network_wires 3 ⟨2, 5⟩
        ⟨[], ⟨[]⟩⟩ = Outcome.ok ⟨[], ⟨[]⟩⟩ :=
  ClockRib.degenerate_grid_no_nodes rib_example ⟨2, 5⟩ ⟨[], ⟨[]⟩⟩ 3 (by decide) (by decide)
    (by decide) (by decide) (by decide) (by decide)
    (Or.inr (Or.inr (Or.inl ⟨rfl, by decide⟩))) (by decide) (by decide)

theorem rib_instance_not_ok_of_wide (fuel : Nat) (self : ClockRib) (grid : DeviceGrid)
    (inst_num : Int) (ctx : SynthState) (hW : 4294967296 ≤ size_sub grid.width 1) :
    (self.create_rr_nodes_for_one_instance fuel grid inst_num ctx).isOk = false := by
  unfold ClockRib.create_rr_nodes_for_one_instance
  exact for_loop_not_ok _ _ _ (fun xs : Nat × Nat => xs.2 < 4294967296)
    (fun xs hxs => ⟨by simp only [decide_eq_true_eq]; omega,
      by dsimp only; exact to_unsigned_lt _⟩)
    fuel _ ctx (by dsimp only; exact to_unsigned_lt _)

/-- C5 fails as stated.  On the grid `W = 2`, `H = 3` a rib network with `span.end = 0` and
`position = 0` passes the test `x_end < grid.width() - 1` once, and the call completes with six
nodes appended (the tiles of rows 0 and 1).  On the grid `W = 0`, `H = 1` the bound
`grid.width() - 1` wraps to `2^64 - 1` and the call never completes. -/
theorem ClockRib.narrow_grid_appends_nodes :
    (((ClockNetwork.Rib rib_unit).create_rr_nodes_for_clock_network_wires 4 ⟨2, 3⟩
        ⟨[], ⟨[]⟩⟩).isOk = true ∧
     ((ClockNetwork.Rib rib_unit).create_rr_nodes_for_clock_network_wires 4 ⟨2, 3⟩
        ⟨[], ⟨[]⟩⟩).state.rr_nodes.length = 6) ∧
    ¬ ∃ (fuel : Nat) (out : SynthState),
      (ClockNetwork.Rib rib_unit).create_rr_nodes_for_clock_network_wires fuel ⟨0, 1⟩
        ⟨[], ⟨[]⟩⟩ = Outcome.ok out := by
  refine ⟨by decide, ?_⟩
  rintro ⟨fuel, out, h⟩
  cases fuel with
  | zero => simp [ClockNetwork.create_rr_nodes_for_clock_network_wires, for_loop] at h
  | succ f =>
    have hno := rib_instance_not_ok_of_wide (f + 1) rib_unit ⟨0, 1⟩ 0 ⟨[], ⟨[]⟩⟩ (by decide)
    have hc : decide ((0 : Int) < (ClockNetwork.Rib rib_unit).get_num_inst) = true := by decide
    simp only [ClockNetwork.create_rr_nodes_for_clock_network_wires, for_loop, hc, if_true,
      ClockNetwork.create_rr_nodes_for_one_instance] at h
    cases hb : rib_unit.create_rr_nodes_for_one_instance (f + 1) ⟨0, 1⟩ 0 ⟨[], ⟨[]⟩⟩ with
    | ok s1 => rw [hb] at hno; simp [Outcome.isOk] at hno
    | error e s1 => rw [hb] at h; simp at h
    | timeout s1 => rw [hb] at h; simp at h
    | undefined s1 => rw [hb] at h; simp at h

/-! ### Frame properties: index permanence (C6) -/

theorem map_strip_edges_modify (a b : Int) :
    ∀ (l : List t_rr_node) (i : Nat),
      (l.modify (t_rr_node.add_edge a b) i).map t_rr_node.strip_edges
        = l.map t_rr_node.strip_edges := by
  intro l
  induction l with
  | nil => intro i; cases i <;> rfl
  | cons x xs ih =>
    intro i
    cases i with
    | zero => rfl
    | succ i =>
      simp only [List.modify_succ_cons, List.map_cons, ih i]

/-- Whatever its outcome and whatever the node list it starts from, one run of the tile body
appends three nodes, which are the drive node and the two half-wires up to their edges, and
changes no earlier node except for its edges. -/
theorem tile_body_nodes (fuel : Nat) (self : ClockRib) (ptc_num : Int) (x_start x_end y : Nat)
    (ctx : SynthState) :
    (self.tile_body fuel ptc_num x_start x_end y ctx).state.rr_nodes.map t_rr_node.strip_edges
      = ctx.rr_nodes.map t_rr_node.strip_edges
          ++ (rib_tile_nodes self ptc_num ctx.rr_nodes.length (x_start, x_end, y)).map
              t_rr_node.strip_edges := by
  unfold ClockRib.tile_body
  simp only [create_chanx_wire_eq]
  cases hrec : self.record_tap_locations fuel x_start x_end y
      (to_int (ctx.rr_nodes ++ [chan_node t_rr_type.CHANX
        (to_int (to_unsigned ((x_start : Int) + self.drive.offset))) (to_int y)
        (to_int (to_unsigned ((x_start : Int) + self.drive.offset))) (to_int y) ptc_num]).length)
      (to_int ((ctx.rr_nodes ++ [chan_node t_rr_type.CHANX
        (to_int (to_unsigned ((x_start : Int) + self.drive.offset))) (to_int y)
        (to_int (to_unsigned ((x_start : Int) + self.drive.offset))) (to_int y) ptc_num])
        ++ [chan_node t_rr_type.CHANX (to_int x_start) (to_int y)
          (to_int (to_unsigned ((x_start : Int) + self.drive.offset))) (to_int y)
          ptc_num]).length)
      (ctx.clock_graph.add_switch_location self.clock_name_ "drive"
        (to_int (to_unsigned ((x_start : Int) + self.drive.offset))) (to_int y)
        (to_int ctx.rr_nodes.length)) with
  | ok g =>
    simp only []
    split
    · simp [Outcome.state, map_strip_edges_modify, rib_tile_nodes, rib_drive_node,
        rib_left_node, rib_right_node, chan_node, t_rr_node.strip_edges]
    · simp [Outcome.state, rib_tile_nodes, rib_drive_node, rib_left_node, rib_right_node,
        chan_node, t_rr_node.strip_edges]
  | error e g =>
    simp [Outcome.state, rib_tile_nodes, rib_drive_node, rib_left_node, rib_right_node,
      chan_node, t_rr_node.strip_edges]
  | timeout g =>
    simp [Outcome.state, rib_tile_nodes, rib_drive_node, rib_left_node, rib_right_node,
      chan_node, t_rr_node.strip_edges]
  | undefined g =>
    simp [Outcome.state, rib_tile_nodes, rib_drive_node, rib_left_node, rib_right_node,
      chan_node, t_rr_node.strip_edges]

theorem tile_body_length (fuel : Nat) (self : ClockRib) (ptc_num : Int) (x_start x_end y : Nat)
    (ctx : SynthState) :
    (self.tile_body fuel ptc_num x_start x_end y ctx).state.rr_nodes.length
      = ctx.rr_nodes.length + 3 := by
  have h := congrArg List.length (tile_body_nodes fuel self ptc_num x_start x_end y ctx)
  simpa [rib_tile_nodes] using h

/-- Whatever its outcome and whatever the node list it starts from, one run of the tile body
appends to the registry the drive entry, with the narrowed index of the drive node, followed by
tap entries that point to the narrowed indices of the two half-wires. -/
theorem tile_body_registry (fuel : Nat) (self : ClockRib) (ptc_num : Int)
    (x_start x_end y : Nat) (ctx : SynthState) :
    ∃ es : List SwitchLocation,
      (self.tile_body fuel ptc_num x_start x_end y ctx).state.clock_graph.switch_locations
        = ctx.clock_graph.switch_locations
            ++ { rib_drive_entry self ctx.rr_nodes.length x_start y with
                 node_index := to_int ctx.rr_nodes.length } :: es ∧
      ∀ e ∈ es, tap_entry_ok self x_start x_end y (to_int (ctx.rr_nodes.length + 1))
        (to_int (ctx.rr_nodes.length + 2)) e := by
  obtain ⟨es, hes, hq⟩ := record_tap_locations_extends fuel self x_start x_end y
    (to_int (ctx.rr_nodes.length + 1)) (to_int (ctx.rr_nodes.length + 2))
    (ctx.clock_graph.add_switch_location self.clock_name_ "drive"
      (to_int (to_unsigned ((x_start : Int) + self.drive.offset))) (to_int y)
      (to_int ctx.rr_nodes.length))
  refine ⟨es, ?_, hq⟩
  unfold ClockRib.tile_body
  simp only [create_chanx_wire_eq, List.length_append, List.length_singleton]
  cases hrec : self.record_tap_locations fuel x_start x_end y
      (to_int (ctx.rr_nodes.length + 1)) (to_int (ctx.rr_nodes.length + 1 + 1))
      (ctx.clock_graph.add_switch_location self.clock_name_ "drive"
        (to_int (to_unsigned ((x_start : Int) + self.drive.offset))) (to_int y)
        (to_int ctx.rr_nodes.length)) with
  | ok g =>
    rw [hrec] at hes
    simp only []
    split
    · simpa [Outcome.state, ClockRRGraph.add_switch_location, rib_drive_entry] using hes
    · simpa [Outcome.state, ClockRRGraph.add_switch_location, rib_drive_entry] using hes
  | error e g =>
    rw [hrec] at hes
    simpa [Outcome.state, ClockRRGraph.add_switch_location, rib_drive_entry] using hes
  | timeout g =>
    rw [hrec] at hes
    simpa [Outcome.state, ClockRRGraph.add_switch_location, rib_drive_entry] using hes
  | undefined g =>
    rw [hrec] at hes
    simpa [Outcome.state, ClockRRGraph.add_switch_location, rib_drive_entry] using hes

/-- What one run of the tile body leaves behind, whatever its outcome, while the node list
stays within `2^31` nodes: three nodes appended (the drive node, with its two edges when the run
completed and without them otherwise, then the two half-wires), and the drive entry followed by
tap entries appended to the registry. -/
theorem tile_body_state (fuel : Nat) (self : ClockRib) (ptc_num : Int) (x_start x_end y : Nat)
    (ctx : SynthState) (hn : ctx.rr_nodes.length + 3 ≤ 2147483648) :
    ∃ (d : t_rr_node) (es : List SwitchLocation),
      (self.tile_body fuel ptc_num x_start x_end y ctx).state.rr_nodes
        = ctx.rr_nodes ++ [d, rib_left_node self ptc_num (x_start, x_end, y),
            rib_right_node self ptc_num (x_start, x_end, y)] ∧
      (d = rib_drive_node self ptc_num ctx.rr_nodes.length (x_start, x_end, y)
        ∨ d = { rib_drive_node self ptc_num ctx.rr_nodes.length (x_start, x_end, y) with
                edges := [] }) ∧
      ((self.tile_body fuel ptc_num x_start x_end y ctx).isOk = true →
        d = rib_drive_node self ptc_num ctx.rr_nodes.length (x_start, x_end, y)) ∧
      (self.tile_body fuel ptc_num x_start x_end y ctx).state.clock_graph.switch_locations
        = ctx.clock_graph.switch_locations
            ++ rib_drive_entry self ctx.rr_nodes.length x_start y :: es ∧
      ∀ e ∈ es, tap_entry_ok self x_start x_end y ((ctx.rr_nodes.length + 1 : Nat) : Int)
        ((ctx.rr_nodes.length + 2 : Nat) : Int) e := by
  have h0 : to_int ctx.rr_nodes.length = (ctx.rr_nodes.length : Int) :=
    to_int_of_lt _ (by omega)
  have h1 : to_int (ctx.rr_nodes.length + 1) = ((ctx.rr_nodes.length + 1 : Nat) : Int) :=
    to_int_of_lt _ (by omega)
  have h2 : to_int (ctx.rr_nodes.length + 1 + 1) = ((ctx.rr_nodes.length + 1 + 1 : Nat) : Int) :=
    to_int_of_lt _ (by omega)
  have hs : to_size (ctx.rr_nodes.length : Int) = ctx.rr_nodes.length :=
    to_size_natCast _ (by omega)
  have hlt : ctx.rr_nodes.length < ctx.rr_nodes.length + 1 + 1 + 1 := by omega
  obtain ⟨es, hes, hq⟩ := record_tap_locations_extends fuel self x_start x_end y
    ((ctx.rr_nodes.length + 1 : Nat) : Int) ((ctx.rr_nodes.length + 2 : Nat) : Int)
    (ctx.clock_graph.add_switch_location self.clock_name_ "drive"
      (to_int (to_unsigned ((x_start : Int) + self.drive.offset))) (to_int y)
      (ctx.rr_nodes.length : Int))
  unfold ClockRib.tile_body
  simp only [create_chanx_wire_eq, List.length_append, List.length_singleton, h0, h1, h2, hs,
    hlt, if_true]
  cases hrec : self.record_tap_locations fuel x_start x_end y
      ((ctx.rr_nodes.length + 1 : Nat) : Int) ((ctx.rr_nodes.length + 1 + 1 : Nat) : Int)
      (ctx.clock_graph.add_switch_location self.clock_name_ "drive"
        (to_int (to_unsigned ((x_start : Int) + self.drive.offset))) (to_int y)
        (ctx.rr_nodes.length : Int)) with
  | ok g =>
    rw [hrec] at hes
    refine ⟨rib_drive_node self ptc_num ctx.rr_nodes.length (x_start, x_end, y), es, ?_,
      Or.inl rfl, fun _ => rfl, ?_, hq⟩
    · simp [Outcome.state, rib_drive_node, rib_left_node, rib_right_node,
        modify_append_length_zero, t_rr_node.add_edge, chan_node, add_assoc]
    · simpa [Outcome.state, ClockRRGraph.add_switch_location, rib_drive_entry] using hes
  | error e g =>
    rw [hrec] at hes
    refine ⟨{ rib_drive_node self ptc_num ctx.rr_nodes.length (x_start, x_end, y) with
      edges := [] }, es, ?_, Or.inr rfl, fun h => by simp [Outcome.isOk] at h, ?_, hq⟩
    · simp [Outcome.state, rib_drive_node, rib_left_node, rib_right_node, chan_node]
    · simpa [Outcome.state, ClockRRGraph.add_switch_location, rib_drive_entry] using hes
  | timeout g =>
    rw [hrec] at hes
    refine ⟨{ rib_drive_node self ptc_num ctx.rr_nodes.length (x_start, x_end, y) with
      edges := [] }, es, ?_, Or.inr rfl, fun h => by simp [Outcome.isOk] at h, ?_, hq⟩
    · simp [Outcome.state, rib_drive_node, rib_left_node, rib_right_node, chan_node]
    · simpa [Outcome.state, ClockRRGraph.add_switch_location, rib_drive_entry] using hes
  | undefined g =>
    rw [hrec] at hes
    refine ⟨{ rib_drive_node self ptc_num ctx.rr_nodes.length (x_start, x_end, y) with
      edges := [] }, es, ?_, Or.inr rfl, fun h => by simp [Outcome.isOk] at h, ?_, hq⟩
    · simp [Outcome.state, rib_drive_node, rib_left_node, rib_right_node, chan_node]
    · simpa [Outcome.state, ClockRRGraph.add_switch_location, rib_drive_entry] using hes

theorem create_chany_wire_eq (y_start y_end x ptc_num : Int) (l : List t_rr_node) :
    ClockSpine.create_chany_wire y_start y_end x ptc_num l =
      (to_int l.length, l ++ [chan_node t_rr_type.CHANY x y_start x y_end ptc_num]) := by
  simp only [ClockSpine.create_chany_wire, List.length_append, List.length_singleton,
    Nat.add_sub_cancel, modify_append_length_zero]
  rfl

theorem whileFit_refl {R : SynthState → SynthState → Prop} (hrefl : ∀ s, R s s)
    (s : SynthState) : WhileFit R s s :=
  ⟨le_refl _, fun _ => hrefl s⟩

theorem whileFit_trans {R : SynthState → SynthState → Prop}
    (htrans : ∀ a b c, R a b → R b c → R a c) (a b c : SynthState)
    (h1 : WhileFit R a b) (h2 : WhileFit R b c) : WhileFit R a c :=
  ⟨le_trans h1.1 h2.1, fun h => htrans _ _ _ (h1.2 (le_trans h2.1 h)) (h2.2 h)⟩

theorem whileFit_mono {R R2 : SynthState → SynthState → Prop} {s t : SynthState}
    (h : WhileFit R s t) (hR : R s t → R2 s t) : WhileFit R2 s t :=
  ⟨h.1, fun hf => hR (h.2 hf)⟩

theorem extendsUpToEdges_refl (P : t_rr_node → Prop) (Q : SwitchLocation → Prop)
    (s : SynthState) : ExtendsUpToEdges P Q s s :=
  extends_refl P Q _

theorem extendsUpToEdges_trans {P : t_rr_node → Prop} {Q : SwitchLocation → Prop}
    {a b c : SynthState} (h1 : ExtendsUpToEdges P Q a b) (h2 : ExtendsUpToEdges P Q b c) :
    ExtendsUpToEdges P Q a c :=
  extends_trans h1 h2

theorem extendsUpToEdges_mono {P P2 : t_rr_node → Prop} {Q Q2 : SwitchLocation → Prop}
    {a b : SynthState} (h : ExtendsUpToEdges P Q a b) (hP : ∀ n, P n → P2 n)
    (hQ : ∀ e, Q e → Q2 e) : ExtendsUpToEdges P2 Q2 a b :=
  extends_mono h hP hQ

/-- An exact extension is an extension up to edges. -/
theorem extends_up_to_edges {P P2 : t_rr_node → Prop} {Q : SwitchLocation → Prop}
    {a b : SynthState} (h : Extends P Q a b) (hP : ∀ n, P n → P2 n.strip_edges) :
    ExtendsUpToEdges P2 Q a b := by
  obtain ⟨ns, es, hn, he, hp, hq⟩ := h
  refine ⟨ns.map t_rr_node.strip_edges, es, ?_, he, ?_, hq⟩
  · simp only [SynthState.strip_edges, hn, List.map_append]
  · intro n hm
    obtain ⟨m, hm1, rfl⟩ := List.mem_map.1 hm
    exact hP m (hp m hm1)

theorem rib_tile_extends (fuel : Nat) (self : ClockRib) (ptc_num : Int) (x_start x_end y : Nat)
    (ctx : SynthState) (hn : ctx.rr_nodes.length + 3 ≤ 2147483648) :
    Extends (rib_node_ok ptc_num) (fun e => e.clock_name = self.clock_name_) ctx
      (self.tile_body fuel ptc_num x_start x_end y ctx).state := by
  obtain ⟨d, es, hn, hd, _, he, hq⟩ := tile_body_state fuel self ptc_num x_start x_end y ctx hn
  refine ⟨_, _, hn, he, ?_, ?_⟩
  · intro n hn
    simp only [List.mem_cons, List.mem_singleton, List.not_mem_nil, or_false] at hn
    rcases hn with rfl | rfl | rfl
    · rcases hd with rfl | rfl <;> exact ⟨rfl, rfl, rfl⟩
    · exact ⟨rfl, rfl, rfl⟩
    · exact ⟨rfl, rfl, rfl⟩
  · intro e he
    rcases List.mem_cons.1 he with rfl | h
    · rfl
    · exact (hq e h).1

/-- The tile body of a rib extends the state as long as the node indices fit `int`. -/
theorem rib_tile_fit (fuel : Nat) (self : ClockRib) (ptc_num : Int) (x_start x_end y : Nat)
    (ctx : SynthState) :
    WhileFit (Extends (rib_node_ok ptc_num) (fun e => e.clock_name = self.clock_name_)) ctx
      (self.tile_body fuel ptc_num x_start x_end y ctx).state := by
  refine ⟨by rw [tile_body_length]; omega, fun h => ?_⟩
  rw [tile_body_length] at h
  exact rib_tile_extends fuel self ptc_num x_start x_end y ctx h

/-- The tile body of a rib extends the state up to edges, whatever the node list. -/
theorem rib_tile_up_to_edges (fuel : Nat) (self : ClockRib) (ptc_num : Int)
    (x_start x_end y : Nat) (ctx : SynthState) :
    ExtendsUpToEdges (rib_node_ok ptc_num) (fun e => e.clock_name = self.clock_name_) ctx
      (self.tile_body fuel ptc_num x_start x_end y ctx).state := by
  obtain ⟨es, he, hq⟩ := tile_body_registry fuel self ptc_num x_start x_end y ctx
  refine ⟨_, _, tile_body_nodes fuel self ptc_num x_start x_end y ctx, he, ?_, ?_⟩
  · intro n hn
    simp only [rib_tile_nodes, List.map_cons, List.map_nil, List.mem_cons, List.mem_singleton,
      List.not_mem_nil, or_false] at hn
    rcases hn with rfl | rfl | rfl <;> exact ⟨rfl, rfl, rfl⟩
  · intro e he
    rcases List.mem_cons.1 he with rfl | h
    · rfl
    · exact (hq e h).1

/-- A reflexive and transitive relation that every tile establishes holds between the state
before a rib instance and the state it ends in, whatever the budget and the outcome. -/
theorem rib_instance_rel (R : SynthState → SynthState → Prop) (hrefl : ∀ s, R s s)
    (htrans : ∀ a b c, R a b → R b c → R a c) (fuel : Nat) (self : ClockRib)
    (grid : DeviceGrid) (inst_num : Int)
    (htile : ∀ (x_start x_end y : Nat) (s : SynthState),
      R s (self.tile_body fuel (inst_num + 50) x_start x_end y s).state)
    (ctx : SynthState) :
    R ctx (self.create_rr_nodes_for_one_instance fuel grid inst_num ctx).state := by
  unfold ClockRib.create_rr_nodes_for_one_instance
  refine for_loop_inv _ (fun _ => True) hrefl htrans _ _ _
    (fun _ _ _ => trivial) ?_ fuel _ ctx trivial
  intro xs s _ _
  refine for_loop_inv _ (fun _ => True) hrefl htrans _ _ _
    (fun _ _ _ => trivial) ?_ fuel _ s trivial
  intro y s1 _ _
  exact htile xs.1 xs.2 y s1

theorem rib_instance_extends (fuel : Nat) (self : ClockRib) (grid : DeviceGrid)
    (inst_num : Int) (ctx : SynthState) :
    WhileFit (Extends (rib_node_ok (inst_num + 50)) (fun e => e.clock_name = self.clock_name_))
      ctx (self.create_rr_nodes_for_one_instance fuel grid inst_num ctx).state :=
  rib_instance_rel _ (whileFit_refl (extends_refl _ _))
    (whileFit_trans (fun _ _ _ => extends_trans)) fuel self grid inst_num
    (fun x_start x_end y s => rib_tile_fit fuel self (inst_num + 50) x_start x_end y s) ctx

theorem rib_instance_up_to_edges (fuel : Nat) (self : ClockRib) (grid : DeviceGrid)
    (inst_num : Int) (ctx : SynthState) :
    ExtendsUpToEdges (rib_node_ok (inst_num + 50)) (fun e => e.clock_name = self.clock_name_)
      ctx (self.create_rr_nodes_for_one_instance fuel grid inst_num ctx).state :=
  rib_instance_rel _ (extendsUpToEdges_refl _ _) (fun _ _ _ => extendsUpToEdges_trans) fuel
    self grid inst_num
    (fun x_start x_end y s => rib_tile_up_to_edges fuel self (inst_num + 50) x_start x_end y s)
    ctx

theorem spine_tile_state (ptc_num : Int) (y_start y_end x : Nat) (ctx : SynthState) :
    ClockSpine.tile_body ptc_num y_start y_end x ctx
      = Outcome.ok
          ⟨ctx.rr_nodes ++ [chan_node t_rr_type.CHANY (to_int x) (to_int y_start) (to_int x)
              (to_int y_end) ptc_num], ctx.clock_graph⟩ := by
  simp only [ClockSpine.tile_body, create_chany_wire_eq,
    ClockSpine.record_switch_point_locations_for_rr_node]

theorem spine_tile_extends (ptc_num : Int) (y_start y_end x : Nat) (ctx : SynthState) :
    Extends (spine_node_ok ptc_num) (fun _ => False) ctx
      (ClockSpine.tile_body ptc_num y_start y_end x ctx).state := by
  rw [spine_tile_state]
  refine ⟨_, [], rfl, by simp [Outcome.state], ?_, by simp⟩
  intro n hn
  rw [List.mem_singleton] at hn
  subst hn
  exact ⟨rfl, rfl, rfl, rfl⟩

theorem spine_instance_extends (fuel : Nat) (self : ClockSpine) (grid : DeviceGrid)
    (inst_num : Int) (ctx : SynthState) :
    Extends (spine_node_ok inst_num) (fun _ => False) ctx
      (self.create_rr_nodes_for_one_instance fuel grid inst_num ctx).state := by
  unfold ClockSpine.create_rr_nodes_for_one_instance
  refine for_loop_inv _ (fun _ => True) (extends_refl _ _) (fun _ _ _ => extends_trans) _ _ _
    (fun _ _ _ => trivial) ?_ fuel _ ctx trivial
  intro ys s _ _
  refine for_loop_inv _ (fun _ => True) (extends_refl _ _) (fun _ _ _ => extends_trans) _ _ _
    (fun _ _ _ => trivial) ?_ fuel _ s trivial
  intro x s1 _ _
  exact spine_tile_extends inst_num ys.1 ys.2 x s1

/-- A reflexive and transitive relation that every instance `0 <= i < num_inst` establishes
holds between the state before `create_rr_nodes_for_clock_network_wires` and the state it ends
in, whatever the budget and the outcome. -/
theorem network_wires_rel (R : SynthState → SynthState → Prop) (hrefl : ∀ s, R s s)
    (htrans : ∀ a b c, R a b → R b c → R a c) (fuel : Nat) (self : ClockNetwork)
    (grid : DeviceGrid)
    (hinst : ∀ (i : Int) (s : SynthState), 0 ≤ i → i < self.get_num_inst →
      R s (self.create_rr_nodes_for_one_instance fuel grid i s).state)
    (ctx : SynthState) :
    R ctx (self.create_rr_nodes_for_clock_network_wires fuel grid ctx).state := by
  unfold ClockNetwork.create_rr_nodes_for_clock_network_wires
  refine for_loop_inv _ (fun i : Int => 0 ≤ i) hrefl htrans
    _ _ _ (fun i hi _ => by omega) ?_ fuel 0 ctx (le_refl 0)
  intro i s hi hc
  have hlt : i < self.get_num_inst := by simpa using hc
  exact hinst i s hi hlt

/-- One instance of any network extends the state up to edges by nodes that carry the track
id of the instance. -/
theorem network_instance_up_to_edges (fuel : Nat) (self : ClockNetwork) (grid : DeviceGrid)
    (inst_num : Int) (ctx : SynthState) :
    ExtendsUpToEdges (fun n => n.ptc_num = self.ptc_of inst_num) (fun _ => True) ctx
      (self.create_rr_nodes_for_one_instance fuel grid inst_num ctx).state := by
  cases self with
  | Rib r =>
    exact extendsUpToEdges_mono (rib_instance_up_to_edges fuel r grid inst_num ctx)
      (fun _ h => h.1) (fun _ _ => trivial)
  | Spine s =>
    exact extends_up_to_edges
      (extends_mono (spine_instance_extends fuel s grid inst_num ctx) (fun _ h => h)
        (fun _ _ => trivial)) (fun _ h => h.1)
  | HTree h => exact extendsUpToEdges_refl _ _ _

/-- One instance of any network extends the state exactly, provided the node indices fit
`int` at the end of the instance (a condition on rib networks only). -/
theorem network_instance_extends (fuel : Nat) (self : ClockNetwork) (grid : DeviceGrid)
    (inst_num : Int) (ctx : SynthState)
    (hfit : self.indices_fit
      (self.create_rr_nodes_for_one_instance fuel grid inst_num ctx).state.rr_nodes.length) :
    Extends (fun n => n.ptc_num = self.ptc_of inst_num) (fun _ => True) ctx
      (self.create_rr_nodes_for_one_instance fuel grid inst_num ctx).state := by
  cases self with
  | Rib r =>
    exact extends_mono ((rib_instance_extends fuel r grid inst_num ctx).2 hfit) (fun _ h => h.1)
      (fun _ _ => trivial)
  | Spine s =>
    exact extends_mono (spine_instance_extends fuel s grid inst_num ctx) (fun _ h => h.1)
      (fun _ _ => trivial)
  | HTree h => exact extends_refl _ _ _

theorem network_wires_up_to_edges (fuel : Nat) (self : ClockNetwork) (grid : DeviceGrid)
    (ctx : SynthState) :
    ExtendsUpToEdges
      (fun n => ∃ i : Int, 0 ≤ i ∧ i < self.get_num_inst ∧ n.ptc_num = self.ptc_of i)
      (fun _ => True) ctx
      (self.create_rr_nodes_for_clock_network_wires fuel grid ctx).state :=
  network_wires_rel _ (extendsUpToEdges_refl _ _) (fun _ _ _ => extendsUpToEdges_trans) fuel
    self grid
    (fun i s hi hlt => extendsUpToEdges_mono (network_instance_up_to_edges fuel self grid i s)
      (fun _ hn => ⟨i, hi, hlt, hn⟩) (fun _ _ => trivial))
    ctx

theorem network_wires_extends (fuel : Nat) (self : ClockNetwork) (grid : DeviceGrid)
    (ctx : SynthState)
    (hfit : self.indices_fit
      (self.create_rr_nodes_for_clock_network_wires fuel grid ctx).state.rr_nodes.length) :
    Extends (fun n => ∃ i : Int, 0 ≤ i ∧ i < self.get_num_inst ∧ n.ptc_num = self.ptc_of i)
      (fun _ => True) ctx
      (self.create_rr_nodes_for_clock_network_wires fuel grid ctx).state := by
  cases self with
  | Rib r =>
    refine (network_wires_rel (WhileFit (Extends
      (fun n => ∃ i : Int, 0 ≤ i ∧ i < r.num_inst_ ∧ n.ptc_num = i + 50) (fun _ => True)))
      (whileFit_refl (extends_refl _ _)) (whileFit_trans (fun _ _ _ => extends_trans)) fuel
      (ClockNetwork.Rib r) grid ?_ ctx).2 hfit
    intro i s hi hlt
    exact whileFit_mono (rib_instance_extends fuel r grid i s)
      (fun h => extends_mono h (fun n hn => ⟨i, hi, hlt, hn.1⟩) (fun _ _ => trivial))
  | Spine s =>
    exact network_wires_rel _ (extends_refl _ _) (fun _ _ _ => extends_trans) fuel
      (ClockNetwork.Spine s) grid
      (fun i st hi hlt => extends_mono (spine_instance_extends fuel s grid i st)
        (fun n hn => ⟨i, hi, hlt, hn.1⟩) (fun _ _ => trivial)) ctx
  | HTree h =>
    exact network_wires_rel _ (extends_refl _ _) (fun _ _ _ => extends_trans) fuel
      (ClockNetwork.HTree h) grid (fun i st _ _ => extends_refl _ _ _) ctx

theorem extends_getElem {P : t_rr_node → Prop} {Q : SwitchLocation → Prop} {s t : SynthState}
    (h : Extends P Q s t) :
    s.rr_nodes <+: t.rr_nodes ∧
    s.clock_graph.switch_locations <+: t.clock_graph.switch_locations ∧
    (∀ i, i < s.rr_nodes.length → t.rr_nodes[i]? = s.rr_nodes[i]?) ∧
    (∀ i, i < s.clock_graph.switch_locations.length →
      t.clock_graph.switch_locations[i]? = s.clock_graph.switch_locations[i]?) := by
  obtain ⟨ns, es, hn, he, _, _⟩ := h
  refine ⟨⟨ns, hn.symm⟩, ⟨es, he.symm⟩, ?_, ?_⟩
  · intro i hi
    rw [hn, List.getElem?_append_left hi]
  · intro i hi
    rw [he, List.getElem?_append_left hi]

/-- What permanence of the indices means for a state `t` reached from `s`: every node of `s`
is found in `t` at the same index with the same coordinates, kind, capacity and track id,
every registry entry of `s` is found in `t` at the same place, and, when `fit` holds, the nodes
of `s` are found in `t` with the same edges too. -/
theorem permanence_of_frames {P : t_rr_node → Prop} {Q : SwitchLocation → Prop}
    {s t : SynthState} (fit : Prop) (h1 : ExtendsUpToEdges P Q s t)
    (h2 : fit → Extends P Q s t) :
    (∀ i, i < s.rr_nodes.length →
      t.rr_nodes[i]?.map t_rr_node.strip_edges = s.rr_nodes[i]?.map t_rr_node.strip_edges) ∧
    s.clock_graph.switch_locations <+: t.clock_graph.switch_locations ∧
    (∀ i, i < s.clock_graph.switch_locations.length →
      t.clock_graph.switch_locations[i]? = s.clock_graph.switch_locations[i]?) ∧
    (fit → s.rr_nodes <+: t.rr_nodes ∧
      ∀ i, i < s.rr_nodes.length → t.rr_nodes[i]? = s.rr_nodes[i]?) := by
  obtain ⟨_, hreg, hnodes, hregi⟩ := extends_getElem h1
  refine ⟨?_, hreg, hregi, fun hf => ?_⟩
  · intro i hi
    have h := hnodes i (by simpa [SynthState.strip_edges] using hi)
    simpa [SynthState.strip_edges, List.getElem?_map] using h
  · obtain ⟨hp, _, hg, _⟩ := extends_getElem (h2 hf)
    exact ⟨hp, hg⟩

theorem rib_unit_wires_wrapped (fuel : Nat) (l : List t_rr_node) (g : ClockRRGraph)
    (hlen : l.length = 4294967296) :
    (ClockNetwork.Rib rib_unit).create_rr_nodes_for_clock_network_wires (fuel + 2) ⟨2, 2⟩ ⟨l, g⟩
      = Outcome.ok
          ⟨((l ++ [chan_node t_rr_type.CHANX 1 0 1 0 50, chan_node t_rr_type.CHANX 1 0 1 0 50,
                chan_node t_rr_type.CHANX 1 0 0 0 50]).modify
              (t_rr_node.add_edge 1 7) 0).modify (t_rr_node.add_edge 2 7) 0,
           ⟨g.switch_locations ++ [⟨"clk", "drive", 1, 0, 0⟩]⟩⟩ := by
  unfold ClockNetwork.create_rr_nodes_for_clock_network_wires
  rw [for_loop_once _ _ _ fuel _ _ (by decide) (by decide)]
  exact rib_unit_instance_wrapped fuel 0 l g hlen

theorem modify_zero_getElem? {α : Type} (f g : α → α) (l r : List α) (a : α)
    (h : l[0]? = some a) :
    (((l ++ r).modify f 0).modify g 0)[0]? = some (g (f a)) := by
  cases l with
  | nil => simp at h
  | cons x xs =>
    simp only [List.getElem?_cons_zero, Option.some.injEq] at h
    subst h
    simp

/-- C6 (amended; index permanence): whatever the network (rib, spine or H-tree), the grid, the
budget and the outcome, in the state `create_rr_nodes_for_clock_network_wires` ends in every
node that existed before the call is found at the same index with the same coordinates, kind,
capacity and track id, and the initial registry entries are a prefix of the registry, each at
its place with the same node index.  The edges of the earlier nodes are unchanged too, and the
initial node list is a prefix of the resulting one, provided the node indices fit `int`: for a
rib network the resulting node list holds at most `2^31` nodes; a spine or H-tree network needs
no condition.  The same holds for a single call of `create_rr_nodes_for_one_instance`.  Taking
the state left by a network A as the initial state of a network B, nothing created for A is
changed by B under that condition. -/
theorem ClockNetwork.index_permanence (self : ClockNetwork) (fuel : Nat) (grid : DeviceGrid)
    (ctx : SynthState) :
    ((∀ i, i < ctx.rr_nodes.length →
       (self.create_rr_nodes_for_clock_network_wires fuel grid ctx).state.rr_nodes[i]?.map
           t_rr_node.strip_edges
         = ctx.rr_nodes[i]?.map t_rr_node.strip_edges) ∧
     ctx.clock_graph.switch_locations <+:
       (self.create_rr_nodes_for_clock_network_wires fuel grid
          ctx).state.clock_graph.switch_locations ∧
     (∀ i, i < ctx.clock_graph.switch_locations.length →
       (self.create_rr_nodes_for_clock_network_wires fuel grid
          ctx).state.clock_graph.switch_locations[i]?
         = ctx.clock_graph.switch_locations[i]?) ∧
     (self.indices_fit
         (self.create_rr_nodes_for_clock_network_wires fuel grid ctx).state.rr_nodes.length →
       ctx.rr_nodes <+:
         (self.create_rr_nodes_for_clock_network_wires fuel grid ctx).state.rr_nodes ∧
       ∀ i, i < ctx.rr_nodes.length →
         (self.create_rr_nodes_for_clock_network_wires fuel grid ctx).state.rr_nodes[i]?
           = ctx.rr_nodes[i]?)) ∧
    ∀ inst_num : Int,
      (∀ i, i < ctx.rr_nodes.length →
        (self.create_rr_nodes_for_one_instance fuel grid inst_num ctx).state.rr_nodes[i]?.map
            t_rr_node.strip_edges
          = ctx.rr_nodes[i]?.map t_rr_node.strip_edges) ∧
      ctx.clock_graph.switch_locations <+:
        (self.create_rr_nodes_for_one_instance fuel grid inst_num
          ctx).state.clock_graph.switch_locations ∧
      (∀ i, i < ctx.clock_graph.switch_locations.length →
        (self.create_rr_nodes_for_one_instance fuel grid inst_num
          ctx).state.clock_graph.switch_locations[i]?
          = ctx.clock_graph.switch_locations[i]?) ∧
      (self.indices_fit
          (self.create_rr_nodes_for_one_instance fuel grid inst_num ctx).state.rr_nodes.length →
        ctx.rr_nodes <+:
          (self.create_rr_nodes_for_one_instance fuel grid inst_num ctx).state.rr_nodes ∧
        ∀ i, i < ctx.rr_nodes.length →
          (self.create_rr_nodes_for_one_instance fuel grid inst_num ctx).state.rr_nodes[i]?
            = ctx.rr_nodes[i]?) :=
  ⟨permanence_of_frames _ (network_wires_up_to_edges fuel self grid ctx)
      (network_wires_extends fuel self grid ctx),
    fun inst_num => permanence_of_frames _
      (network_instance_up_to_edges fuel self grid inst_num ctx)
      (network_instance_extends fuel self grid inst_num ctx)⟩

/-- Witness of C6: the two instances of `rib_example` on a grid of width 6 and height 2,
generated after the nodes and the registry entries of `rib_example_out`; the resulting node
list is far below `2^31` nodes and has the initial node list as a prefix. -/
theorem ClockNetwork.index_permanence_witness :
    (ClockNetwork.Rib rib_example).indices_fit
      ((ClockNetwork.Rib rib_example).create_rr_nodes_for_clock_network_wires 6 ⟨6, 2⟩
        rib_example_out).state.rr_nodes.length ∧
    rib_example_out.rr_nodes <+:
      ((ClockNetwork.Rib rib_example).create_rr_nodes_for_clock_network_wires 6 ⟨6, 2⟩
        rib_example_out).state.rr_nodes ∧
    ∀ i, i < rib_example_out.rr_nodes.length →
      ((ClockNetwork.Rib rib_example).create_rr_nodes_for_clock_network_wires 6 ⟨6, 2⟩
        rib_example_out).state.rr_nodes[i]? = rib_example_out.rr_nodes[i]? :=
  ⟨by decide,
    (ClockNetwork.index_permanence (ClockNetwork.Rib rib_example) 6 ⟨6, 2⟩
      rib_example_out).1.2.2.2 (by decide)⟩

/-- On a node list of `2^32` nodes that starts with a node without edges, `rib_unit` on a grid
of 2 by 2 completes and adds the two edges of its tile to that first node. -/
theorem rib_unit_wires_first_node (l : List t_rr_node) (hlen : l.length = 4294967296)
    (h0 : l[0]? = some t_rr_node.emplace) :
    ∃ out : SynthState,
      (ClockNetwork.Rib rib_unit).create_rr_nodes_for_clock_network_wires 2 ⟨2, 2⟩ ⟨l, ⟨[]⟩⟩
        = Outcome.ok out ∧
      l[0]? = some t_rr_node.emplace ∧
      out.rr_nodes[0]? = some { t_rr_node.emplace with edges := [(1, 7), (2, 7)] } ∧
      ¬ (l <+: out.rr_nodes) := by
  have h1 := modify_zero_getElem? (t_rr_node.add_edge 1 7) (t_rr_node.add_edge 2 7) l
    [chan_node t_rr_type.CHANX 1 0 1 0 50, chan_node t_rr_type.CHANX 1 0 1 0 50,
      chan_node t_rr_type.CHANX 1 0 0 0 50] t_rr_node.emplace h0
  refine ⟨_, rib_unit_wires_wrapped 0 l ⟨[]⟩ hlen, h0, h1, ?_⟩
  rintro ⟨r, hr⟩
  have h2 := h1
  dsimp only at hr
  rw [← hr, List.getElem?_append_left (by omega), h0] at h2
  exact absurd h2 (by decide)

/-- C6 fails as stated: on a node list of `2^32` nodes the rib network `rib_unit` (one
instance, one tile on a grid of 2 by 2) completes, and `create_chanx_wire` returns
`(int)2^32 = 0` for the drive node, so the two edges of the new tile are added to the node at
index 0, which existed before the call: its edge list changes from empty to
`[(1, 7), (2, 7)]`, and the initial node list is not a prefix of the result. -/
theorem ClockNetwork.index_permanence_wrapped_index :
    ∃ out : SynthState,
      (ClockNetwork.Rib rib_unit).create_rr_nodes_for_clock_network_wires 2 ⟨2, 2⟩
        ⟨List.replicate 4294967296 t_rr_node.emplace, ⟨[]⟩⟩ = Outcome.ok out ∧
      (List.replicate 4294967296 t_rr_node.emplace)[0]? = some t_rr_node.emplace ∧
      out.rr_nodes[0]? = some { t_rr_node.emplace with edges := [(1, 7), (2, 7)] } ∧
      ¬ (List.replicate 4294967296 t_rr_node.emplace <+: out.rr_nodes) :=
  rib_unit_wires_first_node (List.replicate 4294967296 t_rr_node.emplace)
    (List.length_replicate _ _) (by rw [List.getElem?_replicate, if_pos (by decide)])

/-! ### Track ids (C7) -/

theorem for_loop_inv_first {ι σ : Type} (R : σ → σ → Prop) (J : ι → Prop)
    (hrefl : ∀ s, R s s) (htrans : ∀ a b c, R a b → R b c → R a c)
    (cond : ι → Bool) (step : ι → ι) (body : ι → σ → Outcome σ)
    (hstep : ∀ i, J i → cond i = true → J (step i))
    (hbody : ∀ i s, J i → cond i = true → R s (body i s).state)
    (fuel : Nat) (i : ι) (s : σ) (hJ : J i) (hc : cond i = true) :
    R (body i s).state (for_loop cond step body (fuel + 1) i s).state := by
  simp only [for_loop, hc, if_true]
  cases hb : body i s with
  | ok s1 =>
    exact for_loop_inv R J hrefl htrans cond step body hstep hbody fuel (step i) s1
      (hstep i hJ hc)
  | error e s1 => exact hrefl _
  | timeout s1 => exact hrefl _
  | undefined s1 => exact hrefl _

/-- A completed loop has run its body on the successive values of the loop variable, as many
times as the test succeeded. -/
theorem for_loop_ok_run_list {ι σ : Type} (cond : ι → Bool) (step : ι → ι)
    (body : ι → σ → Outcome σ) :
    ∀ (fuel : Nat) (i : ι) (s out : σ), for_loop cond step body fuel i s = Outcome.ok out →
      ∃ n, (∀ k, k < n → cond (step^[k] i) = true) ∧ cond (step^[n] i) = false ∧
        run_list body ((List.range n).map (fun k => step^[k] i)) s = Outcome.ok out := by
  intro fuel
  induction fuel with
  | zero => intro i s out h; simp [for_loop] at h
  | succ f ih =>
    intro i s out h
    by_cases hc : cond i = true
    · simp only [for_loop, hc, if_true] at h
      cases hb : body i s with
      | ok s1 =>
        rw [hb] at h
        obtain ⟨n, hgo, hstop, hrun⟩ := ih (step i) s1 out h
        refine ⟨n + 1, ?_, ?_, ?_⟩
        · intro k hk
          cases k with
          | zero => simpa using hc
          | succ k =>
            rw [Function.iterate_succ_apply]
            exact hgo k (by omega)
        · rw [Function.iterate_succ_apply]; exact hstop
        · rw [List.range_succ_eq_map, List.map_cons, List.map_map]
          simp only [run_list, Function.iterate_zero, id_eq, hb]
          rw [← hrun]
          rfl
      | error e s1 => rw [hb] at h; simp at h
      | timeout s1 => rw [hb] at h; simp at h
      | undefined s1 => rw [hb] at h; simp at h
    · have hc2 : cond i = false := by simpa using hc
      simp only [for_loop, hc2] at h
      refine ⟨0, fun k hk => absurd hk (Nat.not_lt_zero k), by simpa using hc2, ?_⟩
      simpa [run_list] using h

theorem rib_instance_first_tile (fuel : Nat) (self : ClockRib) (grid : DeviceGrid)
    (inst_num : Int) (ctx : SynthState)
    (hx : to_unsigned self.x_chan_wire.end_ < size_sub grid.width 1)
    (hy : to_unsigned self.x_chan_wire.position < size_sub grid.height 1) :
    ∃ (n : t_rr_node) (ns : List t_rr_node),
      (self.create_rr_nodes_for_one_instance (fuel + 1) grid inst_num
          ctx).state.rr_nodes.map t_rr_node.strip_edges
        = ctx.rr_nodes.map t_rr_node.strip_edges ++ n :: ns ∧ n.ptc_num = inst_num + 50 := by
  have htile := tile_body_nodes (fuel + 1) self (inst_num + 50)
    (to_unsigned (self.x_chan_wire.start + 1)) (to_unsigned self.x_chan_wire.end_)
    (to_unsigned self.x_chan_wire.position) ctx
  have hin := for_loop_inv_first
    (ExtendsUpToEdges (rib_node_ok (inst_num + 50)) (fun e => e.clock_name = self.clock_name_))
    (fun _ : Nat => True) (extendsUpToEdges_refl _ _) (fun _ _ _ => extendsUpToEdges_trans)
    (fun y : Nat => decide (y < size_sub grid.height 1))
    (fun y => to_unsigned ((y : Int) + self.repeat_.y))
    (fun y => self.tile_body (fuel + 1) (inst_num + 50)
      (to_unsigned (self.x_chan_wire.start + 1)) (to_unsigned self.x_chan_wire.end_) y)
    (fun _ _ _ => trivial)
    (fun y s _ _ => rib_tile_up_to_edges (fuel + 1) self (inst_num + 50) _ _ y s)
    fuel (to_unsigned self.x_chan_wire.position) ctx trivial (by simpa using hy)
  have hout := for_loop_inv_first
    (ExtendsUpToEdges (rib_node_ok (inst_num + 50)) (fun e => e.clock_name = self.clock_name_))
    (fun _ : Nat × Nat => True) (extendsUpToEdges_refl _ _)
    (fun _ _ _ => extendsUpToEdges_trans)
    (fun xs : Nat × Nat => decide (xs.2 < size_sub grid.width 1))
    (fun xs => (to_unsigned ((xs.1 : Int) + self.repeat_.x),
      to_unsigned ((xs.2 : Int) + self.repeat_.x)))
    (fun xs =>
      for_loop (fun y : Nat => decide (y < size_sub grid.height 1))
        (fun y => to_unsigned ((y : Int) + self.repeat_.y))
        (fun y => self.tile_body (fuel + 1) (inst_num + 50) xs.1 xs.2 y)
        (fuel + 1) (to_unsigned self.x_chan_wire.position))
    (fun _ _ _ => trivial)
    (fun xs s _ _ => for_loop_inv _ (fun _ => True) (extendsUpToEdges_refl _ _)
      (fun _ _ _ => extendsUpToEdges_trans) _ _ _ (fun _ _ _ => trivial)
      (fun y s1 _ _ => rib_tile_up_to_edges (fuel + 1) self (inst_num + 50) xs.1 xs.2 y s1)
      (fuel + 1) _ s trivial)
    fuel (to_unsigned (self.x_chan_wire.start + 1), to_unsigned self.x_chan_wire.end_) ctx
    trivial (by simpa using hx)
  obtain ⟨n1, e1, h1, _, _, _⟩ := hin
  obtain ⟨n2, e2, h2, _, _, _⟩ := hout
  simp only [SynthState.strip_edges] at h1 h2
  refine ⟨(rib_drive_node self (inst_num + 50) ctx.rr_nodes.length
      (to_unsigned (self.x_chan_wire.start + 1), to_unsigned self.x_chan_wire.end_,
        to_unsigned self.x_chan_wire.position)).strip_edges,
    (rib_left_node self (inst_num + 50)
      (to_unsigned (self.x_chan_wire.start + 1), to_unsigned self.x_chan_wire.end_,
        to_unsigned self.x_chan_wire.position)).strip_edges ::
    (rib_right_node self (inst_num + 50)
      (to_unsigned (self.x_chan_wire.start + 1), to_unsigned self.x_chan_wire.end_,
        to_unsigned self.x_chan_wire.position)).strip_edges :: (n1 ++ n2), ?_, rfl⟩
  unfold ClockRib.create_rr_nodes_for_one_instance
  simp only [] at h2 ⊢
  rw [h2, h1, htile]
  simp [rib_tile_nodes]

theorem spine_instance_first_tile (fuel : Nat) (self : ClockSpine) (grid : DeviceGrid)
    (inst_num : Int) (ctx : SynthState)
    (hy : to_unsigned self.y_chan_wire.end_ < grid.height % 18446744073709551616)
    (hx : to_unsigned self.y_chan_wire.position < grid.width % 18446744073709551616) :
    ∃ (n : t_rr_node) (ns : List t_rr_node),
      (self.create_rr_nodes_for_one_instance (fuel + 1) grid inst_num ctx).state.rr_nodes
        = ctx.rr_nodes ++ n :: ns ∧ n.ptc_num = inst_num := by
  have hin := for_loop_inv_first
    (Extends (spine_node_ok inst_num) (fun _ => False))
    (fun _ : Nat => True) (extends_refl _ _) (fun _ _ _ => extends_trans)
    (fun x : Nat => decide (x < grid.width % 18446744073709551616))
    (fun x => to_unsigned ((x : Int) + self.repeat_.x))
    (fun x => ClockSpine.tile_body inst_num (to_unsigned self.y_chan_wire.start)
      (to_unsigned self.y_chan_wire.end_) x)
    (fun _ _ _ => trivial)
    (fun x s _ _ => spine_tile_extends inst_num _ _ x s)
    fuel (to_unsigned self.y_chan_wire.position) ctx trivial (by simpa using hx)
  have hout := for_loop_inv_first
    (Extends (spine_node_ok inst_num) (fun _ => False))
    (fun _ : Nat × Nat => True) (extends_refl _ _) (fun _ _ _ => extends_trans)
    (fun ys : Nat × Nat => decide (ys.2 < grid.height % 18446744073709551616))
    (fun ys => (to_unsigned ((ys.1 : Int) + self.repeat_.y),
      to_unsigned ((ys.2 : Int) + self.repeat_.y)))
    (fun ys =>
      for_loop (fun x : Nat => decide (x < grid.width % 18446744073709551616))
        (fun x => to_unsigned ((x : Int) + self.repeat_.x))
        (fun x => ClockSpine.tile_body inst_num ys.1 ys.2 x)
        (fuel + 1) (to_unsigned self.y_chan_wire.position))
    (fun _ _ _ => trivial)
    (fun ys s _ _ => for_loop_inv _ (fun _ => True) (extends_refl _ _)
      (fun _ _ _ => extends_trans) _ _ _ (fun _ _ _ => trivial)
      (fun x s1 _ _ => spine_tile_extends inst_num ys.1 ys.2 x s1)
      (fuel + 1) _ s trivial)
    fuel (to_unsigned self.y_chan_wire.start, to_unsigned self.y_chan_wire.end_) ctx
    trivial (by simpa using hy)
  obtain ⟨n1, e1, h1, _, _, _⟩ := hin
  obtain ⟨n2, e2, h2, _, _, _⟩ := hout
  dsimp only at h1 h2
  rw [spine_tile_state] at h1
  refine ⟨chan_node t_rr_type.CHANY (to_int (to_unsigned self.y_chan_wire.position))
    (to_int (to_unsigned self.y_chan_wire.start)) (to_int (to_unsigned self.y_chan_wire.position))
    (to_int (to_unsigned self.y_chan_wire.end_)) inst_num, n1 ++ n2, ?_, ?_⟩
  · unfold ClockSpine.create_rr_nodes_for_one_instance
    dsimp only
    rw [h2, h1]
    simp [Outcome.state]
  · rfl

theorem network_instance_first_tile (fuel : Nat) (self : ClockNetwork) (grid : DeviceGrid)
    (inst_num : Int) (ctx : SynthState) (hfit : self.first_tile_fits grid) :
    ∃ (n : t_rr_node) (ns : List t_rr_node),
      (self.create_rr_nodes_for_one_instance (fuel + 1) grid inst_num
          ctx).state.rr_nodes.map t_rr_node.strip_edges
        = ctx.rr_nodes.map t_rr_node.strip_edges ++ n :: ns ∧
      n.ptc_num = self.ptc_of inst_num := by
  cases self with
  | Rib r => exact rib_instance_first_tile fuel r grid inst_num ctx hfit.1 hfit.2
  | Spine s =>
    obtain ⟨n, ns, hn, hp⟩ := spine_instance_first_tile fuel s grid inst_num ctx hfit.1 hfit.2
    refine ⟨n.strip_edges, ns.map t_rr_node.strip_edges, ?_, hp⟩
    simp only [ClockNetwork.create_rr_nodes_for_one_instance, hn, List.map_append,
      List.map_cons]
  | HTree h => exact absurd hfit (by simp [ClockNetwork.first_tile_fits])

theorem run_list_instances_cover (fuel : Nat) (self : ClockNetwork) (grid : DeviceGrid)
    (hfit : self.first_tile_fits grid) :
    ∀ (l : List Int) (ctx out : SynthState),
      run_list (fun i => self.create_rr_nodes_for_one_instance (fuel + 1) grid i) l ctx
        = Outcome.ok out →
      ∃ ns, out.rr_nodes.map t_rr_node.strip_edges
          = ctx.rr_nodes.map t_rr_node.strip_edges ++ ns ∧
        ∀ i ∈ l, ∃ n ∈ ns, n.ptc_num = self.ptc_of i := by
  intro l
  induction l with
  | nil =>
    intro ctx out h
    simp only [run_list, Outcome.ok.injEq] at h
    exact ⟨[], by simp [h], by simp⟩
  | cons i rest ih =>
    intro ctx out h
    simp only [run_list] at h
    obtain ⟨n, ns, hn, hp⟩ := network_instance_first_tile fuel self grid i ctx hfit
    cases hb : self.create_rr_nodes_for_one_instance (fuel + 1) grid i ctx with
    | ok s1 =>
      rw [hb] at h hn
      obtain ⟨ns2, hout, hcov⟩ := ih s1 out h
      simp only [Outcome.state] at hn
      refine ⟨n :: ns ++ ns2, by rw [hout, hn]; simp, ?_⟩
      intro j hj
      rcases List.mem_cons.1 hj with rfl | hj
      · exact ⟨n, by simp, hp⟩
      · obtain ⟨m, hm, hmp⟩ := hcov j hj
        exact ⟨m, by simp [hm], hmp⟩
    | error e s1 => rw [hb] at h; simp at h
    | timeout s1 => rw [hb] at h; simp at h
    | undefined s1 => rw [hb] at h; simp at h

/-- The appended nodes of a state `t` reached from `s` are the nodes of `t` from the index
`s.rr_nodes.length` on: up to edges `t` is `s` followed by them, exactly so when `fit` holds,
and each of them satisfies what the stripped appended nodes satisfy. -/
theorem appended_of_frames {P P2 : t_rr_node → Prop} {Q Q2 : SwitchLocation → Prop}
    {s t : SynthState} (fit : Prop) (h1 : ExtendsUpToEdges P Q s t)
    (h2 : fit → Extends P2 Q2 s t) (hP : ∀ n : t_rr_node, P n.strip_edges → P n) :
    t.rr_nodes.map t_rr_node.strip_edges
      = s.rr_nodes.map t_rr_node.strip_edges
          ++ (t.rr_nodes.drop s.rr_nodes.length).map t_rr_node.strip_edges ∧
    (fit → t.rr_nodes = s.rr_nodes ++ t.rr_nodes.drop s.rr_nodes.length) ∧
    ∀ n ∈ t.rr_nodes.drop s.rr_nodes.length, P n := by
  obtain ⟨ms, es, hm, _, hp, _⟩ := h1
  simp only [SynthState.strip_edges] at hm
  have hd : (t.rr_nodes.drop s.rr_nodes.length).map t_rr_node.strip_edges = ms := by
    rw [List.map_drop, hm]
    exact List.drop_left' (List.length_map _ _)
  refine ⟨by rw [hd, hm], ?_, ?_⟩
  · intro hf
    obtain ⟨ns, _, hn, _, _, _⟩ := h2 hf
    rw [hn, List.drop_left]
  · intro n hn
    exact hP n (hp _ (hd ▸ List.mem_map_of_mem _ hn))

theorem network_wires_track_ids (fuel : Nat) (self : ClockNetwork) (grid : DeviceGrid)
    (ctx : SynthState) :
    ∃ ns : List t_rr_node,
      (self.create_rr_nodes_for_clock_network_wires fuel grid
          ctx).state.rr_nodes.map t_rr_node.strip_edges
        = ctx.rr_nodes.map t_rr_node.strip_edges ++ ns.map t_rr_node.strip_edges ∧
      (self.indices_fit
          (self.create_rr_nodes_for_clock_network_wires fuel grid ctx).state.rr_nodes.length →
        (self.create_rr_nodes_for_clock_network_wires fuel grid ctx).state.rr_nodes
          = ctx.rr_nodes ++ ns) ∧
      (∀ n ∈ ns, ∃ i : Int, 0 ≤ i ∧ i < self.get_num_inst ∧ n.ptc_num = self.ptc_of i) ∧
      ((self.create_rr_nodes_for_clock_network_wires fuel grid ctx).isOk = true →
        self.first_tile_fits grid →
        ∀ i : Int, 0 ≤ i → i < self.get_num_inst → ∃ n ∈ ns, n.ptc_num = self.ptc_of i) := by
  obtain ⟨hn, hex, hp⟩ := appended_of_frames _ (network_wires_up_to_edges fuel self grid ctx)
    (network_wires_extends fuel self grid ctx) (fun _ h => h)
  refine ⟨_, hn, hex, hp, ?_⟩
  intro hok hfit i hi0 hiN
  cases hrun : self.create_rr_nodes_for_clock_network_wires fuel grid ctx with
  | error e s1 => rw [hrun] at hok; simp [Outcome.isOk] at hok
  | timeout s1 => rw [hrun] at hok; simp [Outcome.isOk] at hok
  | undefined s1 => rw [hrun] at hok; simp [Outcome.isOk] at hok
  | ok out =>
    rw [hrun] at hn
    simp only [Outcome.state] at hn ⊢
    cases fuel with
    | zero =>
      simp [ClockNetwork.create_rr_nodes_for_clock_network_wires, for_loop] at hrun
    | succ f =>
      unfold ClockNetwork.create_rr_nodes_for_clock_network_wires at hrun
      obtain ⟨m, _, hstop, hlist⟩ := for_loop_ok_run_list _ _ _ (f + 1) 0 ctx out hrun
      obtain ⟨ns2, hout, hcov⟩ := run_list_instances_cover f self grid hfit _ ctx out hlist
      have hns : ns2 = (out.rr_nodes.drop ctx.rr_nodes.length).map t_rr_node.strip_edges :=
        List.append_cancel_left (hout.symm.trans hn)
      have hmem : (i : Int) ∈ List.map (fun k : Nat => ((fun j : Int => j + 1)^[k]) 0)
          (List.range m) := by
        rw [iterate_succ_int] at hstop
        have hm : self.get_num_inst ≤ (m : Int) := by simpa using hstop
        refine List.mem_map.2 ⟨i.toNat, List.mem_range.2 (by omega), ?_⟩
        rw [iterate_succ_int]
        omega
      obtain ⟨n, hn2, hptc⟩ := hcov i hmem
      rw [hns] at hn2
      obtain ⟨n0, hn0, rfl⟩ := List.mem_map.1 hn2
      exact ⟨n0, hn0, hptc⟩

/-- C7 (track-id namespaces).  Whatever the budget and the outcome, every node a rib instance
appends has `ptc_num = inst_num + 50` and every node a spine instance appends has
`ptc_num = inst_num`.  Hence every node `create_rr_nodes_for_clock_network_wires` appends has a
track id `i + 50` (rib) or `i` (spine) with `0 <= i < num_inst`; and when the call completes
and the first loop tests of an instance succeed (the instance generates at least one tile),
each of these track ids is carried by an appended node.  The appended nodes `ns` follow the
initial node list: for a spine the resulting list is `ctx.rr_nodes ++ ns`; for a rib it is so
up to the edges of the nodes (the rib adds edges through an `int` index), and exactly so while
the list holds at most `2^31` nodes. -/
theorem ClockNetwork.track_id_namespaces :
    (∀ (fuel : Nat) (r : ClockRib) (grid : DeviceGrid) (inst_num : Int) (ctx : SynthState),
      ∃ ns : List t_rr_node,
        (r.create_rr_nodes_for_one_instance fuel grid inst_num
            ctx).state.rr_nodes.map t_rr_node.strip_edges
          = ctx.rr_nodes.map t_rr_node.strip_edges ++ ns.map t_rr_node.strip_edges ∧
        ((r.create_rr_nodes_for_one_instance fuel grid inst_num ctx).state.rr_nodes.length
            ≤ 2147483648 →
          (r.create_rr_nodes_for_one_instance fuel grid inst_num ctx).state.rr_nodes
            = ctx.rr_nodes ++ ns) ∧
        ∀ n ∈ ns, n.ptc_num = inst_num + 50) ∧
    (∀ (fuel : Nat) (s : ClockSpine) (grid : DeviceGrid) (inst_num : Int) (ctx : SynthState),
      ∃ ns : List t_rr_node,
        (s.create_rr_nodes_for_one_instance fuel grid inst_num ctx).state.rr_nodes
          = ctx.rr_nodes ++ ns ∧ ∀ n ∈ ns, n.ptc_num = inst_num) ∧
    (∀ (fuel : Nat) (r : ClockRib) (grid : DeviceGrid) (ctx : SynthState),
      ∃ ns : List t_rr_node,
        ((ClockNetwork.Rib r).create_rr_nodes_for_clock_network_wires fuel grid
            ctx).state.rr_nodes.map t_rr_node.strip_edges
          = ctx.rr_nodes.map t_rr_node.strip_edges ++ ns.map t_rr_node.strip_edges ∧
        (((ClockNetwork.Rib r).create_rr_nodes_for_clock_network_wires fuel grid
            ctx).state.rr_nodes.length ≤ 2147483648 →
          ((ClockNetwork.Rib r).create_rr_nodes_for_clock_network_wires fuel grid
            ctx).state.rr_nodes = ctx.rr_nodes ++ ns) ∧
        (∀ n ∈ ns, ∃ i : Int, 0 ≤ i ∧ i < r.num_inst_ ∧ n.ptc_num = i + 50) ∧
        (((ClockNetwork.Rib r).create_rr_nodes_for_clock_network_wires fuel grid
            ctx).isOk = true →
          to_unsigned r.x_chan_wire.end_ < size_sub grid.width 1 ∧
            to_unsigned r.x_chan_wire.position < size_sub grid.height 1 →
          ∀ i : Int, 0 ≤ i → i < r.num_inst_ → ∃ n ∈ ns, n.ptc_num = i + 50)) ∧
    (∀ (fuel : Nat) (s : ClockSpine) (grid : DeviceGrid) (ctx : SynthState),
      ∃ ns : List t_rr_node,
        ((ClockNetwork.Spine s).create_rr_nodes_for_clock_network_wires fuel grid
            ctx).state.rr_nodes = ctx.rr_nodes ++ ns ∧
        (∀ n ∈ ns, ∃ i : Int, 0 ≤ i ∧ i < s.num_inst_ ∧ n.ptc_num = i) ∧
        (((ClockNetwork.Spine s).create_rr_nodes_for_clock_network_wires fuel grid
            ctx).isOk = true →
          to_unsigned s.y_chan_wire.end_ < grid.height % 18446744073709551616 ∧
            to_unsigned s.y_chan_wire.position < grid.width % 18446744073709551616 →
          ∀ i : Int, 0 ≤ i → i < s.num_inst_ → ∃ n ∈ ns, n.ptc_num = i)) := by
  refine ⟨?_, ?_, ?_, ?_⟩
  · intro fuel r grid inst_num ctx
    obtain ⟨hn, hex, hp⟩ := appended_of_frames _
      (rib_instance_up_to_edges fuel r grid inst_num ctx)
      (rib_instance_extends fuel r grid inst_num ctx).2 (fun _ h => h)
    exact ⟨_, hn, hex, fun n h => (hp n h).1⟩
  · intro fuel s grid inst_num ctx
    obtain ⟨ns, _, hn, _, hp, _⟩ := spine_instance_extends fuel s grid inst_num ctx
    exact ⟨ns, hn, fun n h => (hp n h).1⟩
  · intro fuel r grid ctx
    exact network_wires_track_ids fuel (ClockNetwork.Rib r) grid ctx
  · intro fuel s grid ctx
    obtain ⟨ns, _, hex, hp, hcov⟩ :=
      network_wires_track_ids fuel (ClockNetwork.Spine s) grid ctx
    exact ⟨ns, hex trivial, hp, hcov⟩

/-- Witness of C7: the two instances of `rib_example` on a grid of width 6 and height 4 use
the track ids 50 and 51. -/
theorem ClockNetwork.track_id_namespaces_witness :
    ∃ ns : List t_rr_node,
      ((ClockNetwork.Rib rib_example).create_rr_nodes_for_clock_network_wires 6 ⟨6, 4⟩
          ⟨[], ⟨[]⟩⟩).state.rr_nodes = [] ++ ns ∧
      (∃ n ∈ ns, n.ptc_num = 0 + 50) ∧ (∃ n ∈ ns, n.ptc_num = 1 + 50) :=
  match ClockNetwork.track_id_namespaces.2.2.1 6 rib_example ⟨6, 4⟩ ⟨[], ⟨[]⟩⟩ with
  | ⟨ns, _, hex, _, hall⟩ =>
    ⟨ns, hex (by decide), hall (by decide) (by decide) 0 (by decide) (by decide),
      hall (by decide) (by decide) 1 (by decide) (by decide)⟩

/-! ### Nodes and edges of the tiles of a completed rib instance (C8, C9) -/

theorem rib_nodes_of_append (self : ClockRib) (p : Int) :
    ∀ (ts1 ts2 : List (Nat × Nat × Nat)) (base : Nat),
      rib_nodes_of self p base (ts1 ++ ts2)
        = rib_nodes_of self p base ts1 ++ rib_nodes_of self p (base + 3 * ts1.length) ts2 := by
  intro ts1
  induction ts1 with
  | nil => intro ts2 base; simp [rib_nodes_of]
  | cons t ts ih =>
    intro ts2 base
    have e : base + 3 + 3 * ts.length = base + 3 * (ts.length + 1) := by omega
    rw [List.cons_append]
    simp only [rib_nodes_of, List.length_cons, List.append_assoc]
    rw [ih ts2 (base + 3), e]

theorem ribGenerated_refl (self : ClockRib) (p : Int) (s : SynthState) :
    RibGenerated self p s s :=
  ⟨[], by simp [rib_nodes_of]⟩

theorem ribGenerated_trans (self : ClockRib) (p : Int) (a b c : SynthState)
    (h1 : RibGenerated self p a b) (h2 : RibGenerated self p b c) : RibGenerated self p a c := by
  obtain ⟨k1, h1⟩ := h1
  obtain ⟨k2, h2⟩ := h2
  refine ⟨k1 ++ k2, ?_⟩
  rw [h2, h1, List.map_append, rib_nodes_of_append, List.append_assoc, List.length_append,
    rib_nodes_of_length, List.length_map]

theorem run_list_ok_rel {ι σ : Type} (R : σ → σ → Prop) (hrefl : ∀ s, R s s)
    (htrans : ∀ a b c, R a b → R b c → R a c) (body : ι → σ → Outcome σ) :
    ∀ (l : List ι) (s out : σ),
      (∀ i ∈ l, ∀ a b, body i a = Outcome.ok b → R a b) →
      run_list body l s = Outcome.ok out → R s out := by
  intro l
  induction l with
  | nil =>
    intro s out _ h
    simp only [run_list, Outcome.ok.injEq] at h
    rw [← h]
    exact hrefl s
  | cons i rest ih =>
    intro s out hb h
    simp only [run_list] at h
    cases hbs : body i s with
    | ok s1 =>
      rw [hbs] at h
      exact htrans _ _ _ (hb i (List.mem_cons_self _ _) s s1 hbs)
        (ih s1 out (fun j hj => hb j (List.mem_cons_of_mem _ hj)) h)
    | error e s1 => rw [hbs] at h; simp at h
    | timeout s1 => rw [hbs] at h; simp at h
    | undefined s1 => rw [hbs] at h; simp at h

/-- A reflexive and transitive relation that every completed tile establishes holds between
the state before a completed rib instance and the state it returns. -/
theorem rib_instance_ok_rel (R : SynthState → SynthState → Prop) (hrefl : ∀ s, R s s)
    (htrans : ∀ a b c, R a b → R b c → R a c) (fuel : Nat) (self : ClockRib)
    (grid : DeviceGrid) (inst_num : Int)
    (htile : ∀ (k j : Nat) (c e : SynthState),
      self.tile_body fuel (inst_num + 50) (rib_tile_at self (k, j)).1
        (rib_tile_at self (k, j)).2.1 (rib_tile_at self (k, j)).2.2 c = Outcome.ok e → R c e)
    (ctx out : SynthState)
    (h : self.create_rr_nodes_for_one_instance fuel grid inst_num ctx = Outcome.ok out) :
    R ctx out := by
  unfold ClockRib.create_rr_nodes_for_one_instance at h
  dsimp only at h
  obtain ⟨n, _, _, hrun⟩ := for_loop_ok_run_list _ _ _ fuel _ ctx out h
  refine run_list_ok_rel R hrefl htrans _ _ ctx out ?_ hrun
  intro xs hxs a b hab
  obtain ⟨k, _, rfl⟩ := List.mem_map.1 hxs
  rw [iterate_pair (fun u : Nat => to_unsigned ((u : Int) + self.repeat_.x))
    (fun u : Nat => to_unsigned ((u : Int) + self.repeat_.x)),
    iterate_unsigned_mod, iterate_unsigned_mod] at hab
  dsimp only at hab
  obtain ⟨m, _, _, hrun2⟩ := for_loop_ok_run_list _ _ _ fuel _ a b hab
  refine run_list_ok_rel R hrefl htrans _ _ a b ?_ hrun2
  intro y hy c e hce
  obtain ⟨j, _, rfl⟩ := List.mem_map.1 hy
  rw [iterate_unsigned_mod] at hce
  exact htile k j c e hce

/-- A completed rib instance has appended the nodes of a sequence of tiles `(k, j)`, as long
as the node indices fit `int`. -/
theorem rib_instance_generated (fuel : Nat) (self : ClockRib) (grid : DeviceGrid)
    (inst_num : Int) (ctx out : SynthState)
    (h : self.create_rr_nodes_for_one_instance fuel grid inst_num ctx = Outcome.ok out) :
    WhileFit (RibGenerated self (inst_num + 50)) ctx out := by
  refine rib_instance_ok_rel _ (whileFit_refl (ribGenerated_refl self _))
    (whileFit_trans (ribGenerated_trans self _)) fuel self grid inst_num ?_ ctx out h
  intro k j c e hce
  have hlen := tile_body_length fuel self (inst_num + 50) (rib_tile_at self (k, j)).1
    (rib_tile_at self (k, j)).2.1 (rib_tile_at self (k, j)).2.2 c
  rw [hce] at hlen
  simp only [Outcome.state] at hlen
  refine ⟨by omega, fun hfit => ?_⟩
  obtain ⟨d, es, hn, _, hd, _, _⟩ := tile_body_state fuel self (inst_num + 50)
    (rib_tile_at self (k, j)).1 (rib_tile_at self (k, j)).2.1 (rib_tile_at self (k, j)).2.2 c
    (by omega)
  rw [hce] at hn hd
  refine ⟨[(k, j)], ?_⟩
  rw [hd rfl] at hn
  simpa [Outcome.state, rib_nodes_of, rib_tile_nodes, rib_tile_at] using hn

theorem rib_nodes_of_strip_base (self : ClockRib) (p : Int) :
    ∀ (ts : List (Nat × Nat × Nat)) (b1 b2 : Nat),
      (rib_nodes_of self p b1 ts).map t_rr_node.strip_edges
        = (rib_nodes_of self p b2 ts).map t_rr_node.strip_edges := by
  intro ts
  induction ts with
  | nil => intro b1 b2; rfl
  | cons t ts ih =>
    intro b1 b2
    simp only [rib_nodes_of, List.map_append, ih (b1 + 3) (b2 + 3)]
    rfl

theorem ribGeneratedUpToEdges_refl (self : ClockRib) (p : Int) (s : SynthState) :
    RibGeneratedUpToEdges self p s s :=
  ⟨[], by simp [rib_nodes_of]⟩

theorem ribGeneratedUpToEdges_trans (self : ClockRib) (p : Int) (a b c : SynthState)
    (h1 : RibGeneratedUpToEdges self p a b) (h2 : RibGeneratedUpToEdges self p b c) :
    RibGeneratedUpToEdges self p a c := by
  obtain ⟨k1, h1⟩ := h1
  obtain ⟨k2, h2⟩ := h2
  refine ⟨k1 ++ k2, ?_⟩
  rw [h2, h1, List.map_append, rib_nodes_of_append, List.map_append, List.append_assoc,
    rib_nodes_of_strip_base self p _ b.rr_nodes.length
      (a.rr_nodes.length + 3 * (List.map (rib_tile_at self) k1).length)]

/-- A completed rib instance has appended the nodes of a sequence of tiles `(k, j)` up to
edges, whatever the node list it starts from. -/
theorem rib_instance_generated_up_to_edges (fuel : Nat) (self : ClockRib) (grid : DeviceGrid)
    (inst_num : Int) (ctx out : SynthState)
    (h : self.create_rr_nodes_for_one_instance fuel grid inst_num ctx = Outcome.ok out) :
    RibGeneratedUpToEdges self (inst_num + 50) ctx out := by
  refine rib_instance_ok_rel _ (ribGeneratedUpToEdges_refl self _)
    (ribGeneratedUpToEdges_trans self _) fuel self grid inst_num ?_ ctx out h
  intro k j c e hce
  have hn := tile_body_nodes fuel self (inst_num + 50) (rib_tile_at self (k, j)).1
    (rib_tile_at self (k, j)).2.1 (rib_tile_at self (k, j)).2.2 c
  rw [hce] at hn
  refine ⟨[(k, j)], ?_⟩
  simpa [Outcome.state, rib_nodes_of] using hn

theorem getElem?_cons3 {α : Type} (a b c : α) (l : List α) (n : Nat) :
    (a :: b :: c :: l)[n + 3]? = l[n]? := by
  rw [show n + 3 = n + 1 + 1 + 1 by omega]
  simp only [List.getElem?_cons_succ]

theorem rib_nodes_of_getElem (self : ClockRib) (p : Int) :
    ∀ (ts : List (Nat × Nat × Nat)) (base t : Nat) (tile : Nat × Nat × Nat),
      ts[t]? = some tile →
      (rib_nodes_of self p base ts)[3 * t]? = some (rib_drive_node self p (base + 3 * t) tile) ∧
      (rib_nodes_of self p base ts)[3 * t + 1]? = some (rib_left_node self p tile) ∧
      (rib_nodes_of self p base ts)[3 * t + 2]? = some (rib_right_node self p tile) := by
  intro ts
  induction ts with
  | nil => intro base t tile h; simp at h
  | cons x xs ih =>
    intro base t tile h
    cases t with
    | zero =>
      simp only [List.getElem?_cons_zero, Option.some.injEq] at h
      subst h
      simp [rib_nodes_of, rib_tile_nodes]
    | succ t =>
      simp only [List.getElem?_cons_succ] at h
      obtain ⟨h0, h1, h2⟩ := ih (base + 3) t tile h
      simp only [rib_nodes_of, rib_tile_nodes, List.cons_append, List.nil_append]
      refine ⟨?_, ?_, ?_⟩
      · rw [show 3 * (t + 1) = 3 * t + 3 by omega, getElem?_cons3,
          show base + (3 * t + 3) = base + 3 + 3 * t by omega]
        exact h0
      · rw [show 3 * (t + 1) + 1 = 3 * t + 1 + 3 by omega, getElem?_cons3]
        exact h1
      · rw [show 3 * (t + 1) + 2 = 3 * t + 2 + 3 by omega, getElem?_cons3]
        exact h2

theorem wrap_int_eq (v : Int) (h0 : -2147483648 ≤ v) (h1 : v < 2147483648) : wrap_int v = v :=
  to_int_to_unsigned v h0 h1

theorem generated_getElem (self : ClockRib) (p : Int) (ctx out : SynthState)
    (kjs : List (Nat × Nat))
    (hout : out.rr_nodes = ctx.rr_nodes
      ++ rib_nodes_of self p ctx.rr_nodes.length (kjs.map (rib_tile_at self)))
    (t : Nat) (kj : Nat × Nat) (ht : kjs[t]? = some kj) :
    out.rr_nodes[ctx.rr_nodes.length + 3 * t]?
        = some (rib_drive_node self p (ctx.rr_nodes.length + 3 * t) (rib_tile_at self kj)) ∧
    out.rr_nodes[ctx.rr_nodes.length + 3 * t + 1]?
        = some (rib_left_node self p (rib_tile_at self kj)) ∧
    out.rr_nodes[ctx.rr_nodes.length + 3 * t + 2]?
        = some (rib_right_node self p (rib_tile_at self kj)) := by
  have hm : (kjs.map (rib_tile_at self))[t]? = some (rib_tile_at self kj) := by
    rw [List.getElem?_map, ht]; rfl
  obtain ⟨h0, h1, h2⟩ := rib_nodes_of_getElem self p _ ctx.rr_nodes.length t _ hm
  rw [hout]
  refine ⟨?_, ?_, ?_⟩
  · rw [List.getElem?_append_right (by omega),
      show ctx.rr_nodes.length + 3 * t - ctx.rr_nodes.length = 3 * t by omega]
    exact h0
  · rw [List.getElem?_append_right (by omega),
      show ctx.rr_nodes.length + 3 * t + 1 - ctx.rr_nodes.length = 3 * t + 1 by omega]
    exact h1
  · rw [List.getElem?_append_right (by omega),
      show ctx.rr_nodes.length + 3 * t + 2 - ctx.rr_nodes.length = 3 * t + 2 by omega]
    exact h2

theorem strip_edges_fields {a b : t_rr_node} (h : a.strip_edges = b.strip_edges) :
    a.xlow = b.xlow ∧ a.ylow = b.ylow ∧ a.xhigh = b.xhigh ∧ a.yhigh = b.yhigh ∧
      a.type = b.type ∧ a.capacity = b.capacity ∧ a.ptc_num = b.ptc_num :=
  ⟨show a.strip_edges.xlow = b.strip_edges.xlow by rw [h],
    show a.strip_edges.ylow = b.strip_edges.ylow by rw [h],
    show a.strip_edges.xhigh = b.strip_edges.xhigh by rw [h],
    show a.strip_edges.yhigh = b.strip_edges.yhigh by rw [h],
    show a.strip_edges.type = b.strip_edges.type by rw [h],
    show a.strip_edges.capacity = b.strip_edges.capacity by rw [h],
    show a.strip_edges.ptc_num = b.strip_edges.ptc_num by rw [h]⟩

theorem getElem?_of_map_strip_edges {l : List t_rr_node} {i : Nat} {m : t_rr_node}
    (h : (l.map t_rr_node.strip_edges)[i]? = some m) :
    ∃ d, l[i]? = some d ∧ d.strip_edges = m := by
  rw [List.getElem?_map] at h
  cases hl : l[i]? with
  | none => rw [hl] at h; simp at h
  | some d =>
    rw [hl] at h
    exact ⟨d, rfl, by simpa using h⟩

theorem generated_getElem_up_to_edges (self : ClockRib) (p : Int) (ctx out : SynthState)
    (kjs : List (Nat × Nat))
    (hout : out.rr_nodes.map t_rr_node.strip_edges = ctx.rr_nodes.map t_rr_node.strip_edges
      ++ (rib_nodes_of self p ctx.rr_nodes.length (kjs.map (rib_tile_at self))).map
          t_rr_node.strip_edges)
    (t : Nat) (kj : Nat × Nat) (ht : kjs[t]? = some kj) :
    ∃ d l r : t_rr_node,
      out.rr_nodes[ctx.rr_nodes.length + 3 * t]? = some d ∧
      out.rr_nodes[ctx.rr_nodes.length + 3 * t + 1]? = some l ∧
      out.rr_nodes[ctx.rr_nodes.length + 3 * t + 2]? = some r ∧
      d.strip_edges = (rib_drive_node self p (ctx.rr_nodes.length + 3 * t)
        (rib_tile_at self kj)).strip_edges ∧
      l.strip_edges = (rib_left_node self p (rib_tile_at self kj)).strip_edges ∧
      r.strip_edges = (rib_right_node self p (rib_tile_at self kj)).strip_edges := by
  have hm : (kjs.map (rib_tile_at self))[t]? = some (rib_tile_at self kj) := by
    rw [List.getElem?_map, ht]; rfl
  obtain ⟨h0, h1, h2⟩ := rib_nodes_of_getElem self p _ ctx.rr_nodes.length t _ hm
  have hlen : (ctx.rr_nodes.map t_rr_node.strip_edges).length = ctx.rr_nodes.length :=
    List.length_map _ _
  have g0 : (out.rr_nodes.map t_rr_node.strip_edges)[ctx.rr_nodes.length + 3 * t]?
      = some (rib_drive_node self p (ctx.rr_nodes.length + 3 * t)
          (rib_tile_at self kj)).strip_edges := by
    rw [hout, List.getElem?_append_right (by omega), hlen,
      show ctx.rr_nodes.length + 3 * t - ctx.rr_nodes.length = 3 * t by omega,
      List.getElem?_map, h0]
    rfl
  have g1 : (out.rr_nodes.map t_rr_node.strip_edges)[ctx.rr_nodes.length + 3 * t + 1]?
      = some (rib_left_node self p (rib_tile_at self kj)).strip_edges := by
    rw [hout, List.getElem?_append_right (by omega), hlen,
      show ctx.rr_nodes.length + 3 * t + 1 - ctx.rr_nodes.length = 3 * t + 1 by omega,
      List.getElem?_map, h1]
    rfl
  have g2 : (out.rr_nodes.map t_rr_node.strip_edges)[ctx.rr_nodes.length + 3 * t + 2]?
      = some (rib_right_node self p (rib_tile_at self kj)).strip_edges := by
    rw [hout, List.getElem?_append_right (by omega), hlen,
      show ctx.rr_nodes.length + 3 * t + 2 - ctx.rr_nodes.length = 3 * t + 2 by omega,
      List.getElem?_map, h2]
    rfl
  obtain ⟨d, hd, hds⟩ := getElem?_of_map_strip_edges g0
  obtain ⟨l, hl, hls⟩ := getElem?_of_map_strip_edges g1
  obtain ⟨r, hr, hrs⟩ := getElem?_of_map_strip_edges g2
  exact ⟨d, l, r, hd, hl, hr, hds, hls, hrs⟩

/-- C9 (amended): after a completed call of `ClockRib::create_rr_nodes_for_one_instance` that
leaves at most `2^31` nodes in the node list, the appended nodes are the tiles one after the
other, three nodes each, and for every tile `t` the drive node (index `n + 3 t`, with `n` the
length of the node list before the call) has exactly the two outgoing edges
`(n + 3 t + 1, drive.switch_idx)` and `(n + 3 t + 2, drive.switch_idx)`, in this order, to the
left and the right half-wire of the tile, which have no outgoing edges. -/
theorem ClockRib.tile_edges (fuel : Nat) (self : ClockRib) (grid : DeviceGrid) (inst_num : Int)
    (ctx out : SynthState)
    (h : self.create_rr_nodes_for_one_instance fuel grid inst_num ctx = Outcome.ok out)
    (hfit : out.rr_nodes.length ≤ 2147483648) :
    ∃ T : Nat, out.rr_nodes.length = ctx.rr_nodes.length + 3 * T ∧
      ∀ t, t < T → ∃ d l r : t_rr_node,
        out.rr_nodes[ctx.rr_nodes.length + 3 * t]? = some d ∧
        out.rr_nodes[ctx.rr_nodes.length + 3 * t + 1]? = some l ∧
        out.rr_nodes[ctx.rr_nodes.length + 3 * t + 2]? = some r ∧
        d.edges = [(((ctx.rr_nodes.length + 3 * t + 1 : Nat) : Int), self.drive.switch_idx),
                   (((ctx.rr_nodes.length + 3 * t + 2 : Nat) : Int), self.drive.switch_idx)] ∧
        l.edges = [] ∧ r.edges = [] := by
  obtain ⟨kjs, hout⟩ := (rib_instance_generated fuel self grid inst_num ctx out h).2 hfit
  refine ⟨kjs.length, by rw [hout, List.length_append, rib_nodes_of_length, List.length_map], ?_⟩
  intro t ht
  obtain ⟨h0, h1, h2⟩ := generated_getElem self (inst_num + 50) ctx out kjs hout t kjs[t]
    (List.getElem?_eq_getElem ht)
  exact ⟨_, _, _, h0, h1, h2, rfl, rfl, rfl⟩

/-- Witness of C9: the first instance of `rib_example` on a grid of width 6 and height 2. -/
theorem ClockRib.tile_edges_witness :
    rib_example.create_rr_nodes_for_one_instance 5 ⟨6, 2⟩ 0 ⟨[], ⟨[]⟩⟩
      = Outcome.ok rib_example_out ∧
    rib_example_out.rr_nodes.length ≤ 2147483648 ∧
    ∃ T : Nat, rib_example_out.rr_nodes.length = 0 + 3 * T ∧
      ∀ t, t < T → ∃ d l r : t_rr_node,
        rib_example_out.rr_nodes[0 + 3 * t]? = some d ∧
        rib_example_out.rr_nodes[0 + 3 * t + 1]? = some l ∧
        rib_example_out.rr_nodes[0 + 3 * t + 2]? = some r ∧
        d.edges = [(((0 + 3 * t + 1 : Nat) : Int), 7), (((0 + 3 * t + 2 : Nat) : Int), 7)] ∧
        l.edges = [] ∧ r.edges = [] :=
  ⟨by decide, by decide,
    ClockRib.tile_edges 5 rib_example ⟨6, 2⟩ 0 ⟨[], ⟨[]⟩⟩ rib_example_out (by decide)
      (by decide)⟩

/-- The single tile of `rib_unit` on a grid of 2 by 2, generated from a node list of
`2^31 - 1` nodes and an empty registry: the drive node, at the index `2^31 - 1`, receives the
edge targets `-2^31` and `-2^31 + 1`. -/
theorem rib_unit_edges_int_max (l : List t_rr_node) (hlen : l.length = 2147483647) :
    ∃ (out : SynthState) (d : t_rr_node),
      rib_unit.create_rr_nodes_for_one_instance 2 ⟨2, 2⟩ 0 ⟨l, ⟨[]⟩⟩ = Outcome.ok out ∧
      out.rr_nodes.length = 2147483647 + 3 ∧
      out.rr_nodes[2147483647]? = some d ∧
      d.edges = [(-2147483648, 7), (-2147483647, 7)] ∧
      d.edges ≠ [(((2147483647 + 1 : Nat) : Int), rib_unit.drive.switch_idx),
                 (((2147483647 + 2 : Nat) : Int), rib_unit.drive.switch_idx)] := by
  refine ⟨_, { chan_node t_rr_type.CHANX 1 0 1 0 50 with
      edges := [(-2147483648, 7), (-2147483647, 7)] },
    rib_unit_instance_int_max 0 0 l ⟨[]⟩ hlen, ?_, ?_, rfl, by decide⟩
  · simp only [List.length_append, hlen, List.length_cons, List.length_nil]
  · rw [List.getElem?_append_right (by omega), hlen, Nat.sub_self]
    rfl

/-- C9 fails as stated when a node index does not fit `int`: from a node list of `2^31 - 1`
nodes the single tile of `rib_unit` on a grid of 2 by 2 is generated without any access
outside the node list; its drive node has the index `2^31 - 1` and its half-wires have the
indices `2^31` and `2^31 + 1`, but the two edges of the drive node go to `-2^31` and
`-2^31 + 1`, the values `create_chanx_wire` returns for the half-wires through `int`. -/
theorem ClockRib.tile_edges_narrowed_index :
    ∃ (out : SynthState) (d : t_rr_node),
      rib_unit.create_rr_nodes_for_one_instance 2 ⟨2, 2⟩ 0
        ⟨List.replicate 2147483647 t_rr_node.emplace, ⟨[]⟩⟩ = Outcome.ok out ∧
      out.rr_nodes.length = 2147483647 + 3 ∧
      out.rr_nodes[2147483647]? = some d ∧
      d.edges = [(-2147483648, 7), (-2147483647, 7)] ∧
      d.edges ≠ [(((2147483647 + 1 : Nat) : Int), rib_unit.drive.switch_idx),
                 (((2147483647 + 2 : Nat) : Int), rib_unit.drive.switch_idx)] :=
  rib_unit_edges_int_max (List.replicate 2147483647 t_rr_node.emplace)
    (List.length_replicate _ _)

/-- C8 (amended): after a completed call of `ClockRib::create_rr_nodes_for_one_instance` the
appended nodes are the tiles one after the other; the tile of column `k` and row `j`, with
`x_start = span.start + 1 + k * repeat.x`, `x_end = span.end + k * repeat.x`,
`y = position + j * repeat.y` and `drive_x = x_start + drive.offset`, consists of exactly three
nodes in the order drive, left, right, all of type `CHANX` and capacity 1, whose coordinates
`(xlow, ylow, xhigh, yhigh)` are `(drive_x, y, drive_x, y)`, `(x_start, y, drive_x, y)` and
`(drive_x, y, x_end, y)` with every value reduced to a 32-bit `int` (`wrap_int`), hence the
values themselves whenever `x_start`, `x_end`, `y` and `drive_x` are representable as `int`. -/
theorem ClockRib.tile_node_coordinates (fuel : Nat) (self : ClockRib) (grid : DeviceGrid)
    (inst_num : Int) (ctx out : SynthState)
    (h : self.create_rr_nodes_for_one_instance fuel grid inst_num ctx = Outcome.ok out) :
    ∃ tiles : List (Nat × Nat),
      out.rr_nodes.length = ctx.rr_nodes.length + 3 * tiles.length ∧
      ∀ (t k j : Nat), tiles[t]? = some (k, j) →
        ∀ (x_start x_end y drive_x : Int),
          x_start = self.x_chan_wire.start + 1 + (k : Int) * self.repeat_.x →
          x_end = self.x_chan_wire.end_ + (k : Int) * self.repeat_.x →
          y = self.x_chan_wire.position + (j : Int) * self.repeat_.y →
          drive_x = x_start + self.drive.offset →
          ∃ d l r : t_rr_node,
            out.rr_nodes[ctx.rr_nodes.length + 3 * t]? = some d ∧
            out.rr_nodes[ctx.rr_nodes.length + 3 * t + 1]? = some l ∧
            out.rr_nodes[ctx.rr_nodes.length + 3 * t + 2]? = some r ∧
            (d.type = t_rr_type.CHANX ∧ l.type = t_rr_type.CHANX ∧ r.type = t_rr_type.CHANX) ∧
            (d.capacity = 1 ∧ l.capacity = 1 ∧ r.capacity = 1) ∧
            ((d.xlow, d.ylow, d.xhigh, d.yhigh)
                = (wrap_int drive_x, wrap_int y, wrap_int drive_x, wrap_int y) ∧
             (l.xlow, l.ylow, l.xhigh, l.yhigh)
                = (wrap_int x_start, wrap_int y, wrap_int drive_x, wrap_int y) ∧
             (r.xlow, r.ylow, r.xhigh, r.yhigh)
                = (wrap_int drive_x, wrap_int y, wrap_int x_end, wrap_int y)) ∧
            ((-2147483648 ≤ x_start ∧ x_start < 2147483648) →
             (-2147483648 ≤ x_end ∧ x_end < 2147483648) →
             (-2147483648 ≤ y ∧ y < 2147483648) →
             (-2147483648 ≤ drive_x ∧ drive_x < 2147483648) →
              (d.xlow, d.ylow, d.xhigh, d.yhigh) = (drive_x, y, drive_x, y) ∧
              (l.xlow, l.ylow, l.xhigh, l.yhigh) = (x_start, y, drive_x, y) ∧
              (r.xlow, r.ylow, r.xhigh, r.yhigh) = (drive_x, y, x_end, y)) := by
  obtain ⟨kjs, hout⟩ := rib_instance_generated_up_to_edges fuel self grid inst_num ctx out h
  refine ⟨kjs, by simpa [rib_nodes_of_length] using congrArg List.length hout, ?_⟩
  intro t k j ht x_start x_end y drive_x hxs hxe hy hdx
  obtain ⟨d, l, r, h0, h1, h2, hd, hl, hr⟩ :=
    generated_getElem_up_to_edges self (inst_num + 50) ctx out kjs hout t (k, j) ht
  obtain ⟨d1, d2, d3, d4, d5, d6, _⟩ := strip_edges_fields hd
  obtain ⟨l1, l2, l3, l4, l5, l6, _⟩ := strip_edges_fields hl
  obtain ⟨r1, r2, r3, r4, r5, r6, _⟩ := strip_edges_fields hr
  have hw : to_int (to_unsigned
      (((to_unsigned (self.x_chan_wire.start + 1 + (k : Int) * self.repeat_.x) : Nat) : Int)
        + self.drive.offset)) = wrap_int drive_x := by
    rw [to_unsigned_add_mod, hdx, hxs]
    rfl
  have hcoord : ((d.xlow, d.ylow, d.xhigh, d.yhigh)
        = (wrap_int drive_x, wrap_int y, wrap_int drive_x, wrap_int y) ∧
      (l.xlow, l.ylow, l.xhigh, l.yhigh)
        = (wrap_int x_start, wrap_int y, wrap_int drive_x, wrap_int y) ∧
      (r.xlow, r.ylow, r.xhigh, r.yhigh)
        = (wrap_int drive_x, wrap_int y, wrap_int x_end, wrap_int y)) := by
    rw [d1, d2, d3, d4, l1, l2, l3, l4, r1, r2, r3, r4]
    simp only [rib_drive_node, rib_left_node, rib_right_node, rib_tile_at, chan_node, hw]
    rw [hxs, hxe, hy]
    exact ⟨rfl, rfl, rfl⟩
  refine ⟨d, l, r, h0, h1, h2, ⟨d5, l5, r5⟩, ⟨d6, l6, r6⟩, hcoord, ?_⟩
  intro hr1 hr2 hr3 hr4
  rw [wrap_int_eq x_start hr1.1 hr1.2, wrap_int_eq x_end hr2.1 hr2.2, wrap_int_eq y hr3.1 hr3.2,
    wrap_int_eq drive_x hr4.1 hr4.2] at hcoord
  exact hcoord

/-- Witness of C8: the first instance of `rib_example` on a grid of width 6 and height 2. -/
theorem ClockRib.tile_node_coordinates_witness :
    rib_example.create_rr_nodes_for_one_instance 5 ⟨6, 2⟩ 0 ⟨[], ⟨[]⟩⟩
      = Outcome.ok rib_example_out ∧
    ∃ tiles : List (Nat × Nat),
      rib_example_out.rr_nodes.length = 0 + 3 * tiles.length ∧
      ∀ (t k j : Nat), tiles[t]? = some (k, j) →
        ∀ (x_start x_end y drive_x : Int),
          x_start = rib_example.x_chan_wire.start + 1 + (k : Int) * rib_example.repeat_.x →
          x_end = rib_example.x_chan_wire.end_ + (k : Int) * rib_example.repeat_.x →
          y = rib_example.x_chan_wire.position + (j : Int) * rib_example.repeat_.y →
          drive_x = x_start + rib_example.drive.offset →
          ∃ d l r : t_rr_node,
            rib_example_out.rr_nodes[0 + 3 * t]? = some d ∧
            rib_example_out.rr_nodes[0 + 3 * t + 1]? = some l ∧
            rib_example_out.rr_nodes[0 + 3 * t + 2]? = some r ∧
            (d.type = t_rr_type.CHANX ∧ l.type = t_rr_type.CHANX ∧ r.type = t_rr_type.CHANX) ∧
            (d.capacity = 1 ∧ l.capacity = 1 ∧ r.capacity = 1) ∧
            ((d.xlow, d.ylow, d.xhigh, d.yhigh)
                = (wrap_int drive_x, wrap_int y, wrap_int drive_x, wrap_int y) ∧
             (l.xlow, l.ylow, l.xhigh, l.yhigh)
                = (wrap_int x_start, wrap_int y, wrap_int drive_x, wrap_int y) ∧
             (r.xlow, r.ylow, r.xhigh, r.yhigh)
                = (wrap_int drive_x, wrap_int y, wrap_int x_end, wrap_int y)) ∧
            ((-2147483648 ≤ x_start ∧ x_start < 2147483648) →
             (-2147483648 ≤ x_end ∧ x_end < 2147483648) →
             (-2147483648 ≤ y ∧ y < 2147483648) →
             (-2147483648 ≤ drive_x ∧ drive_x < 2147483648) →
              (d.xlow, d.ylow, d.xhigh, d.yhigh) = (drive_x, y, drive_x, y) ∧
              (l.xlow, l.ylow, l.xhigh, l.yhigh) = (x_start, y, drive_x, y) ∧
              (r.xlow, r.ylow, r.xhigh, r.yhigh) = (drive_x, y, x_end, y)) :=
  ⟨by decide,
    ClockRib.tile_node_coordinates 5 rib_example ⟨6, 2⟩ 0 ⟨[], ⟨[]⟩⟩ rib_example_out
      (by decide)⟩

/-- C8 fails as stated when a coordinate is not representable as `int`: with
`drive.offset = 2^31 - 1` the first tile has `x_start = 1` and `drive_x = x_start +
drive.offset = 2^31`, but the code stores `-2^31` in the nodes. -/
theorem ClockRib.drive_coordinate_overflow :
    (rib_far_drive.create_rr_nodes_for_one_instance 5 ⟨6, 2⟩ 0 ⟨[], ⟨[]⟩⟩).isOk = true ∧
    (rib_far_drive.create_rr_nodes_for_one_instance 5 ⟨6, 2⟩ 0 ⟨[], ⟨[]⟩⟩).state.rr_nodes.map
        (fun n => (n.xlow, n.ylow, n.xhigh, n.yhigh))
      = [(-2147483648, 0, -2147483648, 0), (1, 0, -2147483648, 0), (-2147483648, 0, 3, 0)] ∧
    rib_far_drive.x_chan_wire.start + 1 + 0 * rib_far_drive.repeat_.x
      + rib_far_drive.drive.offset = 2147483648 := by
  decide

/-! ### Registry entries of a rib tile (C10) -/

/-- The count of tap positions, written the way the claim counts them: the number of `k >= 0`
with `a + k * d <= b`. -/
theorem steps_below_eq_ncard_le (a d : Int) (b : Nat) (ha0 : 0 ≤ a) (ha1 : a < 4294967296)
    (hd : 0 < d) :
    steps_below (to_unsigned a) d.toNat (b + 1)
      = Set.ncard {k : ℕ | a + (k : Int) * d ≤ (b : Int)} := by
  have hu : to_unsigned a = a.toNat := by unfold to_unsigned; omega
  rw [steps_below_eq_ncard _ _ _ (by omega), hu]
  congr 1
  ext k
  simp only [Set.mem_setOf_eq]
  have h1 : ((a.toNat + k * d.toNat : Nat) : Int) = a + (k : Int) * d := by
    push_cast
    rw [Int.toNat_of_nonneg ha0, Int.toNat_of_nonneg (le_of_lt hd)]
  constructor
  · intro h
    have : ((a.toNat + k * d.toNat : Nat) : Int) < ((b + 1 : Nat) : Int) := by exact_mod_cast h
    rw [h1] at this
    push_cast at this
    omega
  · intro h
    have : ((a.toNat + k * d.toNat : Nat) : Int) < ((b + 1 : Nat) : Int) := by
      rw [h1]; push_cast; omega
    exact_mod_cast this

/-- C10 (amended): for a rib tile `(x_start, x_end, y)` with `tap.increment > 0`, whose
`x_start`, `x_end` and `y` fit in `int`, with `x_start + tap.offset >= 0` and
`x_start + drive.offset` representable as `int`, and a node list that holds at most `2^31`
nodes after the tile (so that the three node indices are representable as `int`), the tile
body completes (budget above `x_end + 1`) and the registry entries it adds are exactly: the `drive` entry at
`(x_start + drive.offset, y)` pointing to the drive node of the tile, followed by one `tap`
entry at `(x_start + tap.offset + k * tap.increment, y)` for each `k = 0, 1, ..., n - 1` in
increasing order, where `n` is the number of `k >= 0` with
`x_start + tap.offset + k * tap.increment <= x_end`, each pointing to the left or the right
half-wire of the tile; when `x_start + tap.offset > x_end` the drive entry is the only one. -/
theorem ClockRib.tile_registry_entries (fuel : Nat) (self : ClockRib) (ptc_num : Int)
    (x_start x_end y : Nat) (ctx : SynthState)
    (hinc0 : 0 < self.tap.increment) (hinc1 : self.tap.increment < 2147483648)
    (hoff : self.tap.offset < 2147483648)
    (hxs : x_start < 2147483648) (hxe : x_end < 2147483648) (hy : y < 2147483648)
    (htap : 0 ≤ (x_start : Int) + self.tap.offset)
    (hdr0 : -2147483648 ≤ (x_start : Int) + self.drive.offset)
    (hdr1 : (x_start : Int) + self.drive.offset < 2147483648)
    (hfuel : x_end + 1 < fuel) (hnodes : ctx.rr_nodes.length + 3 ≤ 2147483648) :
    ∃ out : SynthState,
      self.tile_body fuel ptc_num x_start x_end y ctx = Outcome.ok out ∧
      out.clock_graph.switch_locations
        = ctx.clock_graph.switch_locations ++
          ({ clock_name := self.clock_name_, switch_name := "drive",
             x := (x_start : Int) + self.drive.offset, y := (y : Int),
             node_index := (ctx.rr_nodes.length : Int) } : SwitchLocation) ::
          (List.range (Set.ncard {k : ℕ |
              (x_start : Int) + self.tap.offset + (k : Int) * self.tap.increment
                ≤ (x_end : Int)})).map
            (fun k : Nat =>
              ({ clock_name := self.clock_name_, switch_name := "tap",
                 x := (x_start : Int) + self.tap.offset + (k : Int) * self.tap.increment,
                 y := (y : Int),
                 node_index :=
                   if (x_start : Int) + self.tap.offset + (k : Int) * self.tap.increment
                       < ((to_unsigned ((x_start : Int) + self.drive.offset) : Nat) : Int)
                   then ((ctx.rr_nodes.length + 1 : Nat) : Int)
                   else ((ctx.rr_nodes.length + 2 : Nat) : Int) } : SwitchLocation)) ∧
      ((x_end : Int) < (x_start : Int) + self.tap.offset →
        out.clock_graph.switch_locations
          = ctx.clock_graph.switch_locations ++
            [({ clock_name := self.clock_name_, switch_name := "drive",
                x := (x_start : Int) + self.drive.offset, y := (y : Int),
                node_index := (ctx.rr_nodes.length : Int) } : SwitchLocation)]) := by
  have hcount := steps_below_eq_ncard_le ((x_start : Int) + self.tap.offset)
    self.tap.increment x_end htap (by omega) hinc0
  have hincn : 0 < self.tap.increment.toNat := by omega
  have hdx : to_int (to_unsigned ((x_start : Int) + self.drive.offset))
      = (x_start : Int) + self.drive.offset := to_int_to_unsigned _ hdr0 hdr1
  have hyi : to_int y = (y : Int) := to_int_of_lt y hy
  have hx0 : ((to_unsigned ((x_start : Int) + self.tap.offset) : Nat) : Int)
      = (x_start : Int) + self.tap.offset := to_unsigned_of_nonneg _ htap (by omega)
  have hentries : rib_tile_entries self ctx.rr_nodes.length (x_start, x_end, y)
      = ({ clock_name := self.clock_name_, switch_name := "drive",
             x := (x_start : Int) + self.drive.offset, y := (y : Int),
             node_index := (ctx.rr_nodes.length : Int) } : SwitchLocation) ::
          (List.range (Set.ncard {k : ℕ |
              (x_start : Int) + self.tap.offset + (k : Int) * self.tap.increment
                ≤ (x_end : Int)})).map
            (fun k : Nat =>
              ({ clock_name := self.clock_name_, switch_name := "tap",
                 x := (x_start : Int) + self.tap.offset + (k : Int) * self.tap.increment,
                 y := (y : Int),
                 node_index :=
                   if (x_start : Int) + self.tap.offset + (k : Int) * self.tap.increment
                       < ((to_unsigned ((x_start : Int) + self.drive.offset) : Nat) : Int)
                   then ((ctx.rr_nodes.length + 1 : Nat) : Int)
                   else ((ctx.rr_nodes.length + 2 : Nat) : Int) } : SwitchLocation)) := by
    simp only [rib_tile_entries, rib_drive_entry, rib_tap_entries, hdx, hyi, hcount]
    congr 1
    apply List.map_congr_left
    intro k hk
    have hk' := (lt_steps_below_iff (to_unsigned ((x_start : Int) + self.tap.offset))
      self.tap.increment.toNat (x_end + 1) k hincn).1
      (by rw [hcount]; exact List.mem_range.1 hk)
    have hxk : ((to_unsigned ((x_start : Int) + self.tap.offset)
        + k * self.tap.increment.toNat : Nat) : Int)
        = (x_start : Int) + self.tap.offset + (k : Int) * self.tap.increment := by
      push_cast
      rw [hx0, Int.toNat_of_nonneg (le_of_lt hinc0)]
    have hti : to_int (to_unsigned ((x_start : Int) + self.tap.offset)
        + k * self.tap.increment.toNat)
        = (x_start : Int) + self.tap.offset + (k : Int) * self.tap.increment := by
      rw [to_int_of_lt _ (by omega), hxk]
    simp only [hti, SwitchLocation.mk.injEq, true_and]
    by_cases hlt : to_unsigned ((x_start : Int) + self.tap.offset)
        + k * self.tap.increment.toNat < to_unsigned ((x_start : Int) + self.drive.offset)
    · have : (x_start : Int) + self.tap.offset + (k : Int) * self.tap.increment
          < ((to_unsigned ((x_start : Int) + self.drive.offset) : Nat) : Int) := by
        rw [← hxk]; exact_mod_cast hlt
      simp [hlt, this]
    · have : ¬ (x_start : Int) + self.tap.offset + (k : Int) * self.tap.increment
          < ((to_unsigned ((x_start : Int) + self.drive.offset) : Nat) : Int) := by
        rw [← hxk]; exact_mod_cast hlt
      simp [hlt, this]
  refine ⟨_, tile_body_eq fuel self ptc_num x_start x_end y ctx hinc0 hinc1 hxe hfuel hnodes,
    ?_, ?_⟩
  · exact congrArg (fun l => ctx.clock_graph.switch_locations ++ l) hentries
  · intro hnone
    have hzero : Set.ncard {k : ℕ |
        (x_start : Int) + self.tap.offset + (k : Int) * self.tap.increment ≤ (x_end : Int)}
        = 0 := by
      rw [← hcount]
      by_contra hne
      have hpos : 0 < steps_below (to_unsigned ((x_start : Int) + self.tap.offset))
          self.tap.increment.toNat (x_end + 1) := Nat.pos_of_ne_zero hne
      have := (lt_steps_below_iff _ _ _ 0 hincn).1 hpos
      omega
    show ctx.clock_graph.switch_locations
      ++ rib_tile_entries self ctx.rr_nodes.length (x_start, x_end, y) = _
    rw [hentries, hzero]
    rfl

/-- Witness of C10: the tile `(1, 3, 0)` of `rib_example`. -/
theorem ClockRib.tile_registry_entries_witness :
    ∃ out : SynthState,
      rib_example.tile_body 5 50 1 3 0 ⟨[], ⟨[]⟩⟩ = Outcome.ok out ∧
      out.clock_graph.switch_locations
        = [] ++
          ({ clock_name := rib_example.clock_name_, switch_name := "drive",
             x := ((1 : Nat) : Int) + rib_example.drive.offset, y := ((0 : Nat) : Int),
             node_index := ((0 : Nat) : Int) } : SwitchLocation) ::
          (List.range (Set.ncard {k : ℕ |
              ((1 : Nat) : Int) + rib_example.tap.offset + (k : Int) * rib_example.tap.increment
                ≤ ((3 : Nat) : Int)})).map
            (fun k : Nat =>
              ({ clock_name := rib_example.clock_name_, switch_name := "tap",
                 x := ((1 : Nat) : Int) + rib_example.tap.offset
                   + (k : Int) * rib_example.tap.increment,
                 y := ((0 : Nat) : Int),
                 node_index :=
                   if ((1 : Nat) : Int) + rib_example.tap.offset
                       + (k : Int) * rib_example.tap.increment
                       < ((to_unsigned (((1 : Nat) : Int) + rib_example.drive.offset) : Nat) : Int)
                   then ((0 + 1 : Nat) : Int)
                   else ((0 + 2 : Nat) : Int) } : SwitchLocation)) ∧
      ((((3 : Nat) : Int) < ((1 : Nat) : Int) + rib_example.tap.offset) →
        out.clock_graph.switch_locations
          = [] ++
            [({ clock_name := rib_example.clock_name_, switch_name := "drive",
                x := ((1 : Nat) : Int) + rib_example.drive.offset, y := ((0 : Nat) : Int),
                node_index := ((0 : Nat) : Int) } : SwitchLocation)]) :=
  ClockRib.tile_registry_entries 5 rib_example 50 1 3 0 ⟨[], ⟨[]⟩⟩ (by decide) (by decide)
    (by decide) (by decide) (by decide) (by decide) (by decide) (by decide) (by decide)
    (by decide) (by decide)

/-- C10 fails as stated when `x_start + tap.offset` is negative: on the tile `(1, 3, 0)` with
`tap.offset = -2` and `tap.increment = 1` the claim lists taps at `x = -1, 0, 1, 2, 3`
(`k = 0` already gives `x = -1 <= x_end`, and `x_start + tap.offset > x_end` does not hold),
but the unsigned loop variable starts at `2^32 - 1`, above `x_end`, and the drive entry is the
only entry the tile adds. -/
theorem ClockRib.tile_registry_negative_tap_offset :
    (rib_tap_left.tile_body 5 50 1 3 0 ⟨[], ⟨[]⟩⟩).isOk = true ∧
    (rib_tap_left.tile_body 5 50 1 3 0 ⟨[], ⟨[]⟩⟩).state.clock_graph.switch_locations
      = [⟨"clk", "drive", 2, 0, 0⟩] ∧
    0 < rib_tap_left.tap.increment ∧
    ((1 : Nat) : Int) + rib_tap_left.tap.offset + 0 * rib_tap_left.tap.increment
      ≤ ((3 : Nat) : Int) ∧
    ¬ (((3 : Nat) : Int) < ((1 : Nat) : Int) + rib_tap_left.tap.offset) := by
  decide

/-! ### Spine instances leave the registry alone (C16) -/

theorem spine_wires_extends (fuel : Nat) (self : ClockSpine) (grid : DeviceGrid)
    (ctx : SynthState) :
    Extends (fun n => n.type = t_rr_type.CHANY ∧ n.capacity = 1 ∧ n.edges = []) (fun _ => False)
      ctx ((ClockNetwork.Spine self).create_rr_nodes_for_clock_network_wires fuel grid
        ctx).state := by
  unfold ClockNetwork.create_rr_nodes_for_clock_network_wires
  refine for_loop_inv _ (fun _ : Int => True) (extends_refl _ _) (fun _ _ _ => extends_trans)
    _ _ _ (fun _ _ _ => trivial) ?_ fuel 0 ctx trivial
  intro i s _ _
  exact extends_mono (spine_instance_extends fuel self grid i s)
    (fun n hn => ⟨hn.2.1, hn.2.2.1, hn.2.2.2⟩) (fun _ h => h)

/-- C16: synthesizing a spine network performs no registration.  Whatever the grid, the budget
and the outcome, the registry after `create_rr_nodes_for_clock_network_wires` is the registry
before the call, the nodes that existed before the call are unchanged (no edge is added to
them), and every appended node is a `CHANY` node of capacity 1 without edges. -/
theorem ClockSpine.no_registration (fuel : Nat) (self : ClockSpine) (grid : DeviceGrid)
    (ctx : SynthState) :
    ((ClockNetwork.Spine self).create_rr_nodes_for_clock_network_wires fuel grid
        ctx).state.clock_graph = ctx.clock_graph ∧
    ∃ ns : List t_rr_node,
      ((ClockNetwork.Spine self).create_rr_nodes_for_clock_network_wires fuel grid
          ctx).state.rr_nodes = ctx.rr_nodes ++ ns ∧
      ∀ n ∈ ns, n.type = t_rr_type.CHANY ∧ n.capacity = 1 ∧ n.edges = [] := by
  obtain ⟨ns, es, hn, he, hp, hq⟩ := spine_wires_extends fuel self grid ctx
  have hes : es = [] := by
    cases es with
    | nil => rfl
    | cons e rest => exact absurd (hq e (List.mem_cons_self _ _)) id
  subst hes
  refine ⟨?_, ns, hn, hp⟩
  rw [List.append_nil] at he
  cases hg : ((ClockNetwork.Spine self).create_rr_nodes_for_clock_network_wires fuel grid
    ctx).state.clock_graph with
  | mk sl =>
    rw [hg] at he
    cases hc : ctx.clock_graph with
    | mk sl0 =>
      rw [hc] at he
      simp only at he
      rw [he]

/-! ### Referential integrity of the registry (C19) -/

theorem rib_entry_groups_append (self : ClockRib) :
    ∀ (g1 g2 : List ((Nat × Nat × Nat) × List SwitchLocation)) (base : Nat),
      rib_entry_groups self base (g1 ++ g2)
        = rib_entry_groups self base g1 ++ rib_entry_groups self (base + 3 * g1.length) g2 := by
  intro g1
  induction g1 with
  | nil => intro g2 base; simp [rib_entry_groups]
  | cons t ts ih =>
    intro g2 base
    obtain ⟨t, es⟩ := t
    have e : base + 3 + 3 * ts.length = base + 3 * (ts.length + 1) := by omega
    rw [List.cons_append]
    simp only [rib_entry_groups, List.length_cons, List.cons_append]
    rw [ih g2 (base + 3), e]

theorem rib_taps_ok_append (self : ClockRib) :
    ∀ (g1 g2 : List ((Nat × Nat × Nat) × List SwitchLocation)) (base : Nat),
      rib_taps_ok self base g1 → rib_taps_ok self (base + 3 * g1.length) g2 →
      rib_taps_ok self base (g1 ++ g2) := by
  intro g1
  induction g1 with
  | nil => intro g2 base _ h; simpa using h
  | cons t ts ih =>
    intro g2 base h1 h2
    obtain ⟨t, es⟩ := t
    have e : base + 3 + 3 * ts.length = base + 3 * (ts.length + 1) := by omega
    rw [List.cons_append]
    simp only [rib_taps_ok, List.length_cons] at h1 h2 ⊢
    exact ⟨h1.1, ih g2 (base + 3) h1.2 (by rw [e]; exact h2)⟩

theorem ribTilesDone_refl (self : ClockRib) (p : Int) (s : SynthState) :
    RibTilesDone self p s s :=
  ⟨[], by simp [rib_nodes_of], by simp [rib_entry_groups], trivial⟩

theorem ribTilesDone_trans (self : ClockRib) (p : Int) (a b c : SynthState)
    (h1 : RibTilesDone self p a b) (h2 : RibTilesDone self p b c) : RibTilesDone self p a c := by
  obtain ⟨g1, hn1, he1, hk1⟩ := h1
  obtain ⟨g2, hn2, he2, hk2⟩ := h2
  have hlen : b.rr_nodes.length = a.rr_nodes.length + 3 * g1.length := by
    rw [hn1, List.length_append, rib_nodes_of_length, List.length_map]
  refine ⟨g1 ++ g2, ?_, ?_, ?_⟩
  · rw [hn2, hn1, List.map_append, rib_nodes_of_append, List.append_assoc, List.length_append,
      rib_nodes_of_length, List.length_map]
  · rw [he2, he1, rib_entry_groups_append, List.flatten_append, List.append_assoc, hlen]
  · exact rib_taps_ok_append self g1 g2 _ hk1 (by rw [← hlen]; exact hk2)

/-- A completed rib instance has appended the nodes and the registry entries of a sequence of
tiles, as long as the node indices fit `int`. -/
theorem rib_instance_tiles_done (fuel : Nat) (self : ClockRib) (grid : DeviceGrid)
    (inst_num : Int) (ctx out : SynthState)
    (h : self.create_rr_nodes_for_one_instance fuel grid inst_num ctx = Outcome.ok out) :
    WhileFit (RibTilesDone self (inst_num + 50)) ctx out := by
  refine rib_instance_ok_rel _ (whileFit_refl (ribTilesDone_refl self _))
    (whileFit_trans (ribTilesDone_trans self _)) fuel self grid inst_num ?_ ctx out h
  intro k j c e hce
  have hlen := tile_body_length fuel self (inst_num + 50) (rib_tile_at self (k, j)).1
    (rib_tile_at self (k, j)).2.1 (rib_tile_at self (k, j)).2.2 c
  rw [hce] at hlen
  simp only [Outcome.state] at hlen
  refine ⟨by omega, fun hfit => ?_⟩
  obtain ⟨d, es, hn, _, hd, hes, hq⟩ := tile_body_state fuel self (inst_num + 50)
    (rib_tile_at self (k, j)).1 (rib_tile_at self (k, j)).2.1 (rib_tile_at self (k, j)).2.2 c
    (by omega)
  rw [hce] at hn hd hes
  refine ⟨[(((rib_tile_at self (k, j)).1, (rib_tile_at self (k, j)).2.1,
    (rib_tile_at self (k, j)).2.2), es)], ?_, ?_, ?_⟩
  · rw [hd rfl] at hn
    simpa [Outcome.state, rib_nodes_of, rib_tile_nodes] using hn
  · simpa [Outcome.state, rib_entry_groups] using hes
  · exact ⟨hq, trivial⟩

theorem rib_entry_groups_length (self : ClockRib) :
    ∀ (gs : List ((Nat × Nat × Nat) × List SwitchLocation)) (base : Nat),
      (rib_entry_groups self base gs).length = gs.length := by
  intro gs
  induction gs with
  | nil => intro _; rfl
  | cons t ts ih =>
    intro base
    obtain ⟨t, es⟩ := t
    simp [rib_entry_groups, ih]

theorem rib_entry_groups_getElem (self : ClockRib) :
    ∀ (gs : List ((Nat × Nat × Nat) × List SwitchLocation)) (base t : Nat)
      (g : List SwitchLocation),
      (rib_entry_groups self base gs)[t]? = some g → rib_taps_ok self base gs →
      ∃ (tile : Nat × Nat × Nat) (es : List SwitchLocation),
        (gs.map Prod.fst)[t]? = some tile ∧
        g = rib_drive_entry self (base + 3 * t) tile.1 tile.2.2 :: es ∧
        ∀ e ∈ es, tap_entry_ok self tile.1 tile.2.1 tile.2.2 ((base + 3 * t + 1 : Nat) : Int)
          ((base + 3 * t + 2 : Nat) : Int) e := by
  intro gs
  induction gs with
  | nil => intro base t g h _; simp [rib_entry_groups] at h
  | cons x xs ih =>
    intro base t g h hok
    obtain ⟨tile, es⟩ := x
    cases t with
    | zero =>
      simp only [rib_entry_groups, List.getElem?_cons_zero, Option.some.injEq] at h
      exact ⟨tile, es, by simp, h.symm, hok.1⟩
    | succ t =>
      simp only [rib_entry_groups, List.getElem?_cons_succ] at h
      obtain ⟨tile2, es2, h1, h2, h3⟩ := ih (base + 3) t g h hok.2
      have eb : base + 3 + 3 * t = base + 3 * (t + 1) := by omega
      rw [eb] at h2 h3
      exact ⟨tile2, es2, by simpa using h1, h2, h3⟩

theorem tiles_getElem (self : ClockRib) (p : Int) (ctx out : SynthState)
    (ts : List (Nat × Nat × Nat))
    (hout : out.rr_nodes = ctx.rr_nodes ++ rib_nodes_of self p ctx.rr_nodes.length ts)
    (t : Nat) (tile : Nat × Nat × Nat) (ht : ts[t]? = some tile) :
    out.rr_nodes[ctx.rr_nodes.length + 3 * t]?
        = some (rib_drive_node self p (ctx.rr_nodes.length + 3 * t) tile) ∧
    out.rr_nodes[ctx.rr_nodes.length + 3 * t + 1]? = some (rib_left_node self p tile) ∧
    out.rr_nodes[ctx.rr_nodes.length + 3 * t + 2]? = some (rib_right_node self p tile) := by
  obtain ⟨h0, h1, h2⟩ := rib_nodes_of_getElem self p ts ctx.rr_nodes.length t tile ht
  rw [hout]
  refine ⟨?_, ?_, ?_⟩
  · rw [List.getElem?_append_right (by omega),
      show ctx.rr_nodes.length + 3 * t - ctx.rr_nodes.length = 3 * t by omega]
    exact h0
  · rw [List.getElem?_append_right (by omega),
      show ctx.rr_nodes.length + 3 * t + 1 - ctx.rr_nodes.length = 3 * t + 1 by omega]
    exact h1
  · rw [List.getElem?_append_right (by omega),
      show ctx.rr_nodes.length + 3 * t + 2 - ctx.rr_nodes.length = 3 * t + 2 by omega]
    exact h2

/-- C19 (amended; referential integrity of a rib instance): if the node list has length `n`
before a call of `ClockRib::create_rr_nodes_for_one_instance` that completes and leaves at most
`2^31` nodes in the node list, the call has generated `T` tiles for some `T`; the `t`-th tile in generation order has its drive, left and right node at
the indices `n + 3 t`, `n + 3 t + 1` and `n + 3 t + 2`; the edges of the tile go from its drive
node to its left and right node; and the registry entries added by the call are the entries of
the tiles in generation order, the entries of tile `t` being a `drive` entry that points to
`n + 3 t` at the coordinates of the drive node, followed by `tap` entries in the row of the
tile that point to `n + 3 t + 1` or `n + 3 t + 2`.  So every edge target and every registered
node index lies in `[n, n + 3 T)` and belongs to the tile it was created for. -/
theorem ClockRib.referential_integrity (fuel : Nat) (self : ClockRib) (grid : DeviceGrid)
    (inst_num : Int) (ctx out : SynthState)
    (h : self.create_rr_nodes_for_one_instance fuel grid inst_num ctx = Outcome.ok out)
    (hfit : out.rr_nodes.length ≤ 2147483648) :
    ∃ groups : List (List SwitchLocation),
      out.rr_nodes.length = ctx.rr_nodes.length + 3 * groups.length ∧
      out.clock_graph.switch_locations
        = ctx.clock_graph.switch_locations ++ groups.flatten ∧
      ∀ (t : Nat) (g : List SwitchLocation), groups[t]? = some g →
        ∃ d l r : t_rr_node,
          out.rr_nodes[ctx.rr_nodes.length + 3 * t]? = some d ∧
          out.rr_nodes[ctx.rr_nodes.length + 3 * t + 1]? = some l ∧
          out.rr_nodes[ctx.rr_nodes.length + 3 * t + 2]? = some r ∧
          d.edges = [(((ctx.rr_nodes.length + 3 * t + 1 : Nat) : Int), self.drive.switch_idx),
                     (((ctx.rr_nodes.length + 3 * t + 2 : Nat) : Int), self.drive.switch_idx)] ∧
          l.edges = [] ∧ r.edges = [] ∧
          ∀ e ∈ g,
            ((ctx.rr_nodes.length : Int) ≤ e.node_index ∧
              e.node_index < ((ctx.rr_nodes.length + 3 * groups.length : Nat) : Int)) ∧
            e.y = d.ylow ∧
            ((e.switch_name = "drive" ∧
                e.node_index = ((ctx.rr_nodes.length + 3 * t : Nat) : Int) ∧ e.x = d.xlow) ∨
             (e.switch_name = "tap" ∧
                (e.node_index = ((ctx.rr_nodes.length + 3 * t + 1 : Nat) : Int) ∨
                 e.node_index = ((ctx.rr_nodes.length + 3 * t + 2 : Nat) : Int)))) := by
  obtain ⟨gs, hn, he, hok⟩ := (rib_instance_tiles_done fuel self grid inst_num ctx out h).2 hfit
  have hlen := rib_entry_groups_length self gs ctx.rr_nodes.length
  refine ⟨rib_entry_groups self ctx.rr_nodes.length gs, ?_, he, ?_⟩
  · rw [hn, List.length_append, rib_nodes_of_length, List.length_map, hlen]
  intro t g hg
  have htlt : t < gs.length := by
    have := (List.getElem?_eq_some_iff.1 hg).1
    omega
  obtain ⟨tile, es, htile, hgeq, htaps⟩ :=
    rib_entry_groups_getElem self gs ctx.rr_nodes.length t g hg hok
  obtain ⟨h0, h1, h2⟩ := tiles_getElem self (inst_num + 50) ctx out _ hn t tile htile
  refine ⟨_, _, _, h0, h1, h2, rfl, rfl, rfl, ?_⟩
  intro e hemem
  rw [hgeq] at hemem
  rw [hlen]
  rcases List.mem_cons.1 hemem with rfl | hes
  · refine ⟨⟨?_, ?_⟩, rfl, Or.inl ⟨rfl, rfl, rfl⟩⟩
    · simp only [rib_drive_entry]; push_cast; omega
    · simp only [rib_drive_entry]; push_cast; omega
  · obtain ⟨_, hname, hy, x, _, _, _, hidx⟩ := htaps e hes
    have hcase : e.node_index = ((ctx.rr_nodes.length + 3 * t + 1 : Nat) : Int) ∨
        e.node_index = ((ctx.rr_nodes.length + 3 * t + 2 : Nat) : Int) := by
      rw [hidx]
      split
      · exact Or.inl rfl
      · exact Or.inr rfl
    refine ⟨⟨?_, ?_⟩, hy, Or.inr ⟨hname, hcase⟩⟩
    · rcases hcase with hc | hc <;> rw [hc] <;> push_cast <;> omega
    · rcases hcase with hc | hc <;> rw [hc] <;> push_cast <;> omega

/-- Witness of C19: the first instance of `rib_example` on a grid of width 6 and height 2. -/
theorem ClockRib.referential_integrity_witness :
    rib_example.create_rr_nodes_for_one_instance 5 ⟨6, 2⟩ 0 ⟨[], ⟨[]⟩⟩
      = Outcome.ok rib_example_out ∧
    rib_example_out.rr_nodes.length ≤ 2147483648 ∧
    ∃ groups : List (List SwitchLocation),
      rib_example_out.rr_nodes.length = 0 + 3 * groups.length ∧
      rib_example_out.clock_graph.switch_locations = [] ++ groups.flatten ∧
      ∀ (t : Nat) (g : List SwitchLocation), groups[t]? = some g →
        ∃ d l r : t_rr_node,
          rib_example_out.rr_nodes[0 + 3 * t]? = some d ∧
          rib_example_out.rr_nodes[0 + 3 * t + 1]? = some l ∧
          rib_example_out.rr_nodes[0 + 3 * t + 2]? = some r ∧
          d.edges = [(((0 + 3 * t + 1 : Nat) : Int), 7), (((0 + 3 * t + 2 : Nat) : Int), 7)] ∧
          l.edges = [] ∧ r.edges = [] ∧
          ∀ e ∈ g,
            (((0 : Nat) : Int) ≤ e.node_index ∧
              e.node_index < ((0 + 3 * groups.length : Nat) : Int)) ∧
            e.y = d.ylow ∧
            ((e.switch_name = "drive" ∧
                e.node_index = ((0 + 3 * t : Nat) : Int) ∧ e.x = d.xlow) ∨
             (e.switch_name = "tap" ∧
                (e.node_index = ((0 + 3 * t + 1 : Nat) : Int) ∨
                 e.node_index = ((0 + 3 * t + 2 : Nat) : Int)))) :=
  ⟨by decide, by decide,
    ClockRib.referential_integrity 5 rib_example ⟨6, 2⟩ 0 ⟨[], ⟨[]⟩⟩ rib_example_out
      (by decide) (by decide)⟩

theorem modify_zero_getElem?_pos {α : Type} (f g : α → α) (l : List α) (i : Nat)
    (hi : 0 < i) : ((l.modify f 0).modify g 0)[i]? = l[i]? := by
  cases l with
  | nil => rfl
  | cons x xs =>
    cases i with
    | zero => omega
    | succ i => simp

/-- The single tile of `rib_unit` on a grid of 2 by 2, generated from a node list of `2^32`
nodes and an empty registry: the drive entry is registered with the node index 0 and the drive
node of the tile, at the index `2^32`, has no edges. -/
theorem rib_unit_registry_wrapped (l : List t_rr_node) (hlen : l.length = 4294967296) :
    ∃ (out : SynthState) (d : t_rr_node),
      rib_unit.create_rr_nodes_for_one_instance 2 ⟨2, 2⟩ 0 ⟨l, ⟨[]⟩⟩ = Outcome.ok out ∧
      out.rr_nodes.length = 4294967296 + 3 * 1 ∧
      out.clock_graph.switch_locations = [⟨"clk", "drive", 1, 0, 0⟩] ∧
      out.rr_nodes[4294967296]? = some d ∧ d.edges = [] ∧
      ¬ ((4294967296 : Int) ≤ 0) := by
  refine ⟨_, chan_node t_rr_type.CHANX 1 0 1 0 50,
    rib_unit_instance_wrapped 0 0 l ⟨[]⟩ hlen, ?_, rfl, ?_, rfl, by decide⟩
  · simp only [List.length_modify, List.length_append, hlen, List.length_cons,
      List.length_nil]
  · rw [modify_zero_getElem?_pos _ _ _ _ (by decide),
      List.getElem?_append_right (by omega), hlen, Nat.sub_self]
    rfl

/-- C19 fails as stated when a node index does not fit `int`: from a node list of `2^32`
nodes the single tile of `rib_unit` on a grid of 2 by 2 is generated, and its three nodes have
the indices `2^32`, `2^32 + 1` and `2^32 + 2`; but `create_chanx_wire` returns `(int)2^32 = 0`
for the drive node, so the drive entry is registered with the node index 0, outside
`[n, n + 3 T)`, and the drive node of the tile has no edges: they were added to the node 0. -/
theorem ClockRib.referential_integrity_wrapped_index :
    ∃ (out : SynthState) (d : t_rr_node),
      rib_unit.create_rr_nodes_for_one_instance 2 ⟨2, 2⟩ 0
        ⟨List.replicate 4294967296 t_rr_node.emplace, ⟨[]⟩⟩ = Outcome.ok out ∧
      out.rr_nodes.length = 4294967296 + 3 * 1 ∧
      out.clock_graph.switch_locations = [⟨"clk", "drive", 1, 0, 0⟩] ∧
      out.rr_nodes[4294967296]? = some d ∧ d.edges = [] ∧
      ¬ ((4294967296 : Int) ≤ 0) :=
  rib_unit_registry_wrapped (List.replicate 4294967296 t_rr_node.emplace)
    (List.length_replicate _ _)

/-! ### The spine instance in closed form (C11) -/

theorem run_list_append_nodes {ι : Type} (f : ι → List t_rr_node) (l : List ι)
    (s : SynthState) :
    run_list (fun i (s : SynthState) => Outcome.ok ⟨s.rr_nodes ++ f i, s.clock_graph⟩) l s
      = Outcome.ok ⟨s.rr_nodes ++ l.flatMap f, s.clock_graph⟩ := by
  induction l generalizing s with
  | nil => simp [run_list]
  | cons i rest ih =>
    simp only [run_list, List.flatMap_cons]
    rw [ih]
    simp [List.append_assoc]

/-- The outcome of one spine instance, in closed form.  With positive repeat steps below
`2^31`, grid dimensions at most `2^31` and a budget above both, the call completes, appends
the nodes `spine_nodes` and leaves the registry as it was. -/
theorem spine_instance_eq (fuel : Nat) (self : ClockSpine) (grid : DeviceGrid) (inst_num : Int)
    (ctx : SynthState)
    (hrx0 : 0 < self.repeat_.x) (hrx1 : self.repeat_.x < 2147483648)
    (hry0 : 0 < self.repeat_.y) (hry1 : self.repeat_.y < 2147483648)
    (hW : grid.width % 18446744073709551616 ≤ 2147483648)
    (hH : grid.height % 18446744073709551616 ≤ 2147483648)
    (hfW : grid.width % 18446744073709551616 < fuel)
    (hfH : grid.height % 18446744073709551616 < fuel) :
    self.create_rr_nodes_for_one_instance fuel grid inst_num ctx
      = Outcome.ok ⟨ctx.rr_nodes ++ spine_nodes self grid inst_num, ctx.clock_graph⟩ := by
  have hNy := steps_below_le (to_unsigned self.y_chan_wire.end_) self.repeat_.y.toNat
    (grid.height % 18446744073709551616) (by omega)
  have hNx := steps_below_le (to_unsigned self.y_chan_wire.position) self.repeat_.x.toNat
    (grid.width % 18446744073709551616) (by omega)
  unfold ClockSpine.create_rr_nodes_for_one_instance
  simp only []
  rw [for_loop_unsigned_pair _ self.y_chan_wire.start (to_unsigned self.y_chan_wire.end_)
    self.repeat_.y (grid.height % 18446744073709551616) fuel ctx hry0 hry1 hH (by omega),
    run_list_map]
  rw [run_list_congr _
    (fun (k : Nat) (s : SynthState) => Outcome.ok ⟨s.rr_nodes ++
      (List.range (spine_num_cols self grid)).map (fun j => spine_node_at self inst_num k j),
      s.clock_graph⟩)]
  · exact run_list_append_nodes _ _ ctx
  · intro k _ s
    dsimp only
    rw [for_loop_unsigned _ _ self.repeat_.x (grid.width % 18446744073709551616) fuel s hrx0
      hrx1 hW (by omega), run_list_map]
    rw [run_list_congr _ (fun (j : Nat) (s : SynthState) =>
      Outcome.ok ⟨s.rr_nodes ++ [spine_node_at self inst_num k j], s.clock_graph⟩) _
      (fun j _ s => spine_tile_state _ _ _ _ s),
      run_list_append_nodes (fun j : Nat => [spine_node_at self inst_num k j])]
    simp only [spine_num_cols]
    rw [← List.map_eq_flatMap]

theorem getElem?_flatMap_range_map {α : Type} (f : Nat → Nat → α) (b : Nat) :
    ∀ (a k j : Nat), k < a → j < b →
      ((List.range a).flatMap (fun k => (List.range b).map (f k)))[k * b + j]?
        = some (f k j) := by
  intro a
  induction a with
  | zero => intro k j hk _; omega
  | succ a ih =>
    intro k j hk hj
    rw [List.range_succ, List.flatMap_append, List.flatMap_singleton]
    have hlen : ((List.range a).flatMap (fun k => (List.range b).map (f k))).length = a * b := by
      rw [length_flatMap_map (fun k j => f k j)]
      simp
    by_cases hka : k < a
    · have hlt : k * b + j < a * b := by
        calc k * b + j < k * b + b := by omega
          _ = (k + 1) * b := by rw [Nat.add_mul, Nat.one_mul]
          _ ≤ a * b := Nat.mul_le_mul_right b hka
      rw [List.getElem?_append_left (by rw [hlen]; exact hlt)]
      exact ih k j hka hj
    · have hk' : k = a := by omega
      subst hk'
      rw [List.getElem?_append_right (by rw [hlen]; omega), hlen,
        show k * b + j - k * b = j by omega, List.getElem?_map,
        List.getElem?_range hj]
      rfl

/-- The number of iterations of a counting loop with bound `w`, written the way the claims
count them: the number of `k >= 0` with `a + k * d < w`. -/
theorem steps_below_eq_ncard_bound (a d : Int) (w : Nat) (ha0 : 0 ≤ a) (ha1 : a < 2147483648)
    (hd : 0 < d) :
    steps_below (to_unsigned a) d.toNat w
      = Set.ncard {k : ℕ | a + (k : Int) * d < (w : Int)} := by
  rw [steps_below_eq_ncard _ _ _ (by omega), to_unsigned_int_nonneg a ha0 ha1]
  congr 1
  ext k
  simp only [Set.mem_setOf_eq]
  have h1 : ((a.toNat + k * d.toNat : Nat) : Int) = a + (k : Int) * d := by
    push_cast
    rw [Int.toNat_of_nonneg ha0, Int.toNat_of_nonneg (le_of_lt hd)]
  constructor
  · intro h
    have : ((a.toNat + k * d.toNat : Nat) : Int) < (w : Int) := by exact_mod_cast h
    rw [h1] at this
    exact this
  · intro h
    have : ((a.toNat + k * d.toNat : Nat) : Int) < (w : Int) := by rw [h1]; exact h
    exact_mod_cast this

/-- C11 (amended): for a spine network whose `int` fields hold 32-bit values, with
`repeat.x > 0`, `repeat.y > 0`, non-negative `span.end` and `position`, on a grid with
`W <= 2^31` and `H <= 2^31`, one call of `ClockSpine::create_rr_nodes_for_one_instance` with a
budget above `W` and `H` completes and appends exactly `Ny * Nx` nodes, `Ny` the number of
`k >= 0` with `span.end + k * repeat.y < H` and `Nx` the number of `j >= 0` with
`position + j * repeat.x < W` (no `-1` margin); the node for `(k, j)`, at index
`n + k * Nx + j`, has type `CHANY`, capacity 1 and coordinates `(x, y_start, x, y_end)` with
`y_end = span.end + k * repeat.y`, `x = position + j * repeat.x` and
`y_start = span.start + k * repeat.y` reduced to a 32-bit `int`, that is `y_start` itself
whenever it is representable as `int`. -/
theorem ClockSpine.one_instance_nodes (self : ClockSpine) (grid : DeviceGrid) (inst_num : Int)
    (ctx : SynthState) (fuel : Nat) (hty : self.int_fields)
    (hrx : 0 < self.repeat_.x) (hry : 0 < self.repeat_.y)
    (hend : 0 ≤ self.y_chan_wire.end_) (hpos : 0 ≤ self.y_chan_wire.position)
    (hW : grid.width ≤ 2147483648) (hH : grid.height ≤ 2147483648)
    (hfW : grid.width < fuel) (hfH : grid.height < fuel) :
    ∃ out : SynthState,
      self.create_rr_nodes_for_one_instance fuel grid inst_num ctx = Outcome.ok out ∧
      out.rr_nodes.length = ctx.rr_nodes.length +
        Set.ncard {k : ℕ | self.y_chan_wire.end_ + (k : Int) * self.repeat_.y
            < (grid.height : Int)} *
        Set.ncard {j : ℕ | self.y_chan_wire.position + (j : Int) * self.repeat_.x
            < (grid.width : Int)} ∧
      ∀ k j : Nat,
        k < Set.ncard {k : ℕ | self.y_chan_wire.end_ + (k : Int) * self.repeat_.y
            < (grid.height : Int)} →
        j < Set.ncard {j : ℕ | self.y_chan_wire.position + (j : Int) * self.repeat_.x
            < (grid.width : Int)} →
        ∃ nd : t_rr_node,
          out.rr_nodes[ctx.rr_nodes.length +
            (k * Set.ncard {j : ℕ | self.y_chan_wire.position + (j : Int) * self.repeat_.x
              < (grid.width : Int)} + j)]? = some nd ∧
          nd.type = t_rr_type.CHANY ∧ nd.capacity = 1 ∧
          (nd.xlow, nd.ylow, nd.xhigh, nd.yhigh)
            = (self.y_chan_wire.position + (j : Int) * self.repeat_.x,
               wrap_int (self.y_chan_wire.start + (k : Int) * self.repeat_.y),
               self.y_chan_wire.position + (j : Int) * self.repeat_.x,
               self.y_chan_wire.end_ + (k : Int) * self.repeat_.y) ∧
          (-2147483648 ≤ self.y_chan_wire.start + (k : Int) * self.repeat_.y →
            self.y_chan_wire.start + (k : Int) * self.repeat_.y < 2147483648 →
            (nd.xlow, nd.ylow, nd.xhigh, nd.yhigh)
              = (self.y_chan_wire.position + (j : Int) * self.repeat_.x,
                 self.y_chan_wire.start + (k : Int) * self.repeat_.y,
                 self.y_chan_wire.position + (j : Int) * self.repeat_.x,
                 self.y_chan_wire.end_ + (k : Int) * self.repeat_.y)) := by
  obtain ⟨_, ⟨_, he1⟩, ⟨_, hp1⟩, ⟨_, hrx1⟩, ⟨_, hry1⟩⟩ := hty
  have hmW : grid.width % 18446744073709551616 = grid.width := Nat.mod_eq_of_lt (by omega)
  have hmH : grid.height % 18446744073709551616 = grid.height := Nat.mod_eq_of_lt (by omega)
  have hNy : spine_num_rows self grid
      = Set.ncard {k : ℕ | self.y_chan_wire.end_ + (k : Int) * self.repeat_.y
          < (grid.height : Int)} := by
    unfold spine_num_rows
    rw [hmH]
    exact steps_below_eq_ncard_bound _ _ _ hend he1 hry
  have hNx : spine_num_cols self grid
      = Set.ncard {j : ℕ | self.y_chan_wire.position + (j : Int) * self.repeat_.x
          < (grid.width : Int)} := by
    unfold spine_num_cols
    rw [hmW]
    exact steps_below_eq_ncard_bound _ _ _ hpos hp1 hrx
  rw [← hNy, ← hNx]
  refine ⟨_, spine_instance_eq fuel self grid inst_num ctx hrx hrx1 hry hry1 (by omega)
    (by omega) (by omega) (by omega), ?_, ?_⟩
  · simp only [List.length_append, spine_nodes]
    rw [length_flatMap_map (fun k j => spine_node_at self inst_num k j)]
    simp
  · intro k j hk hj
    have hkb := (lt_steps_below_iff _ _ _ k (by omega)).1 hk
    have hjb := (lt_steps_below_iff _ _ _ j (by omega)).1 hj
    rw [hmH] at hkb
    rw [hmW] at hjb
    have hx : to_int (to_unsigned self.y_chan_wire.position + j * self.repeat_.x.toNat)
        = self.y_chan_wire.position + (j : Int) * self.repeat_.x := by
      rw [to_int_of_lt _ (by omega), to_unsigned_int_nonneg _ hpos hp1]
      push_cast
      rw [Int.toNat_of_nonneg hpos, Int.toNat_of_nonneg (le_of_lt hrx)]
    have hye : to_int (to_unsigned self.y_chan_wire.end_ + k * self.repeat_.y.toNat)
        = self.y_chan_wire.end_ + (k : Int) * self.repeat_.y := by
      rw [to_int_of_lt _ (by omega), to_unsigned_int_nonneg _ hend he1]
      push_cast
      rw [Int.toNat_of_nonneg hend, Int.toNat_of_nonneg (le_of_lt hry)]
    have hcoord : ((spine_node_at self inst_num k j).xlow, (spine_node_at self inst_num k j).ylow,
        (spine_node_at self inst_num k j).xhigh, (spine_node_at self inst_num k j).yhigh)
          = (self.y_chan_wire.position + (j : Int) * self.repeat_.x,
             wrap_int (self.y_chan_wire.start + (k : Int) * self.repeat_.y),
             self.y_chan_wire.position + (j : Int) * self.repeat_.x,
             self.y_chan_wire.end_ + (k : Int) * self.repeat_.y) := by
      simp only [spine_node_at, chan_node, hx, hye]
      rfl
    refine ⟨spine_node_at self inst_num k j, ?_, rfl, rfl, hcoord, ?_⟩
    · rw [List.getElem?_append_right (by omega),
        show ctx.rr_nodes.length + (k * spine_num_cols self grid + j) - ctx.rr_nodes.length
          = k * spine_num_cols self grid + j by omega]
      exact getElem?_flatMap_range_map (fun k j => spine_node_at self inst_num k j) _ _ k j hk hj
    · intro h0 h1
      rw [hcoord, wrap_int_eq _ h0 h1]

/-- Witness of C11: `spine_example` on a grid of width 4 and height 7, budget 8. -/
theorem ClockSpine.one_instance_nodes_witness :
    ∃ out : SynthState,
      spine_example.create_rr_nodes_for_one_instance 8 ⟨4, 7⟩ 0 ⟨[], ⟨[]⟩⟩ = Outcome.ok out ∧
      out.rr_nodes.length = (⟨[], ⟨[]⟩⟩ : SynthState).rr_nodes.length +
        Set.ncard {k : ℕ | spine_example.y_chan_wire.end_ + (k : Int) * spine_example.repeat_.y
            < (((⟨4, 7⟩ : DeviceGrid).height : Nat) : Int)} *
        Set.ncard {j : ℕ | spine_example.y_chan_wire.position
            + (j : Int) * spine_example.repeat_.x
            < (((⟨4, 7⟩ : DeviceGrid).width : Nat) : Int)} ∧
      ∀ k j : Nat,
        k < Set.ncard {k : ℕ | spine_example.y_chan_wire.end_
            + (k : Int) * spine_example.repeat_.y
            < (((⟨4, 7⟩ : DeviceGrid).height : Nat) : Int)} →
        j < Set.ncard {j : ℕ | spine_example.y_chan_wire.position
            + (j : Int) * spine_example.repeat_.x
            < (((⟨4, 7⟩ : DeviceGrid).width : Nat) : Int)} →
        ∃ nd : t_rr_node,
          out.rr_nodes[(⟨[], ⟨[]⟩⟩ : SynthState).rr_nodes.length +
            (k * Set.ncard {j : ℕ | spine_example.y_chan_wire.position
              + (j : Int) * spine_example.repeat_.x
              < (((⟨4, 7⟩ : DeviceGrid).width : Nat) : Int)} + j)]? = some nd ∧
          nd.type = t_rr_type.CHANY ∧ nd.capacity = 1 ∧
          (nd.xlow, nd.ylow, nd.xhigh, nd.yhigh)
            = (spine_example.y_chan_wire.position + (j : Int) * spine_example.repeat_.x,
               wrap_int (spine_example.y_chan_wire.start + (k : Int) * spine_example.repeat_.y),
               spine_example.y_chan_wire.position + (j : Int) * spine_example.repeat_.x,
               spine_example.y_chan_wire.end_ + (k : Int) * spine_example.repeat_.y) ∧
          (-2147483648 ≤ spine_example.y_chan_wire.start
              + (k : Int) * spine_example.repeat_.y →
            spine_example.y_chan_wire.start + (k : Int) * spine_example.repeat_.y
              < 2147483648 →
            (nd.xlow, nd.ylow, nd.xhigh, nd.yhigh)
              = (spine_example.y_chan_wire.position + (j : Int) * spine_example.repeat_.x,
                 spine_example.y_chan_wire.start + (k : Int) * spine_example.repeat_.y,
                 spine_example.y_chan_wire.position + (j : Int) * spine_example.repeat_.x,
                 spine_example.y_chan_wire.end_ + (k : Int) * spine_example.repeat_.y)) :=
  ClockSpine.one_instance_nodes spine_example ⟨4, 7⟩ 0 ⟨[], ⟨[]⟩⟩ 8 (by decide) (by decide)
    (by decide) (by decide) (by decide) (by decide) (by decide) (by decide) (by decide)

theorem spine_instance_not_ok_of_tall (fuel : Nat) (self : ClockSpine) (grid : DeviceGrid)
    (inst_num : Int) (ctx : SynthState)
    (hH : 4294967296 ≤ grid.height % 18446744073709551616) :
    (self.create_rr_nodes_for_one_instance fuel grid inst_num ctx).isOk = false := by
  unfold ClockSpine.create_rr_nodes_for_one_instance
  exact for_loop_not_ok _ _ _ (fun ys : Nat × Nat => ys.2 < 4294967296)
    (fun ys hys => ⟨by simp only [decide_eq_true_eq]; omega,
      by dsimp only; exact to_unsigned_lt _⟩)
    fuel _ ctx (by dsimp only; exact to_unsigned_lt _)

/-- C11 fails as stated on a grid of height `2^32`: the 32-bit `y_end` is below
`grid.height()` whatever its value, so the outer loop never ends and the call never completes,
although the network (`repeat = (2, 3)`, span `0..2`, position 0) meets every condition of the
claim. -/
theorem ClockSpine.one_instance_tall_grid_diverges :
    (0 < spine_example.repeat_.x ∧ 0 < spine_example.repeat_.y ∧
      0 ≤ spine_example.y_chan_wire.start ∧ 0 ≤ spine_example.y_chan_wire.end_ ∧
      0 ≤ spine_example.y_chan_wire.position) ∧
    ¬ ∃ (fuel : Nat) (out : SynthState),
      spine_example.create_rr_nodes_for_one_instance fuel ⟨1, 4294967296⟩ 0 ⟨[], ⟨[]⟩⟩
        = Outcome.ok out := by
  refine ⟨by decide, ?_⟩
  rintro ⟨fuel, out, h⟩
  have hno := spine_instance_not_ok_of_tall fuel spine_example ⟨1, 4294967296⟩ 0 ⟨[], ⟨[]⟩⟩
    (by decide)
  rw [h] at hno
  simp [Outcome.isOk] at hno

/-! ### Repeat steps are not validated; termination (C12, C15) -/

theorem for_loop_no_error {ι σ : Type} (cond : ι → Bool) (step : ι → ι)
    (body : ι → σ → Outcome σ) (hbody : ∀ i s, (body i s).isError = false) :
    ∀ (fuel : Nat) (i : ι) (s : σ), (for_loop cond step body fuel i s).isError = false := by
  intro fuel
  induction fuel with
  | zero => intro _ _; rfl
  | succ n ih =>
    intro i s
    unfold for_loop
    by_cases hc : cond i = true
    · simp only [hc, if_true]
      have hb := hbody i s
      cases hbs : body i s with
      | ok s1 => exact ih (step i) s1
      | error e s1 => rw [hbs] at hb; exact hb
      | timeout s1 => rfl
      | undefined s1 => rfl
    · simp only [hc]
      rfl

/-- A loop whose step leaves the loop variable where it is, entered with a true test, never
completes. -/
theorem for_loop_stuck_not_ok {ι σ : Type} (cond : ι → Bool) (step : ι → ι)
    (body : ι → σ → Outcome σ) (fuel : Nat) (i : ι) (s : σ) (hc : cond i = true)
    (hs : step i = i) : (for_loop cond step body fuel i s).isOk = false :=
  for_loop_not_ok cond step body (fun j => j = i)
    (fun j hj => by subst hj; exact ⟨hc, hs⟩) fuel i s rfl

theorem to_unsigned_add_zero (u : Nat) (h : u < 4294967296) :
    to_unsigned ((u : Int) + 0) = u := by
  unfold to_unsigned
  omega

theorem record_tap_locations_no_error (fuel : Nat) (self : ClockRib) (x_start x_end y : Nat)
    (left right : Int) (g : ClockRRGraph) :
    (self.record_tap_locations fuel x_start x_end y left right g).isError = false := by
  unfold ClockRib.record_tap_locations
  apply for_loop_no_error
  intro x g1
  dsimp only
  split <;> rfl

theorem tile_body_no_error (fuel : Nat) (self : ClockRib) (ptc_num : Int)
    (x_start x_end y : Nat) (ctx : SynthState) :
    (self.tile_body fuel ptc_num x_start x_end y ctx).isError = false := by
  unfold ClockRib.tile_body
  simp only [create_chanx_wire_eq]
  split
  · split <;> rfl
  · rename_i e g heq
    have h := congrArg Outcome.isError heq
    rw [record_tap_locations_no_error] at h
    simp [Outcome.isError] at h
  · rfl
  · rfl

theorem tile_body_not_ok (fuel : Nat) (self : ClockRib) (ptc_num : Int)
    (x_start x_end y : Nat) (ctx : SynthState)
    (htap : ∀ left right g,
      (self.record_tap_locations fuel x_start x_end y left right g).isOk = false) :
    (self.tile_body fuel ptc_num x_start x_end y ctx).isOk = false := by
  unfold ClockRib.tile_body
  simp only [create_chanx_wire_eq]
  split
  · rename_i g heq
    have h := congrArg Outcome.isOk heq
    rw [htap] at h
    simp [Outcome.isOk] at h
  · rfl
  · rfl
  · rfl

theorem record_tap_locations_stuck (fuel : Nat) (self : ClockRib) (x_start x_end y : Nat)
    (left right : Int) (g : ClockRRGraph) (hinc : self.tap.increment = 0)
    (hfirst : to_unsigned ((x_start : Int) + self.tap.offset) ≤ x_end) :
    (self.record_tap_locations fuel x_start x_end y left right g).isOk = false := by
  unfold ClockRib.record_tap_locations
  apply for_loop_stuck_not_ok
  · simpa using hfirst
  · dsimp only
    rw [hinc]
    exact to_unsigned_add_zero _ (to_unsigned_lt _)

theorem rib_instance_zero_step_not_ok (fuel : Nat) (self : ClockRib) (grid : DeviceGrid)
    (inst_num : Int) (ctx : SynthState)
    (hzero : self.repeat_.x = 0 ∨ self.repeat_.y = 0)
    (hx : to_unsigned self.x_chan_wire.end_ < size_sub grid.width 1)
    (hy : to_unsigned self.x_chan_wire.position < size_sub grid.height 1) :
    (self.create_rr_nodes_for_one_instance fuel grid inst_num ctx).isOk = false := by
  unfold ClockRib.create_rr_nodes_for_one_instance
  rcases hzero with h0 | h0
  · apply for_loop_stuck_not_ok
    · simpa using hx
    · dsimp only
      rw [h0, to_unsigned_add_zero _ (to_unsigned_lt _),
        to_unsigned_add_zero _ (to_unsigned_lt _)]
  · apply for_loop_first_not_ok
    · simpa using hx
    · dsimp only
      apply for_loop_stuck_not_ok
      · simpa using hy
      · dsimp only
        rw [h0, to_unsigned_add_zero _ (to_unsigned_lt _)]

theorem spine_instance_zero_step_not_ok (fuel : Nat) (self : ClockSpine) (grid : DeviceGrid)
    (inst_num : Int) (ctx : SynthState)
    (hzero : self.repeat_.x = 0 ∨ self.repeat_.y = 0)
    (hy : to_unsigned self.y_chan_wire.end_ < grid.height % 18446744073709551616)
    (hx : to_unsigned self.y_chan_wire.position < grid.width % 18446744073709551616) :
    (self.create_rr_nodes_for_one_instance fuel grid inst_num ctx).isOk = false := by
  unfold ClockSpine.create_rr_nodes_for_one_instance
  rcases hzero with h0 | h0
  · apply for_loop_first_not_ok
    · simpa using hy
    · dsimp only
      apply for_loop_stuck_not_ok
      · simpa using hx
      · dsimp only
        rw [h0, to_unsigned_add_zero _ (to_unsigned_lt _)]
  · apply for_loop_stuck_not_ok
    · simpa using hy
    · dsimp only
      rw [h0, to_unsigned_add_zero _ (to_unsigned_lt _),
        to_unsigned_add_zero _ (to_unsigned_lt _)]

theorem rib_instance_no_error (fuel : Nat) (self : ClockRib) (grid : DeviceGrid)
    (inst_num : Int) (ctx : SynthState) :
    (self.create_rr_nodes_for_one_instance fuel grid inst_num ctx).isError = false := by
  unfold ClockRib.create_rr_nodes_for_one_instance
  apply for_loop_no_error
  intro xs c
  apply for_loop_no_error
  intro y c1
  exact tile_body_no_error _ _ _ _ _ _ _

theorem spine_instance_no_error (fuel : Nat) (self : ClockSpine) (grid : DeviceGrid)
    (inst_num : Int) (ctx : SynthState) :
    (self.create_rr_nodes_for_one_instance fuel grid inst_num ctx).isError = false := by
  unfold ClockSpine.create_rr_nodes_for_one_instance
  apply for_loop_no_error
  intro ys c
  apply for_loop_no_error
  intro x c1
  rw [spine_tile_state]
  rfl

/-- C12 (amended): the code does not validate the repeat step. On a rib or spine network
`create_rr_nodes_for_clock_network_wires` never raises an error, whatever the repeat step; and
when one of the repeat steps is 0, the first tile fits in the grid and `num_inst >= 1`, the call
never completes: a loop variable does not advance and the loop test stays true. -/
theorem ClockNetwork.repeat_step_not_validated (net : ClockNetwork) (grid : DeviceGrid)
    (ctx : SynthState) (fuel : Nat) (hnet : net.is_tiled) :
    (net.create_rr_nodes_for_clock_network_wires fuel grid ctx).isError = false ∧
    (net.zero_step → net.first_tile_fits grid → 1 ≤ net.get_num_inst →
      (net.create_rr_nodes_for_clock_network_wires fuel grid ctx).isOk = false) := by
  unfold ClockNetwork.create_rr_nodes_for_clock_network_wires
  constructor
  · apply for_loop_no_error
    intro i c
    cases net with
    | Rib r => exact rib_instance_no_error _ _ _ _ _
    | Spine s => exact spine_instance_no_error _ _ _ _ _
    | HTree h => exact hnet.elim
  · intro hzero hfit hinst
    apply for_loop_first_not_ok
    · simpa using hinst
    · cases net with
      | Rib r => exact rib_instance_zero_step_not_ok _ _ _ _ _ hzero hfit.1 hfit.2
      | Spine s => exact spine_instance_zero_step_not_ok _ _ _ _ _ hzero hfit.1 hfit.2
      | HTree h => exact hnet.elim

/-- Witness of C12: `rib_zero_step` (column step 0) on a grid of width 6 and height 2 with a
budget of 5: neither an error nor a completed call. -/
theorem ClockNetwork.repeat_step_not_validated_witness :
    ((ClockNetwork.Rib rib_zero_step).create_rr_nodes_for_clock_network_wires 5 ⟨6, 2⟩
        ⟨[], ⟨[]⟩⟩).isError = false ∧
    ((ClockNetwork.Rib rib_zero_step).create_rr_nodes_for_clock_network_wires 5 ⟨6, 2⟩
        ⟨[], ⟨[]⟩⟩).isOk = false :=
  ⟨(ClockNetwork.repeat_step_not_validated (ClockNetwork.Rib rib_zero_step) ⟨6, 2⟩ ⟨[], ⟨[]⟩⟩ 5
      (by decide)).1,
   (ClockNetwork.repeat_step_not_validated (ClockNetwork.Rib rib_zero_step) ⟨6, 2⟩ ⟨[], ⟨[]⟩⟩ 5
      (by decide)).2 (by decide) (by simp only [ClockNetwork.first_tile_fits]; decide)
      (by decide)⟩

/-- C12 fails as stated: `rib_negative_step` has `repeat.x = -1` and `num_inst = 2`, and on a
grid of width 6 and height 2 `create_rr_nodes_for_clock_network_wires` completes without an
error and appends 24 nodes: the 32-bit `x_end` runs through 3, 2, 1, 0 and then wraps above
the grid width, which ends the loop. -/
theorem ClockNetwork.negative_step_tiles_grid :
    (rib_negative_step.repeat_.x ≤ 0 ∧ 1 ≤ rib_negative_step.num_inst_) ∧
    ∃ out : SynthState,
      (ClockNetwork.Rib rib_negative_step).create_rr_nodes_for_clock_network_wires 8 ⟨6, 2⟩
        ⟨[], ⟨[]⟩⟩ = Outcome.ok out ∧ out.rr_nodes.length = 24 := by
  refine ⟨by decide, _, rfl, ?_⟩
  decide

/-- C15 (amended): under `bounded_tiling` (rib or spine network with 32-bit `int` fields,
`repeat.x > 0`, `repeat.y > 0`, for a rib also `tap.increment > 0`, grid with
`1 <= W <= 2^31` and `1 <= H <= 2^31`) and, for a rib, a node list of `n` nodes with
`n + 3 * W * H <= 2^31` (so that every node index is representable as `int`),
`create_rr_nodes_for_one_instance` terminates: there is one final state that every run with a
budget above `W` and `H` iterations per loop returns, and it holds at most `3 * W * H` new
nodes. -/
theorem ClockNetwork.one_instance_terminates (net : ClockNetwork) (grid : DeviceGrid)
    (inst_num : Int) (ctx : SynthState) (hnet : net.bounded_tiling grid)
    (hnodes : net.indices_fit (ctx.rr_nodes.length + 3 * (grid.width * grid.height))) :
    ∃ out : SynthState,
      (∀ fuel : Nat, grid.width < fuel → grid.height < fuel →
        net.create_rr_nodes_for_one_instance fuel grid inst_num ctx = Outcome.ok out) ∧
      out.rr_nodes.length ≤ ctx.rr_nodes.length + 3 * (grid.width * grid.height) := by
  cases net with
  | Rib r =>
    obtain ⟨hty, hrx, hry, hinc, ⟨hW0, hW1⟩, hH0, hH1⟩ := hnet
    obtain ⟨_, _, _, ⟨_, hrx1⟩, ⟨_, hry1⟩, _, _, ⟨_, hinc1⟩⟩ := hty
    have hsW := size_sub_one grid.width hW0 hW1
    have hsH := size_sub_one grid.height hH0 hH1
    have h1 := steps_below_le (to_unsigned r.x_chan_wire.end_) r.repeat_.x.toNat
      (size_sub grid.width 1) (by omega)
    have h2 := steps_below_le (to_unsigned r.x_chan_wire.position) r.repeat_.y.toNat
      (size_sub grid.height 1) (by omega)
    have h3 := Nat.mul_le_mul (h1.trans (by omega : size_sub grid.width 1 ≤ grid.width))
      (h2.trans (by omega : size_sub grid.height 1 ≤ grid.height))
    have hfit : ctx.rr_nodes.length + 3 * (grid.width * grid.height) ≤ 2147483648 := hnodes
    have htiles : ctx.rr_nodes.length + 3 * (rib_tiles r grid).length ≤ 2147483648 := by
      simp only [rib_tiles_length, rib_num_columns, rib_num_rows]
      omega
    refine ⟨_, fun fuel hfW hfH => rib_instance_eq fuel r grid inst_num ctx hrx hrx1 hry hry1
      hinc hinc1 (by omega) (by omega) (by omega) (by omega) htiles, ?_⟩
    simp only [List.length_append, rib_nodes_of_length, rib_tiles_length, rib_num_columns,
      rib_num_rows]
    omega
  | Spine s =>
    obtain ⟨hty, hrx, hry, ⟨hW0, hW1⟩, hH0, hH1⟩ := hnet
    obtain ⟨_, _, _, ⟨_, hrx1⟩, ⟨_, hry1⟩⟩ := hty
    have hmW : grid.width % 18446744073709551616 = grid.width := Nat.mod_eq_of_lt (by omega)
    have hmH : grid.height % 18446744073709551616 = grid.height := Nat.mod_eq_of_lt (by omega)
    refine ⟨_, fun fuel hfW hfH => spine_instance_eq fuel s grid inst_num ctx hrx hrx1 hry hry1
      (by omega) (by omega) (by omega) (by omega), ?_⟩
    simp only [List.length_append, spine_nodes]
    rw [length_flatMap_map (fun k j => spine_node_at s inst_num k j)]
    simp only [List.length_range, spine_num_rows, spine_num_cols, hmW, hmH]
    have h1 := steps_below_le (to_unsigned s.y_chan_wire.end_) s.repeat_.y.toNat
      grid.height (by omega)
    have h2 := steps_below_le (to_unsigned s.y_chan_wire.position) s.repeat_.x.toNat
      grid.width (by omega)
    have h3 := Nat.mul_le_mul h2 h1
    rw [Nat.mul_comm] at h3
    omega
  | HTree h => exact hnet.elim

/-- Witness of C15: `rib_example` on a grid of width 6 and height 4. -/
theorem ClockNetwork.one_instance_terminates_witness :
    ∃ out : SynthState,
      (∀ fuel : Nat, (⟨6, 4⟩ : DeviceGrid).width < fuel → (⟨6, 4⟩ : DeviceGrid).height < fuel →
        (ClockNetwork.Rib rib_example).create_rr_nodes_for_one_instance fuel ⟨6, 4⟩ 0
          ⟨[], ⟨[]⟩⟩ = Outcome.ok out) ∧
      out.rr_nodes.length ≤ (⟨[], ⟨[]⟩⟩ : SynthState).rr_nodes.length
        + 3 * ((⟨6, 4⟩ : DeviceGrid).width * (⟨6, 4⟩ : DeviceGrid).height) :=
  ClockNetwork.one_instance_terminates (ClockNetwork.Rib rib_example) ⟨6, 4⟩ 0 ⟨[], ⟨[]⟩⟩
    (by decide) (by decide)

/-- C15 fails as stated: `rib_zero_tap` has `repeat.x = 3 > 0` and `repeat.y = 2 > 0` but
`tap.increment = 0`; on a grid of width 6 and height 2 the tap loop of the first tile starts at
`x = 1 <= x_end = 3` and never advances, so the call never completes. -/
theorem ClockRib.zero_tap_increment_diverges :
    (0 < rib_zero_tap.repeat_.x ∧ 0 < rib_zero_tap.repeat_.y) ∧
    ¬ ∃ (fuel : Nat) (out : SynthState),
      rib_zero_tap.create_rr_nodes_for_one_instance fuel ⟨6, 2⟩ 0 ⟨[], ⟨[]⟩⟩
        = Outcome.ok out := by
  refine ⟨by decide, ?_⟩
  rintro ⟨fuel, out, h⟩
  have hno := rib_instance_first_tile_not_ok fuel rib_zero_tap ⟨6, 2⟩ 0 ⟨[], ⟨[]⟩⟩
    (by decide) (by decide)
    (tile_body_not_ok fuel rib_zero_tap _ _ _ _ _
      (fun left right g => record_tap_locations_stuck fuel rib_zero_tap _ _ _ left right g rfl
        (by decide)))
  rw [h] at hno
  simp [Outcome.isOk] at hno

/-! ### The line after the header (C20, C17) -/

theorem header_loop_append (env : PlaceEnv) (verify : Bool) (grid : DeviceGrid)
    (more : List (List Char)) (n : Nat) (a b : Bool) (hab : (a && b) = false) :
    ∀ (pre : List (List Char)) (n0 : Nat) (a0 b0 : Bool),
      read_place_header_loop env verify grid pre n0 a0 b0 = ReadOutcome.ok ⟨[], n, a, b⟩ →
      read_place_header_loop env verify grid (pre ++ more) n0 a0 b0
        = read_place_header_loop env verify grid more n a b := by
  intro pre
  induction pre with
  | nil =>
    intro n0 a0 b0 h
    simp only [read_place_header_loop, ReadOutcome.ok.injEq, HeaderState.mk.injEq,
      true_and] at h
    obtain ⟨h1, h2, h3⟩ := h
    subst h1 h2 h3
    rfl
  | cons line rest ih =>
    intro n0 a0 b0 h
    simp only [List.cons_append, read_place_header_loop] at h ⊢
    by_cases hc : (!a0 || !b0) = true
    · simp only [hc, if_true] at h ⊢
      cases hl : read_place_header_line env verify grid (n0 + 1) line a0 b0 with
      | ok flags =>
        rw [hl] at h
        exact ih _ _ _ h
      | error e => rw [hl] at h; cases h
      | undefined => rw [hl] at h; cases h
    · simp only [hc] at h
      simp only [Bool.false_eq_true, if_false, ReadOutcome.ok.injEq, HeaderState.mk.injEq] at h
      obtain ⟨_, _, h3, h4⟩ := h
      subst h3 h4
      simp at hc
      simp [hc] at hab

theorem header_loop_skips_next (env : PlaceEnv) (verify : Bool) (grid : DeviceGrid)
    (hdr L : List Char) (post : List (List Char)) (n : Nat) (a b : Bool)
    (hab : (a && b) = false)
    (hhdr : read_place_header_loop env verify grid [hdr] n a b
      = ReadOutcome.ok ⟨[], n + 1, true, true⟩) :
    read_place_header_loop env verify grid (hdr :: L :: post) n a b
      = ReadOutcome.ok ⟨post, n + 1, true, true⟩ := by
  have hc : (!a || !b) = true := by
    cases a <;> cases b <;> simp_all
  simp only [read_place_header_loop, hc, if_true] at hhdr ⊢
  cases hl : read_place_header_line env verify grid (n + 1) hdr a b with
  | ok flags =>
    rw [hl] at hhdr
    simp only [ReadOutcome.ok.injEq, HeaderState.mk.injEq, true_and] at hhdr
    simp [hhdr.1, hhdr.2]
  | error e => rw [hl] at hhdr; cases hhdr
  | undefined => rw [hl] at hhdr; cases hhdr

theorem read_place_after_header (env : PlaceEnv) (verify : Bool) (grid : DeviceGrid)
    (is_place_file : Bool) (place : PlacementContext) (text : List Char)
    (post : List (List Char))
    (h : read_place_header env verify grid (getlines text) = ReadOutcome.ok post) :
    (read_place env (some text) verify grid is_place_file place).map
        PlacementContext.locations
      = (read_place_body_loop env is_place_file post 0 ⟨place, []⟩).map
          (fun s => s.place.locations) := by
  simp only [read_place, h, read_place_body]
  cases read_place_body_loop env is_place_file post 0 ⟨place, []⟩ with
  | ok s => cases is_place_file <;> rfl
  | error e => rfl
  | undefined => rfl

/-- C20: when the header is complete with the line `hdr` (not before it), that is when the
lines `pre` before it leave one of the two flags unset and `hdr` sets it, the line `L` that
follows `hdr` is taken from the stream and not parsed: the header reader leaves exactly the
lines `post` after `L`, and `read_place` ends as `read_place_body` does on `post` alone (same
block locations and grid occupancy, same exception), whatever `L` is, so as for the file with
an empty line in the place of `L`. -/
theorem read_place_skips_line_after_header (env : PlaceEnv) (verify : Bool) (grid : DeviceGrid)
    (is_place_file : Bool) (place : PlacementContext) (text1 text2 : List Char)
    (pre : List (List Char)) (hdr L : List Char) (post : List (List Char)) (n : Nat)
    (a b : Bool)
    (h1 : getlines text1 = pre ++ hdr :: L :: post)
    (h2 : getlines text2 = pre ++ hdr :: [] :: post)
    (hpre : read_place_header_loop env verify grid pre 0 false false
      = ReadOutcome.ok ⟨[], n, a, b⟩)
    (hab : (a && b) = false)
    (hhdr : read_place_header_loop env verify grid [hdr] n a b
      = ReadOutcome.ok ⟨[], n + 1, true, true⟩) :
    read_place_header env verify grid (getlines text1) = ReadOutcome.ok post ∧
    (read_place env (some text1) verify grid is_place_file place).map
        PlacementContext.locations
      = (read_place_body_loop env is_place_file post 0 ⟨place, []⟩).map
          (fun s => s.place.locations) ∧
    (read_place env (some text1) verify grid is_place_file place).map
        PlacementContext.locations
      = (read_place env (some text2) verify grid is_place_file place).map
          PlacementContext.locations := by
  have key : ∀ M : List Char,
      read_place_header env verify grid (pre ++ hdr :: M :: post) = ReadOutcome.ok post := by
    intro M
    unfold read_place_header
    rw [header_loop_append env verify grid _ n a b hab pre 0 false false hpre,
      header_loop_skips_next env verify grid hdr M post n a b hab hhdr]
  have e1 := read_place_after_header env verify grid is_place_file place text1 post
    (by rw [h1]; exact key L)
  have e2 := read_place_after_header env verify grid is_place_file place text2 post
    (by rw [h2]; exact key [])
  exact ⟨by rw [h1]; exact key L, e1, e1.trans e2.symm⟩

set_option maxRecDepth 1000000 in
/-- Witness of C20: in the file below the block line `b0 1 1 0` directly follows the header,
and `b1 2 0 1` comes after it; only `b1` is loaded. -/
theorem read_place_skips_line_after_header_witness :
    read_place_header place_env true ⟨3, 3⟩
        (getlines ("Netlist_File: a.net Netlist_ID: id0\nArray size: 3 x 3 logic blocks\n"
          ++ "b0 1 1 0\nb1 2 0 1\n").toList)
      = ReadOutcome.ok ["b1 2 0 1".toList] ∧
    (read_place place_env
        (some ("Netlist_File: a.net Netlist_ID: id0\nArray size: 3 x 3 logic blocks\n"
          ++ "b0 1 1 0\nb1 2 0 1\n").toList) true ⟨3, 3⟩ true place_empty).map
        PlacementContext.locations
      = (read_place_body_loop place_env true ["b1 2 0 1".toList] 0 ⟨place_empty, []⟩).map
          (fun s => s.place.locations) ∧
    (read_place place_env
        (some ("Netlist_File: a.net Netlist_ID: id0\nArray size: 3 x 3 logic blocks\n"
          ++ "b0 1 1 0\nb1 2 0 1\n").toList) true ⟨3, 3⟩ true place_empty).map
        PlacementContext.locations
      = (read_place place_env
        (some ("Netlist_File: a.net Netlist_ID: id0\nArray size: 3 x 3 logic blocks\n"
          ++ "\nb1 2 0 1\n").toList) true ⟨3, 3⟩ true place_empty).map
          PlacementContext.locations :=
  read_place_skips_line_after_header place_env true ⟨3, 3⟩ true place_empty _ _
    ["Netlist_File: a.net Netlist_ID: id0".toList] "Array size: 3 x 3 logic blocks".toList
    "b0 1 1 0".toList ["b1 2 0 1".toList] 1 true false (by decide) (by decide) (by decide)
    (by decide) (by decide)

set_option maxRecDepth 1000000 in
/-- C17, the code at a file without a `Netlist_File` line: after the `Array size` line the
header loop goes on (the netlist line has not been seen) and rejects the block line `b0 1 1 0`
as an invalid header line; the same block line after a complete header is loaded. -/
theorem read_place_without_netlist_line :
    (read_place place_env (some "Array size: 3 x 3 logic blocks\nb0 1 1 0\n".toList) false
        ⟨3, 3⟩ true place_empty).error?
      = some (ReadError.invalid_header_line 2 "b0 1 1 0".toList) ∧
    (read_place place_env
        (some ("Netlist_File: a.net Netlist_ID: id0\nArray size: 3 x 3 logic blocks\n\n"
          ++ "b0 1 1 0\n").toList) false ⟨3, 3⟩ true place_empty).val?.map
        (fun p => p.block_locs)
      = some [⟨⟨1, 1, 0⟩, false⟩, t_block_loc.empty] := by
  decide

/-! ### One line of a placement body -/

theorem index_of_lt {α : Type} [DecidableEq α] (a : α) :
    ∀ (l : List α) (i : Nat), index_of a l = some i → i < l.length ∧ l[i]? = some a := by
  intro l
  induction l with
  | nil => intro i h; simp [index_of] at h
  | cons b l ih =>
    intro i h
    simp only [index_of] at h
    by_cases hb : b = a
    · simp only [hb, if_true, Option.some.injEq] at h
      subst h
      simp [hb]
    · simp only [hb, if_false, Option.map_eq_some'] at h
      obtain ⟨j, hj, rfl⟩ := h
      obtain ⟨h1, h2⟩ := ih j hj
      exact ⟨by simp [h1], by simpa using h2⟩

theorem resize_block_locs_length (l : List t_block_loc) (n : Nat) :
    (resize_block_locs l n).length = n := by
  simp only [resize_block_locs, List.length_append, List.length_take, List.length_replicate]
  omega

theorem body_line_skipped (env : PlaceEnv) (is_place_file : Bool) (lineno : Nat)
    (line : List Char) (s : BodyState) (h : is_skipped line = true) :
    read_place_body_line env is_place_file lineno line s = ReadOutcome.ok s := by
  unfold read_place_body_line
  simp only [is_skipped, Bool.or_eq_true, decide_eq_true_eq] at h
  rcases h with h | h
  · simp [h]
  · by_cases h0 : split line = []
    · simp [h0]
    · simp [h0, h]

theorem body_line_block (env : PlaceEnv) (is_place_file : Bool) (lineno : Nat)
    (line : List Char) (s : BodyState) (e : Nat × t_pl_loc)
    (he : block_entry env line = some e) (hok : entry_ok env s.seen_blocks e) :
    read_place_body_line env is_place_file lineno line s
      = ReadOutcome.ok (apply_entry env is_place_file s e) := by
  unfold block_entry at he
  by_cases hb : is_block_line line = true
  · simp only [hb, if_true] at he
    cases hx : atoi (tok (split line) 1) with
    | none => simp [hx] at he
    | some x =>
      cases hy : atoi (tok (split line) 2) with
      | none => simp [hx, hy] at he
      | some y =>
        cases hs : atoi (tok (split line) 3) with
        | none => simp [hx, hy, hs] at he
        | some st =>
          cases hf : env.find_block (block_name line) with
          | none => simp [hx, hy, hs, hf] at he
          | some b =>
            simp only [hx, hy, hs, hf, Option.some.injEq] at he
            subst he
            obtain ⟨h1, h2, h3, h4⟩ := hok
            dsimp only at h1 h2 h3 h4
            have hlt := (index_of_lt _ _ _ hf).1
            simp only [is_block_line, is_skipped, Bool.and_eq_true, Bool.not_eq_true',
              Bool.or_eq_false_iff, decide_eq_false_iff_not, Bool.or_eq_true,
              decide_eq_true_eq] at hb
            obtain ⟨⟨hb1, hb2⟩, hb3⟩ := hb
            have hlen : ¬ ((if s.place.block_locs.length ≠ env.block_names.length then
                resize_block_locs s.place.block_locs env.block_names.length
                else s.place.block_locs).length ≤ b) := by
              split
              · rw [resize_block_locs_length]; omega
              · rename_i hne
                simp only [ne_eq, not_not] at hne
                omega
            unfold read_place_body_line
            unfold block_name at hf
            simp only [hb1, hb2, if_false, hb3, if_true, hx, hy, hs, hf, h1, h2, hlen, h3,
              Bool.not_true, Bool.false_eq_true, h4]
            cases is_place_file <;> rfl
  · simp [hb] at he

theorem body_line_cases (env : PlaceEnv) (is_place_file : Bool) (lineno : Nat)
    (line : List Char) (s : BodyState) :
    (is_skipped line = true ∧
      read_place_body_line env is_place_file lineno line s = ReadOutcome.ok s) ∨
    (is_skipped line = false ∧ is_block_line line = false ∧
      read_place_body_line env is_place_file lineno line s
        = ReadOutcome.error (ReadError.invalid_line lineno line)) ∨
    (is_block_line line = true ∧
      ∃ e, read_place_body_line env is_place_file lineno line s = ReadOutcome.error e) ∨
    (is_block_line line = true ∧ env.find_block (block_name line) = none ∧
      read_place_body_line env is_place_file lineno line s = ReadOutcome.undefined) ∨
    (is_block_line line = true ∧
      ∃ e, block_entry env line = some e ∧ entry_ok env s.seen_blocks e ∧
        read_place_body_line env is_place_file lineno line s
          = ReadOutcome.ok (apply_entry env is_place_file s e)) := by
  by_cases hsk : is_skipped line = true
  · exact Or.inl ⟨hsk, body_line_skipped env is_place_file lineno line s hsk⟩
  · right
    simp only [Bool.not_eq_true] at hsk
    have hsk2 := hsk
    simp only [is_skipped, Bool.or_eq_false_iff, decide_eq_false_iff_not] at hsk2
    obtain ⟨hs1, hs2⟩ := hsk2
    by_cases hb : is_block_line line = true
    · right
      have hb2 := hb
      simp only [is_block_line, hsk, Bool.not_false, Bool.true_and, Bool.or_eq_true,
        Bool.and_eq_true, decide_eq_true_eq] at hb2
      cases hx : atoi (tok (split line) 1) with
      | none =>
        refine Or.inl ⟨hb, ?_⟩
        refine Exists.intro ?w ?_
        case w => exact ReadError.invalid_number (tok (split line) 1)
        unfold read_place_body_line
        simp only [hs1, hs2, if_false, hb2, if_true, hx]
      | some x =>
        cases hy : atoi (tok (split line) 2) with
        | none =>
          refine Or.inl ⟨hb, ?_⟩
          refine Exists.intro ?w ?_
          case w => exact ReadError.invalid_number (tok (split line) 2)
          unfold read_place_body_line
          simp only [hs1, hs2, if_false, hb2, if_true, hx, hy]
        | some y =>
          cases hst : atoi (tok (split line) 3) with
          | none =>
            refine Or.inl ⟨hb, ?_⟩
            refine Exists.intro ?w ?_
            case w => exact ReadError.invalid_number (tok (split line) 3)
            unfold read_place_body_line
            simp only [hs1, hs2, if_false, hb2, if_true, hx, hy, hst]
          | some st =>
            by_cases h1 : env.find_block (block_name line) ∈ s.seen_blocks
            · refine Or.inl ⟨hb, ?_⟩
              refine Exists.intro ?w ?_
              case w => exact ReadError.listed_twice (env.find_block (tok (split line) 0))
              unfold read_place_body_line
              unfold block_name at h1
              simp only [hs1, hs2, if_false, hb2, if_true, hx, hy, hst, h1]
            · by_cases h2 : x < 0 ∨ x > to_int (size_sub env.grid.width 1)
                  ∨ y < 0 ∨ y > to_int (size_sub env.grid.height 1)
              · refine Or.inl ⟨hb, ?_⟩
                refine Exists.intro ?w ?_
                case w => exact ReadError.out_of_range (env.find_block (tok (split line) 0)) x y
                unfold read_place_body_line
                unfold block_name at h1
                simp only [hs1, hs2, if_false, hb2, if_true, hx, hy, hst, h1, h2]
              · cases hf : env.find_block (block_name line) with
                | none =>
                  refine Or.inr (Or.inl ⟨hb, rfl, ?_⟩)
                  unfold read_place_body_line
                  unfold block_name at h1 hf
                  rw [hf] at h1
                  simp only [hs1, hs2, if_false, hb2, if_true, hx, hy, hst, hf, h1, h2]
                | some b =>
                  have hentry : block_entry env line = some (b, ⟨x, y, st⟩) := by
                    simp only [block_entry, hb, if_true, hx, hy, hst, hf]
                  by_cases h3 : env.is_sub_tile_compatible x y b st = true
                  · by_cases h4 : st ≥ env.capacity x y ∨ st < 0
                    · refine Or.inl ⟨hb, ?_⟩
                      refine Exists.intro ?w ?_
                      case w => exact ReadError.subtile_out_of_range (tok (split line) 0) st
                      have hlt := (index_of_lt _ _ _ hf).1
                      have hlen : ¬ ((if s.place.block_locs.length ≠ env.block_names.length
                          then resize_block_locs s.place.block_locs env.block_names.length
                          else s.place.block_locs).length ≤ b) := by
                        split
                        · rw [resize_block_locs_length]; omega
                        · rename_i hne
                          simp only [ne_eq, not_not] at hne
                          omega
                      unfold read_place_body_line
                      unfold block_name at h1 hf
                      rw [hf] at h1
                      simp only [hs1, hs2, if_false, hb2, if_true, hx, hy, hst, hf, h1, h2,
                        hlen, h3, Bool.not_true, Bool.false_eq_true, h4]
                    · refine Or.inr (Or.inr ⟨hb, _, hentry, ?_, ?_⟩)
                      · rw [hf] at h1
                        exact ⟨h1, h2, h3, h4⟩
                      · refine body_line_block env is_place_file lineno line s _ hentry ?_
                        rw [hf] at h1
                        exact ⟨h1, h2, h3, h4⟩
                  · refine Or.inl ⟨hb, ?_⟩
                    refine Exists.intro ?w ?_
                    case w => exact ReadError.illegal_location (tok (split line) 0) x y
                    have hlt := (index_of_lt _ _ _ hf).1
                    have hlen : ¬ ((if s.place.block_locs.length ≠ env.block_names.length
                        then resize_block_locs s.place.block_locs env.block_names.length
                        else s.place.block_locs).length ≤ b) := by
                      split
                      · rw [resize_block_locs_length]; omega
                      · rename_i hne
                        simp only [ne_eq, not_not] at hne
                        omega
                    unfold read_place_body_line
                    unfold block_name at h1 hf
                    rw [hf] at h1
                    simp only [Bool.not_eq_true] at h3
                    simp only [hs1, hs2, if_false, hb2, if_true, hx, hy, hst, hf, h1, h2,
                      hlen, h3, Bool.not_false]
    · simp only [Bool.not_eq_true] at hb
      refine Or.inl ⟨hsk, hb, ?_⟩
      have hb2 := hb
      simp only [is_block_line, hsk, Bool.not_false, Bool.true_and, Bool.or_eq_false_iff,
        Bool.and_eq_false_iff, decide_eq_false_iff_not] at hb2
      unfold read_place_body_line
      have : ¬ ((split line).length = 4 ∨
          ((split line).length = 5 ∧ (tok (split line) 4).head? = some '#')) := by
        rintro (h | ⟨h5, h6⟩)
        · exact hb2.1 h
        · rcases hb2.2 with h7 | h7
          · exact h7 h5
          · exact h7 h6
      simp only [hs1, hs2, if_false, this]

/-! ### Rejected bodies (C14) -/

theorem is_block_line_not_skipped (line : List Char) (h : is_block_line line = true) :
    is_skipped line = false := by
  simp only [is_block_line, Bool.and_eq_true, Bool.not_eq_true'] at h
  exact h.1

theorem block_entry_some (env : PlaceEnv) (line : List Char) (e : Nat × t_pl_loc)
    (h : block_entry env line = some e) :
    is_block_line line = true ∧ atoi (tok (split line) 1) = some e.2.x ∧
    atoi (tok (split line) 2) = some e.2.y ∧ atoi (tok (split line) 3) = some e.2.sub_tile ∧
    env.find_block (block_name line) = some e.1 := by
  unfold block_entry at h
  by_cases hb : is_block_line line = true
  · simp only [hb, if_true] at h
    cases hx : atoi (tok (split line) 1) with
    | none => simp [hx] at h
    | some x =>
      cases hy : atoi (tok (split line) 2) with
      | none => simp [hx, hy] at h
      | some y =>
        cases hs : atoi (tok (split line) 3) with
        | none => simp [hx, hy, hs] at h
        | some st =>
          cases hf : env.find_block (block_name line) with
          | none => simp [hx, hy, hs, hf] at h
          | some b =>
            simp only [hx, hy, hs, hf, Option.some.injEq] at h
            subst h
            exact ⟨hb, rfl, rfl, rfl, rfl⟩
  · simp [hb] at h

theorem to_int_size_sub_le (W : Nat) (hW : W < 18446744073709551616) :
    to_int (size_sub W 1) ≤ (W : Int) - 1 := by
  unfold to_int size_sub
  split <;> omega

theorem body_line_ok_cases (env : PlaceEnv) (is_place_file : Bool) (lineno : Nat)
    (line : List Char) (s s1 : BodyState)
    (h : read_place_body_line env is_place_file lineno line s = ReadOutcome.ok s1) :
    (is_block_line line = false ∧ block_entry env line = none ∧ s1 = s) ∨
    (∃ e, block_entry env line = some e ∧ entry_ok env s.seen_blocks e ∧
      s1 = apply_entry env is_place_file s e) := by
  rcases body_line_cases env is_place_file lineno line s with
    ⟨hsk, h1⟩ | ⟨_, _, h1⟩ | ⟨_, e, h1⟩ | ⟨_, _, h1⟩ | ⟨_, e, he, hok, h1⟩
  · rw [h1] at h
    cases h
    have hb : is_block_line line = false := by simp [is_block_line, hsk]
    exact Or.inl ⟨hb, by simp [block_entry, hb], rfl⟩
  · rw [h1] at h; cases h
  · rw [h1] at h; cases h
  · rw [h1] at h; cases h
  · rw [h1] at h
    cases h
    exact Or.inr ⟨e, he, hok, rfl⟩

theorem body_line_rejected (env : PlaceEnv) (is_place_file : Bool) (lineno : Nat)
    (line : List Char) (s : BodyState)
    (hW : env.grid.width < 18446744073709551616) (hH : env.grid.height < 18446744073709551616)
    (h : rejected_line env s.seen_blocks line) :
    (read_place_body_line env is_place_file lineno line s).val? = none := by
  cases hr : read_place_body_line env is_place_file lineno line s with
  | error e => rfl
  | undefined => rfl
  | ok s1 =>
    exfalso
    obtain ⟨hb, hbad⟩ := h
    rcases body_line_ok_cases env is_place_file lineno line s s1 hr with
      ⟨hnb, _, _⟩ | ⟨e, he, ⟨h1, h2, _, _⟩, _⟩
    · rw [hb] at hnb; cases hnb
    · obtain ⟨_, hx, hy, _, hf⟩ := block_entry_some env line e he
      have hWle := to_int_size_sub_le env.grid.width hW
      have hHle := to_int_size_sub_le env.grid.height hH
      rcases hbad with hseen | ⟨x, hx1, hx2⟩ | ⟨y, hy1, hy2⟩
      · rw [hf] at hseen; exact h1 hseen
      · rw [hx] at hx1
        cases hx1
        apply h2
        rcases hx2 with h | h
        · exact Or.inl h
        · exact Or.inr (Or.inl (by omega))
      · rw [hy] at hy1
        cases hy1
        apply h2
        rcases hy2 with h | h
        · exact Or.inr (Or.inr (Or.inl h))
        · exact Or.inr (Or.inr (Or.inr (by omega)))

theorem body_line_seen (env : PlaceEnv) (is_place_file : Bool) (lineno : Nat)
    (line : List Char) (s s1 : BodyState)
    (h : read_place_body_line env is_place_file lineno line s = ReadOutcome.ok s1) :
    (∀ b, b ∈ s.seen_blocks → b ∈ s1.seen_blocks) ∧
    (is_block_line line = true → env.find_block (block_name line) ∈ s1.seen_blocks) := by
  rcases body_line_ok_cases env is_place_file lineno line s s1 h with
    ⟨hnb, _, rfl⟩ | ⟨e, he, _, rfl⟩
  · exact ⟨fun _ hb => hb, fun hb => by rw [hb] at hnb; cases hnb⟩
  · obtain ⟨_, _, _, _, hf⟩ := block_entry_some env line e he
    refine ⟨fun b hb => ?_, fun _ => ?_⟩
    · simp [apply_entry, hb]
    · simp [apply_entry, hf]

theorem rejected_line_mono (env : PlaceEnv) (seen seen1 : List (Option Nat))
    (line : List Char) (hsub : ∀ b, b ∈ seen → b ∈ seen1) (h : rejected_line env seen line) :
    rejected_line env seen1 line := by
  obtain ⟨hb, h1 | h1⟩ := h
  · exact ⟨hb, Or.inl (hsub _ h1)⟩
  · exact ⟨hb, Or.inr h1⟩

theorem body_loop_rejected (env : PlaceEnv) (is_place_file : Bool)
    (hW : env.grid.width < 18446744073709551616) (hH : env.grid.height < 18446744073709551616) :
    ∀ (lines : List (List Char)) (lineno : Nat) (s : BodyState),
      (∃ l ∈ lines, rejected_line env s.seen_blocks l) →
      (read_place_body_loop env is_place_file lines lineno s).val? = none := by
  intro lines
  induction lines with
  | nil => intro _ _ h; simp at h
  | cons line rest ih =>
    intro lineno s h
    simp only [read_place_body_loop]
    cases hr : read_place_body_line env is_place_file (lineno + 1) line s with
    | error e => rfl
    | undefined => rfl
    | ok s1 =>
      simp only
      obtain ⟨l, hl, hrej⟩ := h
      rcases List.mem_cons.1 hl with rfl | hl
      · have := body_line_rejected env is_place_file (lineno + 1) l s hW hH hrej
        rw [hr] at this
        cases this
      · exact ih _ _ ⟨l, hl, rejected_line_mono env _ _ l
          (body_line_seen env is_place_file _ _ _ _ hr).1 hrej⟩

theorem body_loop_listed_twice (env : PlaceEnv) (is_place_file : Bool)
    (hW : env.grid.width < 18446744073709551616) (hH : env.grid.height < 18446744073709551616)
    (a b : List Char) (ha : is_block_line a = true) (hb : is_block_line b = true)
    (hab : block_name a = block_name b) :
    ∀ (lines : List (List Char)) (lineno : Nat) (s : BodyState),
      [a, b].Sublist lines →
      (read_place_body_loop env is_place_file lines lineno s).val? = none := by
  intro lines
  induction lines with
  | nil => intro _ _ h; cases h
  | cons line rest ih =>
    intro lineno s h
    simp only [read_place_body_loop]
    cases hr : read_place_body_line env is_place_file (lineno + 1) line s with
    | error e => rfl
    | undefined => rfl
    | ok s1 =>
      simp only
      cases h with
      | cons _ h1 => exact ih _ _ h1
      | cons₂ _ h1 =>
        have hmem : b ∈ rest := by
          have := h1.subset
          exact this (List.mem_singleton.2 rfl)
        have hseen := (body_line_seen env is_place_file _ _ _ _ hr).2 ha
        exact body_loop_rejected env is_place_file hW hH rest _ s1
          ⟨b, hmem, hb, Or.inl (by rw [← hab]; exact hseen)⟩

theorem body_loop_undefined (env : PlaceEnv) (is_place_file : Bool) :
    ∀ (lines : List (List Char)) (lineno : Nat) (s : BodyState),
      read_place_body_loop env is_place_file lines lineno s = ReadOutcome.undefined →
      ∃ l ∈ lines, is_block_line l = true ∧ env.find_block (block_name l) = none := by
  intro lines
  induction lines with
  | nil => intro _ _ h; simp [read_place_body_loop] at h
  | cons line rest ih =>
    intro lineno s h
    simp only [read_place_body_loop] at h
    rcases body_line_cases env is_place_file (lineno + 1) line s with
      ⟨_, h1⟩ | ⟨_, _, h1⟩ | ⟨_, e, h1⟩ | ⟨hb, hf, _⟩ | ⟨_, e, _, _, h1⟩
    · rw [h1] at h
      obtain ⟨l, hl, hp⟩ := ih _ _ h
      exact ⟨l, List.mem_cons_of_mem _ hl, hp⟩
    · rw [h1] at h; cases h
    · rw [h1] at h; cases h
    · exact ⟨line, List.mem_cons_self _ _, hb, hf⟩
    · rw [h1] at h
      obtain ⟨l, hl, hp⟩ := ih _ _ h
      exact ⟨l, List.mem_cons_of_mem _ hl, hp⟩

/-- C14 (amended): on a body in which two block lines give the same block name, or in which a block line
gives a number `x` outside `[0, grid.width() - 1]` or a number `y` outside
`[0, grid.height() - 1]`, `read_place_body` never returns normally, for a placement file as
for a constraints file and from every placement context; it ends with an exception whenever
every block line names a block of the netlist (an unknown name makes `find_block` return the
invalid id, with which `block_locs` is indexed). -/
theorem read_place_body_rejects (env : PlaceEnv) (is_place_file : Bool) (content : List Char)
    (lines : List (List Char)) (place : PlacementContext)
    (hW : env.grid.width < 18446744073709551616) (hH : env.grid.height < 18446744073709551616)
    (hbad : (∃ a b, [a, b].Sublist lines ∧ is_block_line a = true ∧ is_block_line b = true ∧
        block_name a = block_name b) ∨
      (∃ l ∈ lines, is_block_line l = true ∧
        ((∃ x, atoi (tok (split l) 1) = some x ∧ (x < 0 ∨ x > (env.grid.width : Int) - 1)) ∨
         (∃ y, atoi (tok (split l) 2) = some y ∧
            (y < 0 ∨ y > (env.grid.height : Int) - 1))))) :
    (read_place_body env is_place_file content lines place).val? = none ∧
    ((∀ l ∈ lines, is_block_line l = true → env.find_block (block_name l) ≠ none) →
      ∃ e, read_place_body env is_place_file content lines place = ReadOutcome.error e) := by
  have hloop : (read_place_body_loop env is_place_file lines 0 ⟨place, []⟩).val? = none := by
    rcases hbad with ⟨a, b, hsub, ha, hb, hab⟩ | ⟨l, hl, hb, hr⟩
    · exact body_loop_listed_twice env is_place_file hW hH a b ha hb hab lines 0 _ hsub
    · exact body_loop_rejected env is_place_file hW hH lines 0 _ ⟨l, hl, hb, Or.inr hr⟩
  unfold read_place_body
  cases hr : read_place_body_loop env is_place_file lines 0 ⟨place, []⟩ with
  | ok s => rw [hr] at hloop; cases hloop
  | error e => exact ⟨rfl, fun _ => ⟨e, rfl⟩⟩
  | undefined =>
    refine ⟨rfl, fun hknown => ?_⟩
    obtain ⟨l, hl, hb, hf⟩ := body_loop_undefined env is_place_file lines 0 _ hr
    exact absurd hf (hknown l hl hb)

set_option maxRecDepth 1000000 in
/-- Witness of C14: a constraints body that lists `b0` twice. -/
theorem read_place_body_rejects_witness :
    (read_place_body place_env false [] ["b0 1 1 0".toList, "b0 2 2 0".toList]
        place_empty).val? = none ∧
    ∃ e, read_place_body place_env false [] ["b0 1 1 0".toList, "b0 2 2 0".toList]
        place_empty = ReadOutcome.error e :=
  ⟨(read_place_body_rejects place_env false [] ["b0 1 1 0".toList, "b0 2 2 0".toList]
      place_empty (by decide) (by decide)
      (Or.inl ⟨"b0 1 1 0".toList, "b0 2 2 0".toList, List.Sublist.refl _, by decide,
        by decide, by decide⟩)).1,
   (read_place_body_rejects place_env false [] ["b0 1 1 0".toList, "b0 2 2 0".toList]
      place_empty (by decide) (by decide)
      (Or.inl ⟨"b0 1 1 0".toList, "b0 2 2 0".toList, List.Sublist.refl _, by decide,
        by decide, by decide⟩)).2 (by decide)⟩

set_option maxRecDepth 1000000 in
/-- C14 fails as stated: in the constraints body `zz 1 1 0`, `b0 9 1 0` the second block line
gives `x = 9`, outside `[0, grid.width() - 1]` on the grid of 3 by 3, but no fatal error is
raised: the first line names a block that is not in the netlist, `find_block` returns the
invalid id, and `block_locs[blk_id]` is indexed with it before the second line is read.  The
outcome is undefined behaviour, neither an exception nor a normal return. -/
theorem read_place_body_unknown_block_undefined :
    (∃ l ∈ ["zz 1 1 0".toList, "b0 9 1 0".toList], is_block_line l = true ∧
      ∃ x, atoi (tok (split l) 1) = some x ∧ x > (place_env.grid.width : Int) - 1) ∧
    (read_place_body place_env false [] ["zz 1 1 0".toList, "b0 9 1 0".toList]
      place_empty).error? = none ∧
    (read_place_body place_env false [] ["zz 1 1 0".toList, "b0 9 1 0".toList]
      place_empty).val? = none := by
  have hs : (read_place_body place_env false [] ["zz 1 1 0".toList, "b0 9 1 0".toList]
      place_empty).val?.isSome = false := by decide
  refine ⟨⟨"b0 9 1 0".toList, by simp, by decide, 9, by decide, by decide⟩, by decide, ?_⟩
  cases h : read_place_body place_env false [] ["zz 1 1 0".toList, "b0 9 1 0".toList]
      place_empty with
  | ok a => rw [h] at hs; cases hs
  | error e => rfl
  | undefined => rfl

/-! ### Effect of an accepted body (C18) -/

theorem body_loop_ok_listed (env : PlaceEnv) (is_place_file : Bool) :
    ∀ (lines : List (List Char)) (lineno : Nat) (s s1 : BodyState),
      read_place_body_loop env is_place_file lines lineno s = ReadOutcome.ok s1 →
      s1 = (listed env lines).foldl (apply_entry env is_place_file) s ∧
      entries_ok env s.seen_blocks (listed env lines) := by
  intro lines
  induction lines with
  | nil =>
    intro lineno s s1 h
    simp only [read_place_body_loop, ReadOutcome.ok.injEq] at h
    subst h
    exact ⟨rfl, trivial⟩
  | cons line rest ih =>
    intro lineno s s1 h
    simp only [read_place_body_loop] at h
    cases hr : read_place_body_line env is_place_file (lineno + 1) line s with
    | error e => rw [hr] at h; cases h
    | undefined => rw [hr] at h; cases h
    | ok s2 =>
      rw [hr] at h
      simp only at h
      obtain ⟨h1, h2⟩ := ih _ _ _ h
      rcases body_line_ok_cases env is_place_file _ line s s2 hr with
        ⟨_, hnone, rfl⟩ | ⟨e, he, hok, rfl⟩
      · simp only [listed, List.filterMap_cons, hnone] at h1 h2 ⊢
        exact ⟨h1, h2⟩
      · simp only [listed, List.filterMap_cons, he, List.foldl_cons] at h1 h2 ⊢
        exact ⟨h1, hok, h2⟩

theorem body_loop_of_listed (env : PlaceEnv) (is_place_file : Bool) :
    ∀ (lines : List (List Char)) (lineno : Nat) (s : BodyState),
      (∀ l ∈ lines, is_skipped l = true ∨ block_entry env l ≠ none) →
      entries_ok env s.seen_blocks (listed env lines) →
      read_place_body_loop env is_place_file lines lineno s
        = ReadOutcome.ok ((listed env lines).foldl (apply_entry env is_place_file) s) := by
  intro lines
  induction lines with
  | nil => intro _ _ _ _; rfl
  | cons line rest ih =>
    intro lineno s hl hok
    simp only [read_place_body_loop]
    cases he : block_entry env line with
    | none =>
      have hsk : is_skipped line = true := by
        rcases hl line (List.mem_cons_self _ _) with h | h
        · exact h
        · exact absurd he h
      rw [body_line_skipped env is_place_file _ line s hsk]
      simp only [listed, List.filterMap_cons, he] at hok ⊢
      exact ih _ _ (fun l hlm => hl l (List.mem_cons_of_mem _ hlm)) hok
    | some e =>
      simp only [listed, List.filterMap_cons, he, List.foldl_cons] at hok ⊢
      obtain ⟨hok1, hok2⟩ := hok
      rw [body_line_block env is_place_file _ line s e he hok1]
      exact ih _ _ (fun l hlm => hl l (List.mem_cons_of_mem _ hlm)) hok2

theorem foldl_apply_entry (env : PlaceEnv) (is_place_file : Bool) :
    ∀ (es : List (Nat × t_pl_loc)) (s : BodyState),
      (es.foldl (apply_entry env is_place_file) s).place.block_locs
          = es.foldl (set_block_loc env.block_names.length is_place_file) s.place.block_locs ∧
      (es.foldl (apply_entry env is_place_file) s).place.grid_blocks
          = (if is_place_file then s.place.grid_blocks
             else es.foldl (fun g e => mark_grid_block g e.2.x e.2.y e.2.sub_tile e.1)
               s.place.grid_blocks) ∧
      (es.foldl (apply_entry env is_place_file) s).place.placement_id
          = s.place.placement_id ∧
      (es.foldl (apply_entry env is_place_file) s).seen_blocks
          = s.seen_blocks ++ es.map (fun e => some e.1) := by
  intro es
  induction es with
  | nil => intro s; simp
  | cons e es ih =>
    intro s
    obtain ⟨h1, h2, h3, h4⟩ := ih (apply_entry env is_place_file s e)
    simp only [List.foldl_cons, h1, h2, h3, h4]
    refine ⟨rfl, ?_, rfl, ?_⟩
    · cases is_place_file <;> rfl
    · simp [apply_entry]

theorem foldl_mark_usage :
    ∀ (es : List (Nat × t_pl_loc)) (g : Int → Int → t_grid_blocks) (x y : Int),
      ((es.foldl (fun g e => mark_grid_block g e.2.x e.2.y e.2.sub_tile e.1) g) x y).usage
        = (g x y).usage + (count_listed_at es x y : Nat) := by
  intro es
  induction es with
  | nil => intro g x y; simp [count_listed_at]
  | cons e es ih =>
    intro g x y
    simp only [List.foldl_cons, ih, count_listed_at, List.filter_cons]
    by_cases h : e.2.x = x ∧ e.2.y = y
    · obtain ⟨hx, hy⟩ := h
      subst hx hy
      simp [mark_grid_block]
      omega
    · have hm : mark_grid_block g e.2.x e.2.y e.2.sub_tile e.1 x y = g x y := by
        simp only [mark_grid_block]
        rw [if_neg]
        rintro ⟨h1, h2⟩
        exact h ⟨h1.symm, h2.symm⟩
      simp [h, hm]

theorem foldl_mark_blocks :
    ∀ (es : List (Nat × t_pl_loc)) (g : Int → Int → t_grid_blocks) (x y sub : Int),
      ((es.foldl (fun g e => mark_grid_block g e.2.x e.2.y e.2.sub_tile e.1) g) x y).blocks sub
        = (match last_listed_at es ⟨x, y, sub⟩ with
           | some b => some b
           | none => (g x y).blocks sub) := by
  intro es
  induction es with
  | nil => intro g x y sub; rfl
  | cons e es ih =>
    intro g x y sub
    simp only [List.foldl_cons, ih, last_listed_at]
    cases hl : last_listed_at es ⟨x, y, sub⟩ with
    | some b => rfl
    | none =>
      simp only
      by_cases h : e.2 = ⟨x, y, sub⟩
      · simp only [h, if_true, mark_grid_block, and_self]
      · simp only [h, if_false, mark_grid_block]
        by_cases hxy : x = e.2.x ∧ y = e.2.y
        · simp only [hxy, and_self, if_true]
          have : ¬ sub = e.2.sub_tile := by
            intro hs
            apply h
            obtain ⟨hx, hy⟩ := hxy
            subst hx hy hs
            rfl
          simp only [this, if_false]
        · simp only [hxy, if_false]

theorem resize_block_locs_getElem? (l : List t_block_loc) (n i : Nat) (old m : t_block_loc)
    (hold : l[i]? = some old) (hm : (resize_block_locs l n)[i]? = some m) : m = old := by
  have hi : i < l.length := by
    rw [List.getElem?_eq_some] at hold
    exact hold.1
  have hin : i < n := by
    have := (List.getElem?_eq_some.1 hm).1
    rw [resize_block_locs_length] at this
    exact this
  unfold resize_block_locs at hm
  rw [List.getElem?_append_left (by simp; omega), List.getElem?_take_of_lt hin, hold] at hm
  cases hm
  rfl

theorem resized_block_locs_length (n : Nat) (l : List t_block_loc) :
    (resized_block_locs n l).length = n := by
  unfold resized_block_locs
  split
  · exact resize_block_locs_length l n
  · rename_i h
    simpa using h

theorem resized_block_locs_of_length (n : Nat) (l : List t_block_loc) (h : l.length = n) :
    resized_block_locs n l = l := by
  simp [resized_block_locs, h]

theorem resized_block_locs_getElem? (l : List t_block_loc) (n i : Nat) (old m : t_block_loc)
    (hold : l[i]? = some old) (hm : (resized_block_locs n l)[i]? = some m) : m = old := by
  unfold resized_block_locs at hm
  split at hm
  · exact resize_block_locs_getElem? l n i old m hold hm
  · rw [hold] at hm
    cases hm
    rfl

theorem set_block_loc_eq (n : Nat) (is_place_file : Bool) (l : List t_block_loc)
    (e : Nat × t_pl_loc) :
    set_block_loc n is_place_file l e
      = (resized_block_locs n l).modify
          (fun bl => ⟨e.2, if is_place_file then bl.is_fixed else true⟩) e.1 := by
  unfold set_block_loc resized_block_locs
  cases is_place_file
  · simp only [Bool.false_eq_true, if_false]
    rw [List.modify_modify_eq]
    rfl
  · simp only [if_true]

theorem set_block_loc_length (n : Nat) (is_place_file : Bool) (l : List t_block_loc)
    (e : Nat × t_pl_loc) : (set_block_loc n is_place_file l e).length = n := by
  rw [set_block_loc_eq, List.length_modify, resized_block_locs_length]

theorem set_block_loc_getElem? (n : Nat) (is_place_file : Bool) (l : List t_block_loc)
    (e : Nat × t_pl_loc) (i : Nat) :
    (set_block_loc n is_place_file l e)[i]?
      = (fun bl : t_block_loc =>
          if e.1 = i then ⟨e.2, if is_place_file then bl.is_fixed else true⟩ else bl)
        <$> (resized_block_locs n l)[i]? := by
  rw [set_block_loc_eq, List.getElem?_modify]

theorem foldl_set_block_loc_length (n : Nat) (is_place_file : Bool) :
    ∀ (es : List (Nat × t_pl_loc)) (l : List t_block_loc), l.length = n →
      (es.foldl (set_block_loc n is_place_file) l).length = n := by
  intro es
  induction es with
  | nil => intro l h; exact h
  | cons e es ih =>
    intro l _
    exact ih _ (set_block_loc_length n is_place_file l e)

theorem foldl_set_block_loc_other (n : Nat) (is_place_file : Bool) (i : Nat) :
    ∀ (es : List (Nat × t_pl_loc)) (l : List t_block_loc), l.length = n →
      (∀ e ∈ es, e.1 ≠ i) →
      (es.foldl (set_block_loc n is_place_file) l)[i]? = l[i]? := by
  intro es
  induction es with
  | nil => intro l _ _; rfl
  | cons e es ih =>
    intro l hl hne
    simp only [List.foldl_cons]
    rw [ih _ (set_block_loc_length n is_place_file l e)
      (fun e1 h1 => hne e1 (List.mem_cons_of_mem _ h1)), set_block_loc_getElem?,
      resized_block_locs_of_length n l hl]
    have := hne e (List.mem_cons_self _ _)
    simp [this]

theorem foldl_set_block_loc_listed (n : Nat) (is_place_file : Bool) :
    ∀ (es : List (Nat × t_pl_loc)) (l : List t_block_loc),
      (es.map (fun e => e.1)).Nodup → (∀ e ∈ es, e.1 < n) →
      ∀ e ∈ es, ∃ bl, (es.foldl (set_block_loc n is_place_file) l)[e.1]? = some bl ∧
        bl.loc = e.2 ∧ (is_place_file = false → bl.is_fixed = true) := by
  intro es
  induction es with
  | nil => intro _ _ _ e he; cases he
  | cons e0 es ih =>
    intro l hnd hlt e he
    simp only [List.map_cons, List.nodup_cons, List.mem_map, not_exists, not_and] at hnd
    simp only [List.foldl_cons]
    rcases List.mem_cons.1 he with rfl | he
    · rw [foldl_set_block_loc_other n is_place_file e.1 es _
        (set_block_loc_length n is_place_file l e)
        (fun e1 h1 h => hnd.1 e1 h1 h), set_block_loc_getElem?]
      have hi : e.1 < (resized_block_locs n l).length := by
        rw [resized_block_locs_length]
        exact hlt e (List.mem_cons_self _ _)
      rw [List.getElem?_eq_getElem hi]
      refine ⟨_, rfl, ?_, ?_⟩
      · simp
      · intro hp
        simp [hp]
    · exact ih _ hnd.2 (fun e1 h1 => hlt e1 (List.mem_cons_of_mem _ h1)) e he

theorem foldl_set_block_loc_frame (n : Nat) (i : Nat) :
    ∀ (es : List (Nat × t_pl_loc)) (l : List t_block_loc) (old new : t_block_loc),
      l[i]? = some old → (es.foldl (set_block_loc n true) l)[i]? = some new →
      new.is_fixed = old.is_fixed ∧ ((∀ e ∈ es, e.1 ≠ i) → new.loc = old.loc) := by
  intro es
  induction es with
  | nil =>
    intro l old new h1 h2
    simp only [List.foldl_nil] at h2
    rw [h1] at h2
    cases h2
    exact ⟨rfl, fun _ => rfl⟩
  | cons e es ih =>
    intro l old new h1 h2
    simp only [List.foldl_cons] at h2
    have hin : i < n := by
      have := (List.getElem?_eq_some.1 h2).1
      rw [foldl_set_block_loc_length n true es _ (set_block_loc_length n true l e)] at this
      exact this
    have hi : i < (resized_block_locs n l).length := by
      rw [resized_block_locs_length]
      exact hin
    have hmid := set_block_loc_getElem? n true l e i
    rw [List.getElem?_eq_getElem hi] at hmid
    have hbase := resized_block_locs_getElem? l n i old _ h1 (List.getElem?_eq_getElem hi)
    simp only [Option.map_eq_map, Option.map_some', if_true] at hmid
    obtain ⟨h3, h4⟩ := ih _ _ new hmid h2
    rw [hbase] at h3 h4
    refine ⟨?_, fun hne => ?_⟩
    · rw [h3]
      split <;> rfl
    · rw [h4 (fun e1 h1 => hne e1 (List.mem_cons_of_mem _ h1))]
      have := hne e (List.mem_cons_self _ _)
      simp [this]

theorem entries_ok_nodup (env : PlaceEnv) :
    ∀ (es : List (Nat × t_pl_loc)) (seen : List (Option Nat)), entries_ok env seen es →
      (es.map (fun e => e.1)).Nodup ∧ ∀ e ∈ es, some e.1 ∉ seen := by
  intro es
  induction es with
  | nil => intro _ _; simp
  | cons e es ih =>
    intro seen h
    obtain ⟨h1, h2⟩ := h
    obtain ⟨h3, h4⟩ := ih _ h2
    refine ⟨?_, ?_⟩
    · simp only [List.map_cons, List.nodup_cons, List.mem_map, not_exists, not_and]
      refine ⟨fun e1 he1 heq => ?_, h3⟩
      apply h4 e1 he1
      simp [heq]
    · intro e1 he1
      rcases List.mem_cons.1 he1 with rfl | he1
      · exact h1.1
      · intro hmem
        exact h4 e1 he1 (by simp [hmem])

theorem listed_lt (env : PlaceEnv) (lines : List (List Char)) :
    ∀ e ∈ listed env lines, e.1 < env.block_names.length := by
  intro e he
  simp only [listed, List.mem_filterMap] at he
  obtain ⟨l, _, hl⟩ := he
  obtain ⟨_, _, _, _, hf⟩ := block_entry_some env l e hl
  exact (index_of_lt _ _ _ hf).1

/-- C18 (amended): when `read_place_body` accepts a file, every listed block has the listed
location, and in a constraints file it is locked; for a constraints file the usage count of
every grid location has grown by the number of blocks listed there, and every sub-tile holds
the last block listed at it (a block listed earlier at the same sub-tile is overwritten), or
what it held before when no block is listed at it; for a placement file the grid occupancy is
unchanged, and a block location that exists before and after keeps `is_fixed`, and keeps its
location when the block is not listed. -/
theorem read_place_body_effect (env : PlaceEnv) (is_place_file : Bool) (content : List Char)
    (lines : List (List Char)) (place out : PlacementContext)
    (h : read_place_body env is_place_file content lines place = ReadOutcome.ok out) :
    (∀ e ∈ listed env lines, ∃ bl, out.block_locs[e.1]? = some bl ∧ bl.loc = e.2 ∧
      (is_place_file = false → bl.is_fixed = true)) ∧
    (is_place_file = false →
      (∀ x y : Int, (out.grid_blocks x y).usage
        = (place.grid_blocks x y).usage + (count_listed_at (listed env lines) x y : Nat)) ∧
      (∀ x y sub : Int, (out.grid_blocks x y).blocks sub
        = (match last_listed_at (listed env lines) ⟨x, y, sub⟩ with
           | some b => some b
           | none => (place.grid_blocks x y).blocks sub))) ∧
    (is_place_file = true →
      out.grid_blocks = place.grid_blocks ∧
      ∀ (i : Nat) (old new : t_block_loc),
        place.block_locs[i]? = some old → out.block_locs[i]? = some new →
        new.is_fixed = old.is_fixed ∧
        ((∀ e ∈ listed env lines, e.1 ≠ i) → new.loc = old.loc)) := by
  unfold read_place_body at h
  cases hr : read_place_body_loop env is_place_file lines 0 ⟨place, []⟩ with
  | error e => rw [hr] at h; cases h
  | undefined => rw [hr] at h; cases h
  | ok s1 =>
    rw [hr] at h
    obtain ⟨hs1, hok⟩ := body_loop_ok_listed env is_place_file lines 0 _ s1 hr
    obtain ⟨hbl, hgb, _, _⟩ := foldl_apply_entry env is_place_file (listed env lines)
      ⟨place, []⟩
    rw [← hs1] at hbl hgb
    dsimp only at hbl hgb
    have hout : out.block_locs = s1.place.block_locs ∧ out.grid_blocks = s1.place.grid_blocks := by
      cases is_place_file
      · simp only [Bool.false_eq_true, if_false, ReadOutcome.ok.injEq] at h
        rw [← h]
        exact ⟨rfl, rfl⟩
      · simp only [if_true, ReadOutcome.ok.injEq] at h
        rw [← h]
        exact ⟨rfl, rfl⟩
    rw [hout.1, hout.2, hbl, hgb]
    refine ⟨?_, ?_, ?_⟩
    · exact foldl_set_block_loc_listed _ _ _ _ (entries_ok_nodup env _ _ hok).1
        (listed_lt env lines)
    · intro hp
      subst hp
      simp only [Bool.false_eq_true, if_false]
      exact ⟨fun x y => foldl_mark_usage _ _ x y, fun x y sub => foldl_mark_blocks _ _ x y sub⟩
    · intro hp
      subst hp
      simp only [if_true]
      exact ⟨trivial, fun i old new h1 h2 => foldl_set_block_loc_frame _ i _ _ old new h1 h2⟩

set_option maxRecDepth 1000000 in
/-- Witness of C18: the constraints body `b0 1 1 0`, `b1 1 1 1` on `place_env`, read into the
placement `place_two`. -/
theorem read_place_body_effect_witness :
    ∃ out : PlacementContext,
      read_place_body place_env false [] ["b0 1 1 0".toList, "b1 1 1 1".toList] place_two
        = ReadOutcome.ok out ∧
      (∀ e ∈ listed place_env ["b0 1 1 0".toList, "b1 1 1 1".toList],
        ∃ bl, out.block_locs[e.1]? = some bl ∧ bl.loc = e.2 ∧ bl.is_fixed = true) ∧
      (out.grid_blocks 1 1).usage = 2 ∧
      (out.grid_blocks 1 1).blocks 0 = some 0 ∧ (out.grid_blocks 1 1).blocks 1 = some 1 := by
  have hv : (read_place_body place_env false [] ["b0 1 1 0".toList, "b1 1 1 1".toList]
      place_two).val?.isSome = true := by decide
  cases hr : read_place_body place_env false [] ["b0 1 1 0".toList, "b1 1 1 1".toList]
      place_two with
  | ok out =>
    have h := read_place_body_effect place_env false []
      ["b0 1 1 0".toList, "b1 1 1 1".toList] place_two out hr
    exact ⟨out, rfl, fun e he => (h.1 e he).imp (fun _ hb => ⟨hb.1, hb.2.1, hb.2.2 rfl⟩),
      ((h.2.1 rfl).1 1 1).trans (by decide), ((h.2.1 rfl).2 1 1 0).trans (by decide),
      ((h.2.1 rfl).2 1 1 1).trans (by decide)⟩
  | error e => rw [hr] at hv; cases hv
  | undefined => rw [hr] at hv; cases hv

set_option maxRecDepth 1000000 in
/-- C18 fails as stated: the constraints body `b0 1 1 0`, `b1 1 1 0` is accepted, it lists
block 0 at sub-tile 0 of location (1, 1), and afterwards that sub-tile holds block 1. -/
theorem read_place_body_overwrites_sub_tile :
    (0, (⟨1, 1, 0⟩ : t_pl_loc)) ∈ listed place_env ["b0 1 1 0".toList, "b1 1 1 0".toList] ∧
    (read_place_body place_env false [] ["b0 1 1 0".toList, "b1 1 1 0".toList]
        place_empty).val?.map (fun out => (out.grid_blocks 1 1).blocks 0)
      = some (some 1) := by
  decide

/-! ### Numerals, tokens and lines of a written file -/

theorem digit_val_digit_char (k : Nat) (hk : k < 10) : digit_val (digit_char k) = some k := by
  interval_cases k <;> rfl

theorem digit_char_not_delim (k : Nat) (hk : k < 10) :
    is_delim (digit_char k) = false ∧ digit_char k ≠ '-' ∧ digit_char k ≠ '#' := by
  interval_cases k <;> decide

theorem parse_digits_fmt_nat_go :
    ∀ (fuel n : Nat) (acc : List Char), n < fuel →
      parse_digits (fmt_nat_go fuel n acc) 0 = parse_digits acc n := by
  intro fuel
  induction fuel with
  | zero => intro n acc h; omega
  | succ f ih =>
    intro n acc h
    unfold fmt_nat_go
    by_cases h0 : n / 10 = 0
    · simp only [h0, if_true, parse_digits, digit_val_digit_char _ (Nat.mod_lt n (by omega))]
      have : n % 10 = n := Nat.mod_eq_of_lt (by omega)
      simp [this]
    · simp only [h0, if_false]
      rw [ih (n / 10) _ (by omega)]
      simp only [parse_digits, digit_val_digit_char _ (Nat.mod_lt n (by omega))]
      have : n / 10 * 10 + n % 10 = n := by omega
      rw [this]

theorem fmt_nat_go_chars :
    ∀ (fuel n : Nat) (acc : List Char), 0 < fuel →
      ∃ ds : List Char, fmt_nat_go fuel n acc = ds ++ acc ∧ ds ≠ [] ∧
        ∀ c ∈ ds, ∃ k, k < 10 ∧ c = digit_char k := by
  intro fuel
  induction fuel with
  | zero => intro n acc h; omega
  | succ f ih =>
    intro n acc _
    unfold fmt_nat_go
    by_cases h0 : n / 10 = 0
    · simp only [h0, if_true]
      exact ⟨[digit_char (n % 10)], rfl, by simp, fun c hc =>
        ⟨n % 10, Nat.mod_lt n (by omega), by simpa using hc⟩⟩
    · simp only [h0, if_false]
      by_cases hf : f = 0
      · subst hf
        exact ⟨[digit_char (n % 10)], rfl, by simp, fun c hc =>
          ⟨n % 10, Nat.mod_lt n (by omega), by simpa using hc⟩⟩
      · obtain ⟨ds, h1, _, h3⟩ := ih (n / 10) (digit_char (n % 10) :: acc) (by omega)
        refine ⟨ds ++ [digit_char (n % 10)], by simp [h1], by simp, fun c hc => ?_⟩
        rcases List.mem_append.1 hc with hc | hc
        · exact h3 c hc
        · exact ⟨n % 10, Nat.mod_lt n (by omega), by simpa using hc⟩

theorem fmt_nat_chars (n : Nat) :
    fmt_nat n ≠ [] ∧ ∀ c ∈ fmt_nat n, ∃ k, k < 10 ∧ c = digit_char k := by
  obtain ⟨ds, h1, h2, h3⟩ := fmt_nat_go_chars (n + 1) n [] (by omega)
  unfold fmt_nat
  rw [h1, List.append_nil]
  exact ⟨h2, h3⟩

theorem fmt_nat_no_delim (n : Nat) : ∀ c ∈ fmt_nat n, is_delim c = false := by
  intro c hc
  obtain ⟨k, hk, rfl⟩ := (fmt_nat_chars n).2 c hc
  exact (digit_char_not_delim k hk).1

theorem parse_digits_fmt_nat (n : Nat) : parse_digits (fmt_nat n) 0 = some n := by
  unfold fmt_nat
  rw [parse_digits_fmt_nat_go _ _ _ (by omega)]
  rfl

theorem atou_fmt_nat (n : Nat) (h : n < 4294967296) : atou (fmt_nat n) = some n := by
  unfold atou
  simp [(fmt_nat_chars n).1, parse_digits_fmt_nat, h]

theorem atoi_fmt_int (x : Int) (h0 : 0 ≤ x) (h1 : x < 2147483648) :
    atoi (fmt_int x) = some x := by
  have hx : fmt_int x = fmt_nat x.toNat := by
    unfold fmt_int
    rw [if_neg (by omega)]
  rw [hx]
  obtain ⟨hne, hch⟩ := fmt_nat_chars x.toNat
  have hp := parse_digits_fmt_nat x.toNat
  cases hl : fmt_nat x.toNat with
  | nil => exact absurd hl hne
  | cons c cs =>
    rw [hl] at hp hch
    obtain ⟨k, hk, hck⟩ := hch c (List.mem_cons_self _ _)
    have hc : c ≠ '-' := by
      rw [hck]
      exact (digit_char_not_delim k hk).2.1
    simp only [atoi, hc, if_false, hp]
    have : x.toNat < 2147483648 := by omega
    simp only [this, if_true]
    congr 1
    omega

theorem fmt_int_chars (x : Int) (h0 : 0 ≤ x) :
    fmt_int x ≠ [] ∧ ∀ c ∈ fmt_int x, is_delim c = false := by
  have hx : fmt_int x = fmt_nat x.toNat := by
    unfold fmt_int
    rw [if_neg (by omega)]
  rw [hx]
  exact ⟨(fmt_nat_chars _).1, fmt_nat_no_delim _⟩

theorem split_go_append (t : List Char) (ht : ∀ c ∈ t, is_delim c = false) :
    ∀ (rest cur : List Char), split_go (t ++ rest) cur = split_go rest (cur ++ t) := by
  induction t with
  | nil => intro rest cur; simp
  | cons c t ih =>
    intro rest cur
    have hc := ht c (List.mem_cons_self _ _)
    simp only [List.cons_append, split_go, hc, Bool.false_eq_true, if_false, List.append_eq]
    rw [ih (fun c1 h1 => ht c1 (List.mem_cons_of_mem _ h1))]
    simp

theorem split_go_token (t : List Char) (ht : is_token t) (d : Char) (hd : is_delim d = true)
    (rest : List Char) : split_go (t ++ d :: rest) [] = t :: split_go rest [] := by
  rw [split_go_append t ht.2]
  simp only [List.nil_append, split_go, hd, if_true, ht.1, if_false]

theorem split_go_delim (d : Char) (hd : is_delim d = true) (rest : List Char) :
    split_go (d :: rest) [] = split_go rest [] := by
  simp only [split_go, hd, if_true]

theorem split_go_last (t : List Char) (ht : is_token t) : split_go t [] = [t] := by
  have := split_go_append t ht.2 [] []
  rw [List.append_nil] at this
  rw [this]
  simp only [List.nil_append, split_go, ht.1, if_false]

theorem getlines_go_append (l : List Char) (hl : ∀ c ∈ l, c ≠ '\n') :
    ∀ (rest cur : List Char),
      getlines_go (l ++ '\n' :: rest) cur = (cur ++ l) :: getlines_go rest [] := by
  induction l with
  | nil => intro rest cur; simp [getlines_go]
  | cons c l ih =>
    intro rest cur
    have hc := hl c (List.mem_cons_self _ _)
    simp only [List.cons_append, getlines_go, hc, if_false, List.append_eq]
    rw [ih (fun c1 h1 => hl c1 (List.mem_cons_of_mem _ h1))]
    simp

theorem not_newline_of_not_delim (c : Char) (h : is_delim c = false) : c ≠ '\n' := by
  rintro rfl
  exact absurd h (by decide)

theorem print_block_eq (name : List Char) (bl : t_block_loc) (blk_id : Nat) :
    print_block name bl blk_id = block_line name bl blk_id ++ ['\n'] := by
  simp [print_block, block_line]

theorem tab_is_delim : is_delim '\t' = true := by decide

theorem blank_is_delim : is_delim ' ' = true := by decide

theorem split_block_line (name : List Char) (bl : t_block_loc) (blk_id : Nat)
    (hname : is_token name) (hx : 0 ≤ bl.loc.x) (hy : 0 ≤ bl.loc.y)
    (hs : 0 ≤ bl.loc.sub_tile) :
    split (block_line name bl blk_id)
      = [name, fmt_int bl.loc.x, fmt_int bl.loc.y, fmt_int bl.loc.sub_tile,
          '#' :: fmt_nat blk_id] := by
  have hlast : is_token ('#' :: fmt_nat blk_id) := by
    refine ⟨by simp, fun c hc => ?_⟩
    rcases List.mem_cons.1 hc with rfl | hc
    · decide
    · exact fmt_nat_no_delim _ c hc
  have hrest : split_go (fmt_int bl.loc.x ++ '\t' :: (fmt_int bl.loc.y ++ '\t' ::
      (fmt_int bl.loc.sub_tile ++ '\t' :: ('#' :: fmt_nat blk_id)))) []
      = [fmt_int bl.loc.x, fmt_int bl.loc.y, fmt_int bl.loc.sub_tile,
          '#' :: fmt_nat blk_id] := by
    rw [split_go_token _ (fmt_int_chars _ hx) _ tab_is_delim,
      split_go_token _ (fmt_int_chars _ hy) _ tab_is_delim,
      split_go_token _ (fmt_int_chars _ hs) _ tab_is_delim, split_go_last _ hlast]
  unfold split block_line
  rw [split_go_token _ hname _ tab_is_delim]
  by_cases h8 : name.length < 8
  · simp only [h8, if_true, List.singleton_append]
    rw [split_go_delim _ tab_is_delim, hrest]
  · simp only [h8, if_false, List.nil_append]
    rw [hrest]

theorem block_line_no_newline (name : List Char) (bl : t_block_loc) (blk_id : Nat)
    (hname : is_token name) (hx : 0 ≤ bl.loc.x) (hy : 0 ≤ bl.loc.y)
    (hs : 0 ≤ bl.loc.sub_tile) : ∀ c ∈ block_line name bl blk_id, c ≠ '\n' := by
  intro c hc
  unfold block_line at hc
  have hnl : ∀ c : Char, is_delim c = false → c ≠ '\n' := not_newline_of_not_delim
  simp only [List.mem_append, List.mem_cons] at hc
  rcases hc with h | h | h | h | h | h | h | h | h | h | h
  · exact hnl c (hname.2 c h)
  · rw [h]; decide
  · split at h
    · rw [List.mem_singleton.1 h]; decide
    · cases h
  · exact hnl c ((fmt_int_chars _ hx).2 c h)
  · rw [h]; decide
  · exact hnl c ((fmt_int_chars _ hy).2 c h)
  · rw [h]; decide
  · exact hnl c ((fmt_int_chars _ hs).2 c h)
  · rw [h]; decide
  · rw [h]; decide
  · exact hnl c (fmt_nat_no_delim _ c h)

set_option maxRecDepth 100000 in
theorem print_place_text_eq (env : PlaceEnv) (net_file net_id : List Char)
    (place : PlacementContext) (hne : place.block_locs ≠ []) :
    print_place_text env net_file net_id place
      = (print_blocks place.block_locs env.block_names 0).map (fun text =>
          netlist_line net_file net_id ++ '\n' ::
            (array_line (env.grid.width % 18446744073709551616)
                (env.grid.height % 18446744073709551616) ++ '\n' ::
              ('\n' :: ("#block name\tx\ty\tsubblk\tblock number".toList ++ '\n' ::
                ("#----------\t--\t--\t------\t------------".toList ++ '\n' :: text))))) := by
  have e1 : "Netlist_File: ".toList = "Netlist_File:".toList ++ [' '] := by decide
  have e2 : " Netlist_ID: ".toList = ' ' :: ("Netlist_ID:".toList ++ [' ']) := by decide
  have e3 : "Array size: ".toList = "Array".toList ++ ' ' :: ("size:".toList ++ [' ']) := by
    decide
  have e4 : " x ".toList = ' ' :: ("x".toList ++ [' ']) := by decide
  have e5 : " logic blocks\n\n".toList
      = ' ' :: ("logic".toList ++ ' ' :: ("blocks".toList ++ ['\n', '\n'])) := by decide
  have e6 : "#block name\tx\ty\tsubblk\tblock number\n".toList
      = "#block name\tx\ty\tsubblk\tblock number".toList ++ ['\n'] := by decide
  have e7 : "#----------\t--\t--\t------\t------------\n".toList
      = "#----------\t--\t--\t------\t------------".toList ++ ['\n'] := by decide
  unfold print_place_text
  simp only [hne, if_false]
  cases print_blocks place.block_locs env.block_names 0 with
  | none => rfl
  | some text =>
    simp only [Option.map_some', Option.some.injEq, netlist_line, array_line]
    rw [e1, e2, e3, e4, e5, e6, e7]
    simp only [List.append_assoc, List.cons_append, List.nil_append, List.singleton_append]

theorem print_blocks_lines (block_locs : List t_block_loc) :
    ∀ (names : List (List Char)) (blk_id : Nat),
      blk_id + names.length ≤ block_locs.length →
      (∀ name ∈ names, is_token name) →
      (∀ (i : Nat) (bl : t_block_loc), block_locs[i]? = some bl →
        0 ≤ bl.loc.x ∧ 0 ≤ bl.loc.y ∧ 0 ≤ bl.loc.sub_tile) →
      ∃ text, print_blocks block_locs names blk_id = some text ∧
        getlines_go text [] = block_lines block_locs names blk_id := by
  intro names
  induction names with
  | nil => intro _ _ _ _; exact ⟨[], rfl, rfl⟩
  | cons name names ih =>
    intro blk_id hlen hnames hlocs
    simp only [List.length_cons] at hlen
    have hi : blk_id < block_locs.length := by omega
    obtain ⟨text, ht1, ht2⟩ := ih (blk_id + 1) (by omega)
      (fun n hn => hnames n (List.mem_cons_of_mem _ hn)) hlocs
    have hget : block_locs[blk_id]? = some block_locs[blk_id] := List.getElem?_eq_getElem hi
    obtain ⟨hx, hy, hs⟩ := hlocs blk_id _ hget
    refine ⟨print_block name block_locs[blk_id] blk_id ++ text, ?_, ?_⟩
    · simp only [print_blocks, hget, ht1]
    · have hD : block_locs.getD blk_id t_block_loc.empty = block_locs[blk_id] := by
        simp [List.getD, hget]
      rw [print_block_eq, List.append_assoc, List.singleton_append,
        getlines_go_append _ (block_line_no_newline name _ blk_id
          (hnames name (List.mem_cons_self _ _)) hx hy hs), ht2]
      simp only [block_lines, hD, List.nil_append]

theorem is_token_no_newline (t : List Char) (ht : is_token t) : ∀ c ∈ t, c ≠ '\n' :=
  fun c hc => not_newline_of_not_delim c (ht.2 c hc)

theorem netlist_line_no_newline (net_file net_id : List Char) (hf : is_token net_file)
    (hi : is_token net_id) : ∀ c ∈ netlist_line net_file net_id, c ≠ '\n' := by
  intro c hc
  unfold netlist_line at hc
  simp only [List.mem_append, List.mem_cons] at hc
  rcases hc with h | h | h | h | h | h | h
  · exact not_newline_of_not_delim c (by revert c; decide)
  · rw [h]; decide
  · exact is_token_no_newline _ hf c h
  · rw [h]; decide
  · exact not_newline_of_not_delim c (by revert c; decide)
  · rw [h]; decide
  · exact is_token_no_newline _ hi c h

theorem array_line_no_newline (width height : Nat) :
    ∀ c ∈ array_line width height, c ≠ '\n' := by
  intro c hc
  unfold array_line at hc
  simp only [List.mem_append, List.mem_cons] at hc
  rcases hc with h | h | h | h | h | h | h | h | h | h | h | h | h
  · exact not_newline_of_not_delim c (by revert c; decide)
  · rw [h]; decide
  · exact not_newline_of_not_delim c (by revert c; decide)
  · rw [h]; decide
  · exact not_newline_of_not_delim c (fmt_nat_no_delim _ c h)
  · rw [h]; decide
  · exact not_newline_of_not_delim c (by revert c; decide)
  · rw [h]; decide
  · exact not_newline_of_not_delim c (fmt_nat_no_delim _ c h)
  · rw [h]; decide
  · exact not_newline_of_not_delim c (by revert c; decide)
  · rw [h]; decide
  · exact not_newline_of_not_delim c (by revert c; decide)

/-! ### Placement round trip (C13) -/

theorem split_netlist_line (net_file net_id : List Char) (hf : is_token net_file)
    (hi : is_token net_id) :
    split (netlist_line net_file net_id)
      = ["Netlist_File:".toList, net_file, "Netlist_ID:".toList, net_id] := by
  unfold split netlist_line
  rw [split_go_token _ ⟨by decide, by decide⟩ _ blank_is_delim,
    split_go_token _ hf _ blank_is_delim,
    split_go_token _ ⟨by decide, by decide⟩ _ blank_is_delim, split_go_last _ hi]

theorem split_array_line (width height : Nat) :
    split (array_line width height)
      = ["Array".toList, "size:".toList, fmt_nat width, "x".toList, fmt_nat height,
          "logic".toList, "blocks".toList] := by
  unfold split array_line
  rw [split_go_token _ ⟨by decide, by decide⟩ _ blank_is_delim,
    split_go_token _ ⟨by decide, by decide⟩ _ blank_is_delim,
    split_go_token _ ⟨(fmt_nat_chars _).1, fmt_nat_no_delim _⟩ _ blank_is_delim,
    split_go_token _ ⟨by decide, by decide⟩ _ blank_is_delim,
    split_go_token _ ⟨(fmt_nat_chars _).1, fmt_nat_no_delim _⟩ _ blank_is_delim,
    split_go_token _ ⟨by decide, by decide⟩ _ blank_is_delim,
    split_go_last _ ⟨by decide, by decide⟩]

theorem header_line_netlist (env : PlaceEnv) (verify : Bool) (grid : DeviceGrid) (lineno : Nat)
    (net_file : List Char) (seen_dims : Bool) (hf : is_token net_file)
    (hi : is_token env.netlist_id) :
    read_place_header_line env verify grid lineno (netlist_line net_file env.netlist_id) false
      seen_dims = ReadOutcome.ok (true, seen_dims) := by
  have h0 : ("Netlist_File:".toList).head? ≠ some '#' := by decide
  unfold read_place_header_line
  simp only [split_netlist_line net_file env.netlist_id hf hi, tok, List.getD_cons_zero,
    List.getD_cons_succ, List.length_cons, List.length_nil, h0, if_false, reduceCtorEq,
    Bool.false_eq_true, ne_eq, not_true_eq_false, false_and, true_and, and_self, if_true,
    Nat.zero_add, Nat.reduceAdd]

theorem header_line_array (env : PlaceEnv) (verify : Bool) (grid : DeviceGrid) (lineno : Nat)
    (seen_id : Bool) (hW : grid.width % 18446744073709551616 < 4294967296)
    (hH : grid.height % 18446744073709551616 < 4294967296) :
    read_place_header_line env verify grid lineno
      (array_line (grid.width % 18446744073709551616) (grid.height % 18446744073709551616))
      seen_id false = ReadOutcome.ok (seen_id, true) := by
  have h0 : ("Array".toList).head? ≠ some '#' := by decide
  have h1 : ¬ ("Array".toList = "Netlist_File:".toList) := by decide
  unfold read_place_header_line
  simp only [split_array_line, tok, List.getD_cons_zero, List.getD_cons_succ, List.length_cons,
    List.length_nil, h0, h1, if_false, reduceCtorEq, false_and, and_false, true_and, and_self,
    if_true, Nat.zero_add, Nat.reduceAdd, atou_fmt_nat _ hW, atou_fmt_nat _ hH, ne_eq,
    not_true_eq_false, or_self, Nat.reduceEqDiff]

theorem header_on_printed (env : PlaceEnv) (verify : Bool) (net_file : List Char)
    (rest : List (List Char)) (hf : is_token net_file) (hi : is_token env.netlist_id)
    (hW : env.grid.width % 18446744073709551616 < 4294967296)
    (hH : env.grid.height % 18446744073709551616 < 4294967296) :
    read_place_header env verify env.grid
        (netlist_line net_file env.netlist_id ::
          array_line (env.grid.width % 18446744073709551616)
            (env.grid.height % 18446744073709551616) :: [] :: rest)
      = ReadOutcome.ok rest := by
  unfold read_place_header
  simp only [read_place_header_loop, Bool.not_false, Bool.or_true, Bool.true_or, if_true,
    header_line_netlist env verify env.grid _ net_file false hf hi,
    header_line_array env verify env.grid _ true hW hH, Bool.not_true, Bool.or_self,
    Bool.false_eq_true, if_false]

theorem index_of_nodup {α : Type} [DecidableEq α] :
    ∀ (l : List α) (j : Nat) (a : α), l.Nodup → l[j]? = some a → index_of a l = some j := by
  intro l
  induction l with
  | nil => intro j a _ h; simp at h
  | cons b l ih =>
    intro j a hnd h
    rw [List.nodup_cons] at hnd
    cases j with
    | zero =>
      simp only [List.getElem?_cons_zero, Option.some.injEq] at h
      simp [index_of, h]
    | succ j =>
      simp only [List.getElem?_cons_succ] at h
      have hmem : a ∈ l := by
        obtain ⟨hj, hja⟩ := List.getElem?_eq_some.1 h
        rw [← hja]
        exact List.getElem_mem hj
      have hne : b ≠ a := by
        rintro rfl
        exact hnd.1 hmem
      simp [index_of, hne, ih j a hnd.2 h]

theorem block_entry_block_line (env : PlaceEnv) (name : List Char) (bl : t_block_loc)
    (blk_id : Nat) (hname : name_ok name) (hloc : loc_ok env blk_id bl)
    (hW : env.grid.width ≤ 2147483648) (hH : env.grid.height ≤ 2147483648)
    (hfind : env.find_block name = some blk_id) :
    block_entry env (block_line name bl blk_id) = some (blk_id, bl.loc) := by
  obtain ⟨⟨hx0, hx1⟩, ⟨hy0, hy1⟩, _, ⟨hs0, _⟩, hs1⟩ := hloc
  have hsplit := split_block_line name bl blk_id hname.1 hx0 hy0 hs0
  have hb : is_block_line (block_line name bl blk_id) = true := by
    simp only [is_block_line, is_skipped, hsplit, tok, List.getD_cons_zero,
      List.getD_cons_succ, List.length_cons, List.length_nil, List.head?_cons, reduceCtorEq,
      decide_False, hname.2, Bool.or_self, Bool.not_false, Bool.true_and, Nat.zero_add,
      Nat.reduceAdd, Nat.reduceEqDiff, decide_True, Bool.and_self, Bool.or_true]
  unfold block_entry
  simp only [hb, if_true, block_name, hsplit, tok, List.getD_cons_zero, List.getD_cons_succ,
    atoi_fmt_int _ hx0 (by omega), atoi_fmt_int _ hy0 (by omega), atoi_fmt_int _ hs0 hs1, hfind]

theorem entry_ok_of_loc_ok (env : PlaceEnv) (seen : List (Option Nat)) (bl : t_block_loc)
    (blk_id : Nat) (hloc : loc_ok env blk_id bl)
    (hW : env.grid.width ≤ 2147483648) (hH : env.grid.height ≤ 2147483648)
    (hseen : some blk_id ∉ seen) : entry_ok env seen (blk_id, bl.loc) := by
  obtain ⟨⟨hx0, hx1⟩, ⟨hy0, hy1⟩, hc, ⟨hs0, hs2⟩, hs1⟩ := hloc
  have hsW := size_sub_one env.grid.width (by omega) hW
  have hsH := size_sub_one env.grid.height (by omega) hH
  refine ⟨hseen, ?_, hc, ?_⟩
  · dsimp only
    rw [hsW, hsH]
    unfold to_int
    split <;> split <;> omega
  · dsimp only
    omega

theorem getlines_go_newline (rest : List Char) :
    getlines_go ('\n' :: rest) [] = [] :: getlines_go rest [] := by
  simp [getlines_go]

theorem block_lines_listed (env : PlaceEnv) (block_locs : List t_block_loc)
    (hW : env.grid.width ≤ 2147483648) (hH : env.grid.height ≤ 2147483648)
    (hlocs : ∀ (k : Nat) (bl : t_block_loc), block_locs[k]? = some bl → loc_ok env k bl) :
    ∀ (names : List (List Char)) (i : Nat),
      (∀ (j : Nat) (name : List Char), names[j]? = some name →
        env.find_block name = some (i + j)) →
      (∀ name ∈ names, name_ok name) →
      i + names.length ≤ block_locs.length →
      listed env (block_lines block_locs names i) = entries_from block_locs names i ∧
      (∀ l ∈ block_lines block_locs names i, block_entry env l ≠ none) ∧
      ∀ seen : List (Option Nat), (∀ b ∈ seen, ∃ k, k < i ∧ b = some k) →
        entries_ok env seen (entries_from block_locs names i) := by
  intro names
  induction names with
  | nil =>
    intro i _ _ _
    exact ⟨rfl, fun l hl => absurd hl (List.not_mem_nil l), fun _ _ => trivial⟩
  | cons name names ih =>
    intro i hfind hnames hlen
    simp only [List.length_cons] at hlen
    have hi : i < block_locs.length := by omega
    have hget : block_locs[i]? = some block_locs[i] := List.getElem?_eq_getElem hi
    have hD : block_locs.getD i t_block_loc.empty = block_locs[i] := by
      simp [List.getD, hget]
    have hloc := hlocs i _ hget
    have hentry := block_entry_block_line env name block_locs[i] i
      (hnames name (List.mem_cons_self _ _)) hloc hW hH
      (by simpa using hfind 0 name (by simp))
    obtain ⟨h1, h2, h3⟩ := ih (i + 1)
      (fun j nm hj => by
        have := hfind (j + 1) nm (by simpa using hj)
        rw [this]
        congr 1
        omega)
      (fun nm hn => hnames nm (List.mem_cons_of_mem _ hn)) (by omega)
    refine ⟨?_, ?_, ?_⟩
    · simp only [block_lines, entries_from, hD, listed, List.filterMap_cons, hentry]
      exact congrArg _ h1
    · intro l hl
      simp only [block_lines, hD, List.mem_cons] at hl
      rcases hl with rfl | hl
      · rw [hentry]
        simp
      · exact h2 l hl
    · intro seen hseen
      simp only [entries_from, hD, entries_ok]
      refine ⟨entry_ok_of_loc_ok env seen _ i hloc hW hH ?_, h3 _ ?_⟩
      · intro hmem
        obtain ⟨k, hk, hkk⟩ := hseen _ hmem
        cases hkk
        omega
      · intro b hb
        rcases List.mem_append.1 hb with hb | hb
        · obtain ⟨k, hk, hkk⟩ := hseen b hb
          exact ⟨k, by omega, hkk⟩
        · exact ⟨i, by omega, by simpa using hb⟩

theorem mem_entries_from (block_locs : List t_block_loc) :
    ∀ (names : List (List Char)) (i k : Nat), i ≤ k → k < i + names.length →
      (k, (block_locs.getD k t_block_loc.empty).loc) ∈ entries_from block_locs names i := by
  intro names
  induction names with
  | nil => intro i k h1 h2; simp at h2; omega
  | cons name names ih =>
    intro i k h1 h2
    simp only [List.length_cons] at h2
    simp only [entries_from, List.mem_cons]
    by_cases hk : k = i
    · subst hk
      exact Or.inl rfl
    · exact Or.inr (ih (i + 1) k (by omega) (by omega))

theorem entries_from_lt (block_locs : List t_block_loc) :
    ∀ (names : List (List Char)) (i : Nat), ∀ e ∈ entries_from block_locs names i,
      e.1 < i + names.length := by
  intro names
  induction names with
  | nil => intro i e he; cases he
  | cons name names ih =>
    intro i e he
    simp only [entries_from, List.mem_cons] at he
    simp only [List.length_cons]
    rcases he with rfl | he
    · dsimp only
      omega
    · have := ih (i + 1) e he
      omega

set_option maxRecDepth 100000 in
theorem listed_comment_lines (env : PlaceEnv) (rest : List (List Char)) :
    listed env (comment_lines ++ rest) = listed env rest ∧
    ∀ l ∈ comment_lines, is_skipped l = true := by
  have h1 : is_skipped "#block name\tx\ty\tsubblk\tblock number".toList = true := by decide
  have h2 : is_skipped "#----------\t--\t--\t------\t------------".toList = true := by decide
  have b1 : is_block_line "#block name\tx\ty\tsubblk\tblock number".toList = false := by
    decide
  have b2 : is_block_line "#----------\t--\t--\t------\t------------".toList = false := by
    decide
  have e1 : block_entry env "#block name\tx\ty\tsubblk\tblock number".toList = none := by
    simp only [block_entry, b1, Bool.false_eq_true, if_false]
  have e2 : block_entry env "#----------\t--\t--\t------\t------------".toList = none := by
    simp only [block_entry, b2, Bool.false_eq_true, if_false]
  refine ⟨?_, ?_⟩
  · simp only [listed, comment_lines, List.cons_append, List.nil_append, List.filterMap_cons,
      e1, e2]
  · intro l hl
    simp only [comment_lines, List.mem_cons, List.mem_singleton, List.not_mem_nil,
      or_false] at hl
    rcases hl with rfl | rfl
    · exact h1
    · exact h2

/-- C13 (amended): for a netlist whose block names are distinct tokens (not empty, no blank,
tab or newline) that do not start with `#`, a netlist file name and a netlist id that are
tokens too, a grid of width and height at most `2^31`, and a placement with one location for
every block, not empty, each location inside the grid at a compatible sub-tile below the
capacity of the tile: `print_place` with the id of the netlist writes a file, and `read_place`
(as a placement file, with or without verification of the digests, into any placement
context) on that file and the same grid completes and leaves every block with the `x`, `y`
and `sub_tile` that were written. -/
theorem print_place_read_place_round_trip (env : PlaceEnv) (net_file : List Char)
    (place st0 : PlacementContext) (verify : Bool)
    (hfile : is_token net_file) (hid : is_token env.netlist_id)
    (hW : env.grid.width ≤ 2147483648) (hH : env.grid.height ≤ 2147483648)
    (hnodup : env.block_names.Nodup) (hnames : ∀ name ∈ env.block_names, name_ok name)
    (hne : place.block_locs ≠ []) (hlen : place.block_locs.length = env.block_names.length)
    (hlocs : ∀ (i : Nat) (bl : t_block_loc), place.block_locs[i]? = some bl →
      loc_ok env i bl) :
    ∃ (text : List Char) (place1 out : PlacementContext),
      print_place env net_file env.netlist_id place = some (text, place1) ∧
      read_place env (some text) verify env.grid true st0 = ReadOutcome.ok out ∧
      ∀ (i : Nat) (bl : t_block_loc), place.block_locs[i]? = some bl →
        ∃ bl1, out.block_locs[i]? = some bl1 ∧ bl1.loc = bl.loc := by
  have hmW : env.grid.width % 18446744073709551616 = env.grid.width :=
    Nat.mod_eq_of_lt (by omega)
  have hmH : env.grid.height % 18446744073709551616 = env.grid.height :=
    Nat.mod_eq_of_lt (by omega)
  obtain ⟨btext, hb1, hb2⟩ := print_blocks_lines place.block_locs env.block_names 0
    (by omega) (fun name hn => (hnames name hn).1)
    (fun i bl h => ⟨(hlocs i bl h).1.1, (hlocs i bl h).2.1.1, (hlocs i bl h).2.2.2.1.1⟩)
  have htext := print_place_text_eq env net_file env.netlist_id place hne
  rw [hb1, Option.map_some'] at htext
  obtain ⟨hl1, hl2, hl3⟩ := block_lines_listed env place.block_locs hW hH hlocs
    env.block_names 0
    (fun j name hj => by
      rw [Nat.zero_add]
      exact index_of_nodup _ j name hnodup hj)
    hnames (by omega)
  obtain ⟨hc1, hc2⟩ := listed_comment_lines env (block_lines place.block_locs env.block_names 0)
  have hlines : getlines (netlist_line net_file env.netlist_id ++ '\n' ::
      (array_line (env.grid.width % 18446744073709551616)
          (env.grid.height % 18446744073709551616) ++ '\n' ::
        ('\n' :: ("#block name\tx\ty\tsubblk\tblock number".toList ++ '\n' ::
          ("#----------\t--\t--\t------\t------------".toList ++ '\n' :: btext)))))
      = netlist_line net_file env.netlist_id ::
          array_line (env.grid.width % 18446744073709551616)
            (env.grid.height % 18446744073709551616) :: [] ::
          (comment_lines ++ block_lines place.block_locs env.block_names 0) := by
    unfold getlines
    rw [getlines_go_append _ (netlist_line_no_newline _ _ hfile hid),
      getlines_go_append _ (array_line_no_newline _ _),
      getlines_go_newline,
      getlines_go_append _ (by decide), getlines_go_append _ (by decide), hb2]
    rfl
  have hbody := body_loop_of_listed env true
    (comment_lines ++ block_lines place.block_locs env.block_names 0) 0 ⟨st0, []⟩
    (fun l hl => by
      rcases List.mem_append.1 hl with h | h
      · exact Or.inl (hc2 l h)
      · exact Or.inr (hl2 l h))
    (by
      rw [hc1, hl1]
      exact hl3 [] (fun b hb => by cases hb))
  rw [hc1, hl1] at hbody
  obtain ⟨hfl, _, _, _⟩ := foldl_apply_entry env true
    (entries_from place.block_locs env.block_names 0) ⟨st0, []⟩
  generalize netlist_line net_file env.netlist_id ++ '\n' ::
      (array_line (env.grid.width % 18446744073709551616)
          (env.grid.height % 18446744073709551616) ++ '\n' ::
        ('\n' :: ("#block name\tx\ty\tsubblk\tblock number".toList ++ '\n' ::
          ("#----------\t--\t--\t------\t------------".toList ++ '\n' :: btext)))) = T
    at htext hlines
  refine ⟨T, { place with placement_id := env.secure_digest T },
    { (List.foldl (apply_entry env true) ⟨st0, []⟩
        (entries_from place.block_locs env.block_names 0)).place with
      placement_id := env.secure_digest T }, ?_, ?_, ?_⟩
  · unfold print_place
    rw [htext]
  · simp only [read_place, hlines,
      header_on_printed env verify net_file _ hfile hid (by omega) (by omega),
      read_place_body, hbody, if_true]
  · intro i bl hi
    have hil : i < place.block_locs.length := (List.getElem?_eq_some.1 hi).1
    have hmem := mem_entries_from place.block_locs env.block_names 0 i (by omega) (by omega)
    have hD : place.block_locs.getD i t_block_loc.empty = bl := by
      simp [List.getD, hi]
    rw [hD] at hmem
    have hnd := (entries_ok_nodup env _ _ (hl3 [] (fun b hb => by cases hb))).1
    obtain ⟨bl1, h1, h2, _⟩ := foldl_set_block_loc_listed env.block_names.length true
      (entries_from place.block_locs env.block_names 0) st0.block_locs hnd
      (fun e he => by
        have := entries_from_lt place.block_locs env.block_names 0 e he
        omega)
      _ hmem
    refine ⟨bl1, ?_, h2⟩
    dsimp only
    rw [hfl]
    exact h1

set_option maxRecDepth 1000000 in
/-- Witness of C13: the placement `place_two` of the two blocks of `place_env`, written with
the netlist file name `a.net` and read back into an empty placement context. -/
theorem print_place_read_place_round_trip_witness :
    ∃ (text : List Char) (place1 out : PlacementContext),
      print_place place_env "a.net".toList place_env.netlist_id place_two
        = some (text, place1) ∧
      read_place place_env (some text) true place_env.grid true place_empty
        = ReadOutcome.ok out ∧
      ∀ (i : Nat) (bl : t_block_loc), place_two.block_locs[i]? = some bl →
        ∃ bl1, out.block_locs[i]? = some bl1 ∧ bl1.loc = bl.loc :=
  print_place_read_place_round_trip place_env "a.net".toList place_two place_empty true
    (by decide) (by decide) (by decide) (by decide) (by decide) (by decide) (by decide)
    (by decide)
    (fun i bl h => by
      rcases i with _ | _ | i
      · cases h
        decide
      · cases h
        decide
      · cases h)

set_option maxRecDepth 1000000 in
/-- C13 fails as stated: with the netlist file name `my design.net`, which holds a blank, the
first line of the file that `print_place` writes has five tokens, and `read_place` rejects it
as an invalid header line, although the netlist, the grid and the placement meet every
condition of the claim. -/
theorem print_place_blank_in_net_file :
    (place_env.block_names.Nodup ∧ (∀ name ∈ place_env.block_names, name_ok name) ∧
      place_two.block_locs ≠ [] ∧
      ∀ p ∈ place_two.block_locs.enum, loc_ok place_env p.1 p.2) ∧
    (read_place place_env
        ((print_place place_env "my design.net".toList place_env.netlist_id place_two).map
          (fun w => w.1))
        true place_env.grid true place_empty).error?
      = some (ReadError.invalid_header_line 1
          "Netlist_File: my design.net Netlist_ID: id0".toList) := by
  decide

